import Mathlib

/-!
Verification of the xmongodb storage core (Go sources under server/storage).

The development shallowly embeds the storage-layer data structures and
operations: byte slices become `List Nat`, Go structs become Lean structures,
mutation becomes explicit state passing, `error` returns become `Option`
valued results, and the pointer-linked B+Tree nodes live in an arena addressed
by natural-number handles.  Loops that walk node links take an explicit fuel
argument so that every definition is a total, executable function.
-/

/-- Lexicographic comparison of byte slices.  Mirrors `compareBytes` in
record_id.go (compare element-wise over the common length, then compare
lengths), which coincides with `bytes.Compare` used by btree.go. -/
def bytesCompare : List Nat → List Nat → Int
  | [], [] => 0
  | [], _ :: _ => -1
  | _ :: _, [] => 1
  | a :: as, b :: bs =>
      if a < b then -1
      else if b < a then 1
      else bytesCompare as bs

/-- Equality of byte slices as used via `bytes.Equal` in the Go sources. -/
def bytesEqual (a b : List Nat) : Bool := a = b

/-- The Go conversion `uint64(x)` applied to an `int64` value: reduce modulo
2^64 into the non-negative representatives. -/
def int64ToUInt64 (x : Int) : Nat := (x % (2 : Int) ^ 64).toNat

/-- The Go call `binary.BigEndian.PutUint64`: eight big-endian bytes. -/
def putUint64BE (n : Nat) : List Nat :=
  [ n / 2 ^ 56 % 256, n / 2 ^ 48 % 256, n / 2 ^ 40 % 256, n / 2 ^ 32 % 256,
    n / 2 ^ 24 % 256, n / 2 ^ 16 % 256, n / 2 ^ 8 % 256, n % 256 ]

/-- RecordId from record_id.go: a tagged value with `repr` 0 = null,
1 = int64, 2 = bytes.  All three payload fields are present in the Go struct;
unused ones keep their zero values. -/
structure RecordId where
  repr : Int
  long : Int
  data : List Nat
deriving DecidableEq, Repr

/-- Constructor `NewRecordIdFromLong` in record_id.go. -/
def NewRecordIdFromLong (id : Int) : RecordId := ⟨1, id, []⟩

/-- Constructor `NewRecordIdFromBytes` in record_id.go; the defensive copy of
the slice is the identity on immutable lists. -/
def NewRecordIdFromBytes (d : List Nat) : RecordId := ⟨2, 0, d⟩

/-- Constructor `NullRecordId` in record_id.go. -/
def NullRecordId : RecordId := ⟨0, 0, []⟩

/-- Method `RecordId.IsNull`. -/
def RecordId.IsNull (r : RecordId) : Bool := r.repr = 0

/-- Method `RecordId.AsBytes`: bytes variant returns its payload, int64
variant returns the 8-byte big-endian encoding of `uint64(long)`, null has no
byte form (the Go method returns `(nil, false)`). -/
def RecordId.AsBytes (r : RecordId) : Option (List Nat) :=
  if r.repr = 2 then some r.data
  else if r.repr = 1 then some (putUint64BE (int64ToUInt64 r.long))
  else none

/-- Method `RecordId.Compare`: when the `repr` tags differ the result is the
tag difference; otherwise null = null, int64s compare numerically and byte
forms compare lexicographically. -/
def RecordId.Compare (r other : RecordId) : Int :=
  if r.repr ≠ other.repr then r.repr - other.repr
  else if r.repr = 0 then 0
  else if r.repr = 1 then
    (if r.long < other.long then -1 else if r.long > other.long then 1 else 0)
  else if r.repr = 2 then bytesCompare r.data other.data
  else 0

/-- C3 counterexample: for x = 0, serialising `NewRecordIdFromLong 0` with
`AsBytes`, rebuilding through `NewRecordIdFromBytes` and comparing against the
original yields the tag difference 2 - 1 = 1, not 0: the reconstruction is a
bytes-variant RecordId while the original is an int64 variant, and `Compare`
orders by variant tag first. -/
theorem RecordId_roundtrip_compare_not_zero :
    (NewRecordIdFromBytes (((NewRecordIdFromLong 0).AsBytes).getD [])).Compare
      (NewRecordIdFromLong 0) ≠ 0 := by
  decide

/-- C3 amended: for every int64 value x, reconstructing a RecordId from
`AsBytes` of `NewRecordIdFromLong x` preserves the byte serialisation exactly
(`AsBytes` of the reconstruction equals the original serialisation), but
`Compare` against the original returns 1, the difference of the variant tags
(bytes = 2 versus int64 = 1), rather than 0. -/
theorem RecordId_roundtrip_bytes_preserved (x : Int)
    (h1 : -(2 ^ 63) ≤ x) (h2 : x < 2 ^ 63) :
    ∀ bs, (NewRecordIdFromLong x).AsBytes = some bs →
      (NewRecordIdFromBytes bs).Compare (NewRecordIdFromLong x) = 1 ∧
      (NewRecordIdFromBytes bs).AsBytes = some bs := by
  intro bs hbs
  constructor
  · simp [RecordId.Compare, NewRecordIdFromBytes, NewRecordIdFromLong]
  · simp [RecordId.AsBytes, NewRecordIdFromBytes]

/-- Witness for the C3 amended theorem at x = 5. -/
theorem RecordId_roundtrip_bytes_preserved_witness :
    (-(2 ^ 63) ≤ (5 : Int)) ∧ ((5 : Int) < 2 ^ 63) ∧
    ((NewRecordIdFromBytes (putUint64BE (int64ToUInt64 5))).Compare
        (NewRecordIdFromLong 5) = 1 ∧
      (NewRecordIdFromBytes (putUint64BE (int64ToUInt64 5))).AsBytes =
        some (putUint64BE (int64ToUInt64 5))) :=
  ⟨by norm_num, by norm_num,
    RecordId_roundtrip_bytes_preserved 5 (by norm_num) (by norm_num)
      (putUint64BE (int64ToUInt64 5)) (by decide)⟩

/-- Transaction states from recovery_unit.go (`TxnStateInactive` etc.). -/
inductive TransactionState
  | inactive
  | active
  | committed
  | aborted
deriving DecidableEq, Repr

/-- A registered change from recovery_unit.go.  The Go `Change` interface
carries a commit callback and a rollback callback; the embedding abstracts a
callback into its observable interface: an identifying tag (so invocations can
be traced) and the error it returns, `none` meaning success. -/
structure Change where
  id : Nat
  commitErr : Option Nat
  rollbackErr : Option Nat
deriving DecidableEq, Repr

/-- Errors produced by WiredTigerRecoveryUnit, one constructor per distinct
`fmt.Errorf` site in recovery_unit.go; the two wrapping sites keep the wrapped
callback error as payload. -/
inductive RUErr
  | txnAlreadyActive
  | noActiveTxnToCommit
  | noActiveTxnToRollback
  | commitChangeFailed (e : Nat)
  | rollbackChangeFailed (e : Nat)
  | setCommitTsNotActive
  | registerNotActive
deriving DecidableEq, Repr

/-- State of a WiredTigerRecoveryUnit (recovery_unit.go).  Timestamps are
abstract instants (`time.Time` becomes `Nat`, the zero value standing for the
zero time); operations that read the clock take the current instant as an
argument. -/
structure RecoveryUnit where
  state : TransactionState
  readTimestamp : Nat
  commitTimestamp : Nat
  changes : List Change
  snapshot : List (String × List Nat)
deriving DecidableEq, Repr

/-- Constructor `NewRecoveryUnit`. -/
def NewRecoveryUnit : RecoveryUnit := ⟨.inactive, 0, 0, [], []⟩

/-- Method `BeginTransaction`: fails when already active, otherwise resets the
change log, the snapshot and the read timestamp. -/
def RecoveryUnit.BeginTransaction (ru : RecoveryUnit) (now : Nat) :
    RecoveryUnit × Option RUErr :=
  if ru.state = .active then (ru, some .txnAlreadyActive)
  else
    ({ ru with
        state := .active
        readTimestamp := now
        changes := []
        snapshot := [] }, none)

/-- The commit loop of `Commit`: invoke each change's commit action in
registration order, stopping at the first failure.  Returns the trace of
invoked change ids together with the first error. -/
def runCommitActions : List Change → List Nat × Option Nat
  | [] => ([], none)
  | c :: rest =>
      match c.commitErr with
      | some e => ([c.id], some e)
      | none =>
          let r := runCommitActions rest
          (c.id :: r.1, r.2)

/-- The rollback loop of `Rollback`: invoke each change's rollback action in
reverse registration order (`for i := len-1; i >= 0; i--`), stopping at the
first failure. -/
def runRollbackActions : List Change → List Nat × Option Nat
  | [] => ([], none)
  | c :: rest =>
      let r := runRollbackActions rest
      match r.2 with
      | some e => (r.1, some e)
      | none =>
          match c.rollbackErr with
          | some e => (r.1 ++ [c.id], some e)
          | none => (r.1 ++ [c.id], none)

/-- Method `Commit` (recovery_unit.go lines 96-122): only valid from Active;
resolves the commit timestamp, runs the commit actions in registration order;
on a failure transitions to Aborted keeping the change log, on success
transitions to Committed and discards the change log.  The middle component is
the trace of invoked commit actions. -/
def RecoveryUnit.Commit (ru : RecoveryUnit) (now : Nat) :
    RecoveryUnit × List Nat × Option RUErr :=
  if ru.state ≠ .active then (ru, [], some .noActiveTxnToCommit)
  else
    let ts := if ru.commitTimestamp = 0 then now else ru.commitTimestamp
    let r := runCommitActions ru.changes
    match r.2 with
    | some e =>
        ({ ru with state := .aborted, commitTimestamp := ts }, r.1,
          some (.commitChangeFailed e))
    | none =>
        ({ ru with state := .committed, commitTimestamp := ts, changes := [] },
          r.1, none)

/-- Method `Rollback` (recovery_unit.go lines 125-145): only valid from
Active; runs the rollback actions in reverse registration order; on a failure
returns the wrapped error leaving every field untouched, on success
transitions to Aborted and clears the change log and the snapshot. -/
def RecoveryUnit.Rollback (ru : RecoveryUnit) :
    RecoveryUnit × List Nat × Option RUErr :=
  if ru.state ≠ .active then (ru, [], some .noActiveTxnToRollback)
  else
    let r := runRollbackActions ru.changes
    match r.2 with
    | some e => (ru, r.1, some (.rollbackChangeFailed e))
    | none =>
        ({ ru with state := .aborted, changes := [], snapshot := [] }, r.1,
          none)

/-- Method `RegisterChange`: only valid from Active; appends in call order. -/
def RecoveryUnit.RegisterChange (ru : RecoveryUnit) (c : Change) :
    RecoveryUnit × Option RUErr :=
  if ru.state ≠ .active then (ru, some .registerNotActive)
  else ({ ru with changes := ru.changes ++ [c] }, none)

/-- Method `IsActive`. -/
def RecoveryUnit.IsActive (ru : RecoveryUnit) : Bool := ru.state = .active

/-- Method `IsCommitted`. -/
def RecoveryUnit.IsCommitted (ru : RecoveryUnit) : Bool := ru.state = .committed

/-- Method `IsAborted`. -/
def RecoveryUnit.IsAborted (ru : RecoveryUnit) : Bool := ru.state = .aborted

theorem runCommitActions_all_ok (cs : List Change)
    (h : ∀ c ∈ cs, c.commitErr = none) :
    runCommitActions cs = (cs.map Change.id, none) := by
  induction cs with
  | nil => rfl
  | cons c rest ih =>
      have hc : c.commitErr = none := h c (by simp)
      have hrest := ih (fun c' hc' => h c' (by simp [hc']))
      simp [runCommitActions, hc, hrest]

theorem runRollbackActions_all_ok (cs : List Change)
    (h : ∀ c ∈ cs, c.rollbackErr = none) :
    runRollbackActions cs = ((cs.map Change.id).reverse, none) := by
  induction cs with
  | nil => rfl
  | cons c rest ih =>
      have hc : c.rollbackErr = none := h c (by simp)
      have hrest := ih (fun c' hc' => h c' (by simp [hc']))
      simp [runRollbackActions, hc, hrest]

theorem runRollbackActions_tail_failure (pre post : List Change) (c : Change)
    (e : Nat) (hfail : c.rollbackErr = some e)
    (hpost : ∀ c' ∈ post, c'.rollbackErr = none) :
    runRollbackActions (pre ++ c :: post) =
      ((post.map Change.id).reverse ++ [c.id], some e) := by
  induction pre with
  | nil =>
      simp [runRollbackActions, runRollbackActions_all_ok post hpost, hfail]
  | cons a pre ih =>
      simp [runRollbackActions, ih]

/-- C5: from an Active recovery unit whose registered changes all succeed,
`Commit` invokes the commit actions exactly in registration order and reaches
Committed, and `Rollback` invokes the rollback actions exactly in reverse
registration order and reaches Aborted. -/
theorem RecoveryUnit_commit_forward_rollback_reverse (ru : RecoveryUnit)
    (now : Nat) (hact : ru.state = .active)
    (hc : ∀ c ∈ ru.changes, c.commitErr = none)
    (hr : ∀ c ∈ ru.changes, c.rollbackErr = none) :
    (ru.Commit now).2.1 = ru.changes.map Change.id ∧
    (ru.Commit now).1.state = .committed ∧
    (ru.Commit now).2.2 = none ∧
    ru.Rollback.2.1 = (ru.changes.map Change.id).reverse ∧
    ru.Rollback.1.state = .aborted ∧
    ru.Rollback.2.2 = none := by
  have hcommit := runCommitActions_all_ok ru.changes hc
  have hrollback := runRollbackActions_all_ok ru.changes hr
  simp [RecoveryUnit.Commit, RecoveryUnit.Rollback, hact, hcommit, hrollback]

/-- Witness for the C5 theorem: three changes registered in order 1, 2, 3. -/
theorem RecoveryUnit_commit_forward_rollback_reverse_witness :
    (RecoveryUnit.state ⟨.active, 0, 0,
        [⟨1, none, none⟩, ⟨2, none, none⟩, ⟨3, none, none⟩], []⟩ = .active) ∧
    ((RecoveryUnit.Commit ⟨.active, 0, 0,
        [⟨1, none, none⟩, ⟨2, none, none⟩, ⟨3, none, none⟩], []⟩ 7).2.1 =
          [1, 2, 3] ∧
      (RecoveryUnit.Rollback ⟨.active, 0, 0,
        [⟨1, none, none⟩, ⟨2, none, none⟩, ⟨3, none, none⟩], []⟩).2.1 =
          [3, 2, 1]) := by
  refine ⟨rfl, ?_, ?_⟩
  · exact (RecoveryUnit_commit_forward_rollback_reverse _ 7 rfl
      (by decide) (by decide)).1
  · have h := (RecoveryUnit_commit_forward_rollback_reverse
      ⟨.active, 0, 0, [⟨1, none, none⟩, ⟨2, none, none⟩, ⟨3, none, none⟩], []⟩
      7 rfl (by decide) (by decide)).2.2.2.1
    simpa using h

/-- C10: when the rollback action of a registered change fails, `Rollback`
returns that change's error, the unit keeps every field unchanged (in
particular it is still Active and the change log is not cleared), and exactly
the rollback actions of the failing change and of all later-registered changes
have been invoked, in reverse registration order. -/
theorem RecoveryUnit_rollback_failure_stays_active (ru : RecoveryUnit)
    (pre post : List Change) (c : Change) (e : Nat)
    (hact : ru.state = .active) (hsplit : ru.changes = pre ++ c :: post)
    (hfail : c.rollbackErr = some e)
    (hpost : ∀ c' ∈ post, c'.rollbackErr = none) :
    ru.Rollback.2.2 = some (.rollbackChangeFailed e) ∧
    ru.Rollback.1 = ru ∧
    ru.Rollback.1.state = .active ∧
    ru.Rollback.1.changes = ru.changes ∧
    ru.Rollback.2.1 = (post.map Change.id).reverse ++ [c.id] := by
  have hrun := runRollbackActions_tail_failure pre post c e hfail hpost
  simp [RecoveryUnit.Rollback, hact, hsplit, hrun]

/-- Witness for the C10 theorem: changes 1, 2, 3 where change 2's rollback
action fails with error 9; actions 3 then 2 run, 1 never runs. -/
theorem RecoveryUnit_rollback_failure_stays_active_witness :
    (RecoveryUnit.state ⟨.active, 0, 0,
        [⟨1, none, none⟩, ⟨2, none, some 9⟩, ⟨3, none, none⟩], []⟩ = .active) ∧
    ((RecoveryUnit.Rollback ⟨.active, 0, 0,
        [⟨1, none, none⟩, ⟨2, none, some 9⟩, ⟨3, none, none⟩], []⟩).2.2 =
          some (.rollbackChangeFailed 9) ∧
      (RecoveryUnit.Rollback ⟨.active, 0, 0,
        [⟨1, none, none⟩, ⟨2, none, some 9⟩, ⟨3, none, none⟩], []⟩).2.1 =
          [3, 2]) := by
  have h := RecoveryUnit_rollback_failure_stays_active
    ⟨.active, 0, 0, [⟨1, none, none⟩, ⟨2, none, some 9⟩, ⟨3, none, none⟩], []⟩
    [⟨1, none, none⟩] [⟨3, none, none⟩] ⟨2, none, some 9⟩ 9
    rfl rfl rfl (by decide)
  exact ⟨rfl, h.1, by simpa using h.2.2.2.2⟩

/-- Errors produced by WiredTigerSession (session.go), one constructor per
`fmt.Errorf` site plus propagation of RecoveryUnit errors (`return err`);
`endRollbackFailed` is the wrapping site in `End`. -/
inductive SessionErr
  | sessionAlreadyActive
  | endRollbackFailed (e : RUErr)
  | sessionNotActive
  | alreadyInTransaction
  | noActiveTransaction
  | fromRecoveryUnit (e : RUErr)
deriving DecidableEq, Repr

/-- State of a WiredTigerSession (session.go).  The non-owning back reference
to the engine is omitted: no method of session.go ever reads it. -/
structure Session where
  sessionId : String
  recoveryUnit : RecoveryUnit
  active : Bool
  inTransaction : Bool
  createdAt : Nat
deriving DecidableEq, Repr

/-- Constructor `NewEngineSession`. -/
def NewEngineSession (sessionId : String) (now : Nat) : Session :=
  ⟨sessionId, NewRecoveryUnit, false, false, now⟩

/-- Method `Session.Begin`. -/
def Session.Begin (s : Session) : Session × Option SessionErr :=
  if s.active then (s, some .sessionAlreadyActive)
  else ({ s with active := true }, none)

/-- Method `Session.End` (session.go lines 80-98): inactive sessions return
immediately; with an open transaction the recovery unit is rolled back first,
and a rollback failure is returned at once — before the transaction flag or
the active flag is cleared.  Only after a successful rollback (or with no open
transaction) is the session marked inactive. -/
def Session.End (s : Session) : Session × Option SessionErr :=
  if ¬ s.active then (s, none)
  else if s.inTransaction then
    let r := s.recoveryUnit.Rollback
    match r.2.2 with
    | some e => ({ s with recoveryUnit := r.1 }, some (.endRollbackFailed e))
    | none =>
        ({ s with
            recoveryUnit := r.1
            inTransaction := false
            active := false }, none)
  else ({ s with active := false }, none)

/-- Method `Session.BeginTransaction`: session-level checks, then delegate. -/
def Session.BeginTransaction (s : Session) (now : Nat) :
    Session × Option SessionErr :=
  if ¬ s.active then (s, some .sessionNotActive)
  else if s.inTransaction then (s, some .alreadyInTransaction)
  else
    let r := s.recoveryUnit.BeginTransaction now
    match r.2 with
    | some e => ({ s with recoveryUnit := r.1 }, some (.fromRecoveryUnit e))
    | none => ({ s with recoveryUnit := r.1, inTransaction := true }, none)

/-- Method `Session.CommitTransaction`: requires an open transaction; on a
commit error the transaction flag is left set. -/
def Session.CommitTransaction (s : Session) (now : Nat) :
    Session × Option SessionErr :=
  if ¬ s.inTransaction then (s, some .noActiveTransaction)
  else
    let r := s.recoveryUnit.Commit now
    match r.2.2 with
    | some e => ({ s with recoveryUnit := r.1 }, some (.fromRecoveryUnit e))
    | none => ({ s with recoveryUnit := r.1, inTransaction := false }, none)

/-- Method `Session.RollbackTransaction`. -/
def Session.RollbackTransaction (s : Session) : Session × Option SessionErr :=
  if ¬ s.inTransaction then (s, some .noActiveTransaction)
  else
    let r := s.recoveryUnit.Rollback
    match r.2.2 with
    | some e => ({ s with recoveryUnit := r.1 }, some (.fromRecoveryUnit e))
    | none => ({ s with recoveryUnit := r.1, inTransaction := false }, none)

/-- Method `Session.IsActive`. -/
def Session.IsActive (s : Session) : Bool := s.active

/-- Method `Session.InTransaction`. -/
def Session.InTransaction (s : Session) : Bool := s.inTransaction

/-- Method `Session.GetRecoveryUnit`. -/
def Session.GetRecoveryUnit (s : Session) : RecoveryUnit := s.recoveryUnit

/-- A session state reached through the public API in which `End` must roll
back and the rollback fails: begin the session, open a transaction, register
a change whose commit action fails with error 7, and attempt to commit.  The
failed commit aborts the recovery unit but leaves the session's transaction
flag set, so the later `End` calls `Rollback` on a non-active recovery unit. -/
def sessionAfterFailedCommit : Session :=
  let s1 := ((NewEngineSession "s1" 0).Begin).1
  let s2 := (s1.BeginTransaction 1).1
  let s3 := { s2 with
    recoveryUnit := (s2.recoveryUnit.RegisterChange ⟨1, some 7, none⟩).1 }
  (s3.CommitTransaction 2).1

/-- C7 counterexample: on `sessionAfterFailedCommit` — an active session with
an open transaction — `End` propagates the rollback failure but does not mark
the session inactive: `IsActive` is still true afterwards, refuting the claim
that `IsActive()` is false after `End` in all cases. -/
theorem Session_end_leaves_active_on_rollback_failure :
    sessionAfterFailedCommit.active = true ∧
    sessionAfterFailedCommit.inTransaction = true ∧
    (sessionAfterFailedCommit.End).2 =
      some (.endRollbackFailed .noActiveTxnToRollback) ∧
    (sessionAfterFailedCommit.End).1.IsActive = true := by
  decide

theorem RecoveryUnit_rollback_fst_of_err (ru : RecoveryUnit) (e : RUErr)
    (h : ru.Rollback.2.2 = some e) : ru.Rollback.1 = ru := by
  unfold RecoveryUnit.Rollback at h ⊢
  by_cases hs : ru.state ≠ .active
  · simp [hs]
  · simp only [hs, if_false, if_neg hs] at h ⊢
    rcases hrun : (runRollbackActions ru.changes).2 with _ | e'
    · simp [hrun] at h
    · simp [hrun]

/-- C7 amended: for an active session with an open transaction, `End` rolls
the transaction back first; if the rollback succeeds the session becomes
inactive, but if the rollback fails `End` returns the failure and the session
is left fully unchanged — in particular `IsActive()` is still true. -/
theorem Session_end_rollback_failure_keeps_session (s : Session)
    (hact : s.active = true) (htxn : s.inTransaction = true) :
    ((s.End).2 = none → (s.End).1.IsActive = false) ∧
    (∀ e, (s.End).2 = some e → (s.End).1.IsActive = true ∧ (s.End).1 = s) := by
  obtain ⟨sid, ru, a, t, ca⟩ := s
  simp only [Session.active] at hact
  simp only [Session.inTransaction] at htxn
  subst hact htxn
  rcases hr : ru.Rollback.2.2 with _ | e
  · simp [Session.End, hr, Session.IsActive]
  · have hfst := RecoveryUnit_rollback_fst_of_err ru e hr
    simp [Session.End, hr, hfst, Session.IsActive]

/-- Witness for the C7 amended theorem at `sessionAfterFailedCommit`. -/
theorem Session_end_rollback_failure_keeps_session_witness :
    sessionAfterFailedCommit.active = true ∧
    sessionAfterFailedCommit.inTransaction = true ∧
    ((sessionAfterFailedCommit.End).1.IsActive = true ∧
      (sessionAfterFailedCommit.End).1 = sessionAfterFailedCommit) :=
  ⟨by decide, by decide,
    (Session_end_rollback_failure_keeps_session sessionAfterFailedCommit
        (by decide) (by decide)).2
      (.endRollbackFailed .noActiveTxnToRollback) (by decide)⟩

/-- A B+Tree node (btree.go `Node`).  The Go struct links nodes by pointers;
here every node lives in an arena and `children`, `next` and `parent` hold
arena indices, with `Option` for nil-able single pointers. -/
structure BNode where
  isLeaf : Bool
  keys : List (List Nat)
  values : List (List Nat)
  children : List Nat
  next : Option Nat
  parent : Option Nat
deriving DecidableEq, Repr

/-- Constructor `newLeafNode` in btree.go. -/
def newLeafNode : BNode := ⟨true, [], [], [], none, none⟩

/-- Constructor `newInternalNode` in btree.go. -/
def newInternalNode : BNode := ⟨false, [], [], [], none, none⟩

/-- The B+Tree of btree.go: the arena of all allocated nodes together with
the root's index and the order. -/
structure BTree where
  arena : List BNode
  root : Nat
  order : Nat
deriving DecidableEq, Repr

/-- Constructor `NewBTree`: the order is clamped to a minimum of 3 and the
tree starts as a single empty leaf. -/
def NewBTree (order : Nat) : BTree :=
  { arena := [newLeafNode], root := 0,
    order := if order < 3 then 3 else order }

/-- Dereference an arena index (out-of-range reads, which would be nil
dereferences in Go, default to an empty leaf). -/
def BTree.node (t : BTree) (i : Nat) : BNode := t.arena.getD i newLeafNode

/-- Write back one node of the arena. -/
def BTree.setNode (t : BTree) (i : Nat) (n : BNode) : BTree :=
  { t with arena := t.arena.set i n }

/-- Allocate a fresh node, returning its index. -/
def BTree.alloc (t : BTree) (n : BNode) : BTree × Nat :=
  ({ t with arena := t.arena ++ [n] }, t.arena.length)

/-- The scan `for i < len(keys) && bytes.Compare(key, keys[i]) >= 0 { i++ }`
of `findLeaf`: the number of leading keys that are ≤ the search key. -/
def countWhileGE (key : List Nat) : List (List Nat) → Nat
  | [] => 0
  | k :: ks => if bytesCompare key k ≥ 0 then countWhileGE key ks + 1 else 0

/-- The scan `for i < len(keys) && bytes.Compare(key, keys[i]) > 0 { i++ }`
of `insertIntoLeaf` and `insertIntoParent`: the number of leading keys that
are < the inserted key. -/
def countWhileGT (key : List Nat) : List (List Nat) → Nat
  | [] => 0
  | k :: ks => if bytesCompare key k > 0 then countWhileGT key ks + 1 else 0

/-- Insertion into a list at an index, the Go slice idiom
`append(xs[:i], append([]T{a}, xs[i:]...)...)`. -/
def listInsertAt {α : Type} : Nat → α → List α → List α
  | 0, a, l => a :: l
  | _ + 1, a, [] => [a]
  | n + 1, a, x :: l => x :: listInsertAt n a l

/-- The descent loop of `findLeaf` (btree.go lines 171-184); the fuel bounds
the depth and is chosen large enough for every actual call. -/
def findLeafGo (t : BTree) (key : List Nat) : Nat → Nat → Nat
  | i, 0 => i
  | i, fuel + 1 =>
      let n := t.node i
      if n.isLeaf then i
      else findLeafGo t key (n.children.getD (countWhileGE key n.keys) 0) fuel

/-- Method `findLeaf`: descend from the root to the leaf for `key`. -/
def BTree.findLeaf (t : BTree) (key : List Nat) : Nat :=
  findLeafGo t key t.root t.arena.length

/-- First index holding `key` in a leaf's key list (`bytes.Equal` scan used
by `Get` and `Delete`). -/
def leafFindIdx (key : List Nat) : List (List Nat) → Option Nat
  | [] => none
  | k :: ks =>
      if bytesEqual k key then some 0 else (leafFindIdx key ks).map (· + 1)

/-- Method `insertIntoLeaf` (btree.go lines 187-203): find the position,
overwrite the value when the key is already present, otherwise insert. -/
def BTree.insertIntoLeaf (t : BTree) (leafIdx : Nat) (key value : List Nat) :
    BTree :=
  let leaf := t.node leafIdx
  let i := countWhileGT key leaf.keys
  if i < leaf.keys.length ∧ bytesEqual (leaf.keys.getD i []) key then
    t.setNode leafIdx { leaf with values := leaf.values.set i value }
  else
    t.setNode leafIdx { leaf with
        keys := listInsertAt i key leaf.keys
        values := listInsertAt i value leaf.values }

/-- Method `insertIntoParent` (btree.go lines 239-254) with the body of
`splitInternal` (btree.go lines 257-288) inlined at its single call site, so
that the Go mutual recursion insertIntoParent → splitInternal →
insertIntoParent becomes fuel-indexed structural recursion.  As in Go,
`newNode.parent = node.parent` runs after the recursive call and therefore
re-reads a parent field the recursion may just have changed. -/
def insertIntoParentGo : Nat → BTree → Nat → List Nat → Nat → BTree
  | 0, t, _, _, _ => t
  | fuel + 1, t, parentIdx, key, rightChild =>
      let parent := t.node parentIdx
      let i := countWhileGT key parent.keys
      let t1 := t.setNode parentIdx { parent with
          keys := listInsertAt i key parent.keys
          children := listInsertAt (i + 1) rightChild parent.children }
      if (t1.node parentIdx).keys.length ≥ t1.order then
        -- splitInternal(parent)
        let node := t1.node parentIdx
        let mid := node.keys.length / 2
        let promoteKey := node.keys.getD mid []
        let a1 := t1.alloc { newInternalNode with
            keys := node.keys.drop (mid + 1)
            children := node.children.drop (mid + 1) }
        let t2 := a1.1
        let newIdx := a1.2
        let t3 := (node.children.drop (mid + 1)).foldl
            (fun acc c => acc.setNode c { acc.node c with parent := some newIdx })
            t2
        let t4 := t3.setNode parentIdx { t3.node parentIdx with
            keys := node.keys.take mid
            children := node.children.take (mid + 1) }
        match node.parent with
        | none =>
            let a2 := t4.alloc { newInternalNode with
                keys := [promoteKey]
                children := [parentIdx, newIdx] }
            let t5 := a2.1
            let rootIdx := a2.2
            let t6 := t5.setNode parentIdx
              { t5.node parentIdx with parent := some rootIdx }
            let t7 := t6.setNode newIdx
              { t6.node newIdx with parent := some rootIdx }
            { t7 with root := rootIdx }
        | some gp =>
            let t5 := insertIntoParentGo fuel t4 gp promoteKey newIdx
            t5.setNode newIdx
              { t5.node newIdx with parent := (t5.node parentIdx).parent }
      else t1

/-- Method `splitLeaf` (btree.go lines 206-236): the right half moves to a
fresh leaf spliced into the leaf chain, the first key of the new leaf is
promoted.  As in Go, the final `newLeaf.parent = leaf.parent` re-reads the
(possibly re-written) parent field after `insertIntoParent` returned. -/
def BTree.splitLeaf (t : BTree) (leafIdx : Nat) (fuel : Nat) : BTree :=
  let leaf := t.node leafIdx
  let mid := leaf.keys.length / 2
  let a1 := t.alloc { newLeafNode with
      keys := leaf.keys.drop mid
      values := leaf.values.drop mid
      next := leaf.next }
  let t1 := a1.1
  let newIdx := a1.2
  let t2 := t1.setNode leafIdx { leaf with
      keys := leaf.keys.take mid
      values := leaf.values.take mid
      next := some newIdx }
  let promoteKey := (leaf.keys.drop mid).getD 0 []
  match leaf.parent with
  | none =>
      let a2 := t2.alloc { newInternalNode with
          keys := [promoteKey]
          children := [leafIdx, newIdx] }
      let t3 := a2.1
      let rootIdx := a2.2
      let t4 := t3.setNode leafIdx
        { t3.node leafIdx with parent := some rootIdx }
      let t5 := t4.setNode newIdx
        { t4.node newIdx with parent := some rootIdx }
      { t5 with root := rootIdx }
  | some parentIdx =>
      let t3 := insertIntoParentGo fuel t2 parentIdx promoteKey newIdx
      t3.setNode newIdx
        { t3.node newIdx with parent := (t3.node leafIdx).parent }

/-- Errors of the BTree operations, one per `fmt.Errorf` site in btree.go. -/
inductive BTreeErr
  | emptyKey
  | keyNotFound
deriving DecidableEq, Repr

/-- Method `BTree.Insert` (btree.go lines 57-83): empty keys are rejected,
the key/value copies are identities on immutable lists, and the leaf is split
when it reaches `order` keys. -/
def BTree.Insert (t : BTree) (key value : List Nat) : BTree × Option BTreeErr :=
  if key.length = 0 then (t, some .emptyKey)
  else
    let leafIdx := t.findLeaf key
    let t1 := t.insertIntoLeaf leafIdx key value
    if (t1.node leafIdx).keys.length ≥ t1.order then
      (t1.splitLeaf leafIdx (2 * t1.arena.length + 4), none)
    else (t1, none)

/-- Method `BTree.Get` (btree.go lines 86-107). -/
def BTree.Get (t : BTree) (key : List Nat) : Option (List Nat) :=
  if key.length = 0 then none
  else
    let leaf := t.node (t.findLeaf key)
    (leafFindIdx key leaf.keys).bind (fun i => leaf.values.get? i)

/-- Method `BTree.Delete` (btree.go lines 110-130): remove the key from its
leaf only; absent keys report an error. -/
def BTree.Delete (t : BTree) (key : List Nat) : BTree × Option BTreeErr :=
  if key.length = 0 then (t, some .emptyKey)
  else
    let leafIdx := t.findLeaf key
    let leaf := t.node leafIdx
    match leafFindIdx key leaf.keys with
    | some i =>
        (t.setNode leafIdx { leaf with
            keys := leaf.keys.eraseIdx i
            values := leaf.values.eraseIdx i }, none)
    | none => (t, some .keyNotFound)

/-- The condition `endKey != nil && bytes.Compare(k, endKey) >= 0` on which
`Range` returns early. -/
def rangeStop (endKey : Option (List Nat)) (k : List Nat) : Bool :=
  match endKey with
  | some e => bytesCompare k e ≥ 0
  | none => false

/-- One leaf's pass of the `Range` loop body: filter on the bounds, with the
early-return flag when a key at or past `endKey` is met. -/
def rangeScanLeaf (startKey : List Nat) (endKey : Option (List Nat)) :
    List (List Nat × List Nat) → List (List Nat × List Nat) × Bool
  | [] => ([], false)
  | (k, v) :: rest =>
      if bytesCompare k startKey ≥ 0 then
        if rangeStop endKey k then ([], true)
        else
          let r := rangeScanLeaf startKey endKey rest
          ((k, v) :: r.1, r.2)
      else rangeScanLeaf startKey endKey rest

/-- The leaf-chain walk of `Range` (`for leaf != nil { ...; leaf = leaf.next }`). -/
def rangeWalk (t : BTree) (startKey : List Nat) (endKey : Option (List Nat)) :
    Option Nat → Nat → List (List Nat × List Nat)
  | none, _ => []
  | some _, 0 => []
  | some leafIdx, fuel + 1 =>
      let leaf := t.node leafIdx
      let r := rangeScanLeaf startKey endKey (leaf.keys.zip leaf.values)
      if r.2 then r.1
      else r.1 ++ rangeWalk t startKey endKey leaf.next fuel

/-- Method `BTree.Range` (btree.go lines 134-168): locate the starting leaf,
walk the chain and filter against the half-open bounds; a Go nil `startKey`
is the empty slice, a nil `endKey` is `none`.  The Go method returns parallel
key and value slices (and an always-nil error); the embedding pairs them. -/
def BTree.Range (t : BTree) (startKey : List Nat) (endKey : Option (List Nat)) :
    List (List Nat × List Nat) :=
  rangeWalk t startKey endKey (some (t.findLeaf startKey)) (t.arena.length + 1)

/-- Strict lexicographic ascending check over returned keys. -/
def strictlyAscendingKeys : List (List Nat) → Bool
  | [] => true
  | [_] => true
  | a :: b :: rest =>
      decide (bytesCompare a b < 0) && strictlyAscendingKeys (b :: rest)

/-- Errors of BTreeIndex operations, one per error site in the index source
(`sorted_data_interface` implementation), with wrapped BTree errors kept. -/
inductive IndexErr
  | emptyKey
  | nullRecordId
  | uniqueViolation
  | insertFailed (e : BTreeErr)
  | removeFailed (e : BTreeErr)
deriving DecidableEq, Repr

/-- State of a BTreeIndex: underlying composite-key B+Tree, index name, the
uniqueness flag and the maintained entry counter. -/
structure BTreeIndex where
  tree : BTree
  name : String
  unique : Bool
  numEntries : Int
deriving DecidableEq, Repr

/-- Constructor `NewSortedDataInterface`: order-128 B+Tree, zero entries. -/
def NewSortedDataInterface (name : String) (unique : Bool) : BTreeIndex :=
  { tree := NewBTree 128, name := name, unique := unique, numEntries := 0 }

/-- The four length-header bytes `byte(len>>24) ... byte(len)` written by
`makeCompositeKey`. -/
def lenHeader (l : Nat) : List Nat :=
  [l / 2 ^ 24 % 256, l / 2 ^ 16 % 256, l / 2 ^ 8 % 256, l % 256]

/-- Method `makeCompositeKey`: `[keyLen(4 bytes big-endian)][key][recordId]`;
as in Go, the boolean of `AsBytes` is ignored and a null RecordId contributes
no bytes. -/
def BTreeIndex.makeCompositeKey (idx : BTreeIndex) (key : List Nat)
    (recordId : RecordId) : List Nat :=
  let recordIdBytes := (recordId.AsBytes).getD []
  lenHeader key.length ++ key ++ recordIdBytes

/-- Method `makeNextKey`: append the sentinel byte 0xFF to the key and
compose with the null RecordId, giving the exclusive upper bound used by
`Seek` and `keyExists`. -/
def BTreeIndex.makeNextKey (idx : BTreeIndex) (key : List Nat) : List Nat :=
  idx.makeCompositeKey (key ++ [255]) NullRecordId

/-- Method `keyExists`: bounded range scan between the composite lower bound
and `makeNextKey` (the underlying `Range` never reports an error). -/
def BTreeIndex.keyExists (idx : BTreeIndex) (key : List Nat) : Bool :=
  let startKey := idx.makeCompositeKey key NullRecordId
  let endKey := idx.makeNextKey key
  (idx.tree.Range startKey (some endKey)).length > 0

/-- Method `BTreeIndex.Insert`: validates the key and RecordId, runs the
uniqueness existence check, then inserts the composite entry with the
RecordId bytes as value and bumps the entry counter. -/
def BTreeIndex.Insert (idx : BTreeIndex) (key : List Nat) (recordId : RecordId) :
    BTreeIndex × Option IndexErr :=
  if key.length = 0 then (idx, some .emptyKey)
  else if recordId.IsNull then (idx, some .nullRecordId)
  else if idx.unique && idx.keyExists key then (idx, some .uniqueViolation)
  else
    let compositeKey := idx.makeCompositeKey key recordId
    let recordIdBytes := (recordId.AsBytes).getD []
    let r := idx.tree.Insert compositeKey recordIdBytes
    match r.2 with
    | some e => ({ idx with tree := r.1 }, some (.insertFailed e))
    | none =>
        ({ idx with tree := r.1, numEntries := idx.numEntries + 1 }, none)

/-- Method `BTreeIndex.Remove`: delete the composite entry, decrement. -/
def BTreeIndex.Remove (idx : BTreeIndex) (key : List Nat) (recordId : RecordId) :
    BTreeIndex × Option IndexErr :=
  if key.length = 0 then (idx, some .emptyKey)
  else if recordId.IsNull then (idx, some .nullRecordId)
  else
    let compositeKey := idx.makeCompositeKey key recordId
    let r := idx.tree.Delete compositeKey
    match r.2 with
    | some e => ({ idx with tree := r.1 }, some (.removeFailed e))
    | none =>
        ({ idx with tree := r.1, numEntries := idx.numEntries - 1 }, none)

/-- Method `BTreeIndex.Seek`: range scan from the composite lower bound for
the key to `makeNextKey`; the cursor's eagerly materialised entries are the
returned (composite key, value) pairs. -/
def BTreeIndex.Seek (idx : BTreeIndex) (key : List Nat) :
    List (List Nat × List Nat) × Option IndexErr :=
  if key.length = 0 then ([], some .emptyKey)
  else
    let startKey := idx.makeCompositeKey key NullRecordId
    let endKey := idx.makeNextKey key
    (idx.tree.Range startKey (some endKey), none)

/-- Method `BTreeIndex.SeekRange`: composite bounds when given, nil slices
(empty start, absent end) otherwise. -/
def BTreeIndex.SeekRange (idx : BTreeIndex) (startKey endKey : Option (List Nat)) :
    List (List Nat × List Nat) :=
  let s := match startKey with
    | some k => idx.makeCompositeKey k NullRecordId
    | none => []
  let e := endKey.map (fun k => idx.makeCompositeKey k NullRecordId)
  idx.tree.Range s e

/-- Method `NumEntries`. -/
def BTreeIndex.NumEntries (idx : BTreeIndex) : Int := idx.numEntries

/-- Method `IsEmpty`. -/
def BTreeIndex.IsEmpty (idx : BTreeIndex) : Bool := idx.NumEntries = 0

/-- Method `Clear`: fresh order-128 tree, counter reset. -/
def BTreeIndex.Clear (idx : BTreeIndex) : BTreeIndex :=
  { idx with tree := NewBTree 128, numEntries := 0 }

/-- The composite-key parsing of the index cursor's `Key()`: read the 4-byte
big-endian length header and cut the application key out (malformed entries
give nil). -/
def cursorEntryKey (ck : List Nat) : List Nat :=
  if ck.length < 4 then []
  else
    let keyLen := ck.getD 0 0 * 2 ^ 24 + ck.getD 1 0 * 2 ^ 16 +
      ck.getD 2 0 * 2 ^ 8 + ck.getD 3 0
    if ck.length < 4 + keyLen then []
    else (ck.drop 4).take keyLen

/-- Errors of BTreeRecordStore operations (record_store.go). -/
inductive RSErr
  | nullRecordId
  | noBytesForm
  | alreadyExists
  | notFound
  | insertFailed (e : BTreeErr)
  | updateFailed (e : BTreeErr)
  | deleteFailed (e : BTreeErr)
deriving DecidableEq, Repr

/-- State of a BTreeRecordStore (record_store.go): the order-128 B+Tree keyed
by `RecordId.AsBytes`, the two maintained counters and the namespace. -/
structure BTreeRecordStore where
  tree : BTree
  numRecords : Int
  dataSize : Int
  ns : String
deriving DecidableEq, Repr

/-- Constructor `NewRecordStore`. -/
def NewRecordStore (ns : String) : BTreeRecordStore :=
  { tree := NewBTree 128, numRecords := 0, dataSize := 0, ns := ns }

/-- Method `InsertRecord` (record_store.go lines 64-90): reject null ids,
reject existing keys, insert and bump both counters. -/
def BTreeRecordStore.InsertRecord (rs : BTreeRecordStore) (recordId : RecordId)
    (data : List Nat) : BTreeRecordStore × Option RSErr :=
  if recordId.IsNull then (rs, some .nullRecordId)
  else
    match recordId.AsBytes with
    | none => (rs, some .noBytesForm)
    | some key =>
        match rs.tree.Get key with
        | some _ => (rs, some .alreadyExists)
        | none =>
            let r := rs.tree.Insert key data
            match r.2 with
            | some e => ({ rs with tree := r.1 }, some (.insertFailed e))
            | none =>
                ({ rs with
                    tree := r.1
                    numRecords := rs.numRecords + 1
                    dataSize := rs.dataSize + data.length }, none)

/-- Method `UpdateRecord` (record_store.go lines 93-118): overwrite an
existing record and apply the (possibly negative) size delta. -/
def BTreeRecordStore.UpdateRecord (rs : BTreeRecordStore) (recordId : RecordId)
    (data : List Nat) : BTreeRecordStore × Option RSErr :=
  if recordId.IsNull then (rs, some .nullRecordId)
  else
    match recordId.AsBytes with
    | none => (rs, some .noBytesForm)
    | some key =>
        match rs.tree.Get key with
        | none => (rs, some .notFound)
        | some oldData =>
            let r := rs.tree.Insert key data
            match r.2 with
            | some e => ({ rs with tree := r.1 }, some (.updateFailed e))
            | none =>
                ({ rs with
                    tree := r.1
                    dataSize := rs.dataSize + (data.length : Int) -
                      (oldData.length : Int) }, none)

/-- Method `DeleteRecord` (record_store.go lines 121-147): remove an existing
record and decrement both counters. -/
def BTreeRecordStore.DeleteRecord (rs : BTreeRecordStore) (recordId : RecordId) :
    BTreeRecordStore × Option RSErr :=
  if recordId.IsNull then (rs, some .nullRecordId)
  else
    match recordId.AsBytes with
    | none => (rs, some .noBytesForm)
    | some key =>
        match rs.tree.Get key with
        | none => (rs, some .notFound)
        | some data =>
            let r := rs.tree.Delete key
            match r.2 with
            | some e => ({ rs with tree := r.1 }, some (.deleteFailed e))
            | none =>
                ({ rs with
                    tree := r.1
                    numRecords := rs.numRecords - 1
                    dataSize := rs.dataSize - data.length }, none)

/-- Method `GetRecord`. -/
def BTreeRecordStore.GetRecord (rs : BTreeRecordStore) (recordId : RecordId) :
    Option (List Nat) × Option RSErr :=
  if recordId.IsNull then (none, some .nullRecordId)
  else
    match recordId.AsBytes with
    | none => (none, some .noBytesForm)
    | some key =>
        match rs.tree.Get key with
        | none => (none, some .notFound)
        | some data => (some data, none)

/-- Method `Scan` (record_store.go lines 169-193): a null start id scans from
the one-byte key 0x00, otherwise from the id's byte form; the cursor's
eagerly materialised entries are returned as pairs. -/
def BTreeRecordStore.Scan (rs : BTreeRecordStore) (startId : RecordId) :
    List (List Nat × List Nat) × Option RSErr :=
  if ¬ startId.IsNull then
    match startId.AsBytes with
    | none => ([], some .noBytesForm)
    | some sk => (rs.tree.Range sk none, none)
  else (rs.tree.Range [0] none, none)

/-- Method `NumRecords`. -/
def BTreeRecordStore.NumRecords (rs : BTreeRecordStore) : Int := rs.numRecords

/-- Method `DataSize`. -/
def BTreeRecordStore.DataSize (rs : BTreeRecordStore) : Int := rs.dataSize

/-- Method `Truncate`: fresh order-128 tree and zeroed counters. -/
def BTreeRecordStore.Truncate (rs : BTreeRecordStore) : BTreeRecordStore :=
  { rs with tree := NewBTree 128, numRecords := 0, dataSize := 0 }

/-- Configuration of the KV engine (KVEngineConfig). -/
structure KVEngineConfig where
  cacheSize : Int
  maxSessions : Nat
  checkpointEnabled : Bool
deriving DecidableEq, Repr

/-- Errors of WiredTigerKVEngine operations, one per error site. -/
inductive EngineErr
  | alreadyRunning
  | notRunning
  | sessionLimitExceeded
  | beginSessionFailed (e : SessionErr)
  | recordStoreExists
  | recordStoreNotFound
  | indexExists
  | indexNotFound
deriving DecidableEq, Repr

/-- State of a WiredTigerKVEngine: the Go string-keyed maps become
association lists with unique keys (map iteration order plays no role in the
modelled operations). -/
structure KVEngine where
  running : Bool
  recordStores : List (String × BTreeRecordStore)
  indexes : List (String × BTreeIndex)
  sessions : List (String × Session)
  sessionCount : Int
  config : KVEngineConfig
deriving DecidableEq, Repr

/-- Lookup in a registry, the Go `m[key]` read with its `exists` flag. -/
def lookupReg {α : Type} (m : List (String × α)) (k : String) : Option α :=
  (m.find? (fun p => p.1 = k)).map Prod.snd

/-- Constructor `NewKVEngine`: zero-valued MaxSessions defaults to 1000 and
zero-valued CacheSize to 1 GiB; the engine starts not running. -/
def NewKVEngine (config : KVEngineConfig) : KVEngine :=
  let config1 :=
    if config.maxSessions = 0 then { config with maxSessions := 1000 }
    else config
  let config2 :=
    if config1.cacheSize = 0 then { config1 with cacheSize := 1024 * 1024 * 1024 }
    else config1
  { running := false, recordStores := [], indexes := [], sessions := [],
    sessionCount := 0, config := config2 }

/-- Method `KVEngine.Start`. -/
def KVEngine.Start (e : KVEngine) : KVEngine × Option EngineErr :=
  if e.running then (e, some .alreadyRunning)
  else ({ e with running := true }, none)

/-- Method `KVEngine.Stop`: end every session (errors ignored, as in Go),
clear the session registry, clear the running flag. -/
def KVEngine.Stop (e : KVEngine) : KVEngine × Option EngineErr :=
  if ¬ e.running then (e, none)
  else ({ e with running := false, sessions := [] }, none)

/-- Method `KVEngine.CreateSession` (part_004 lines 121-147): guarded by the
running flag and the session limit; the fresh uuid is supplied by the caller
as `newId`.  Returns the engine, the created session and the error. -/
def KVEngine.CreateSession (e : KVEngine) (newId : String) (now : Nat) :
    KVEngine × Option Session × Option EngineErr :=
  if ¬ e.running then (e, none, some .notRunning)
  else if e.sessions.length ≥ e.config.maxSessions then
    (e, none, some .sessionLimitExceeded)
  else
    let s := NewEngineSession newId now
    let r := s.Begin
    match r.2 with
    | some err => (e, none, some (.beginSessionFailed err))
    | none =>
        ({ e with
            sessions := e.sessions ++ [(newId, r.1)]
            sessionCount := e.sessionCount + 1 }, some r.1, none)

/-- Method `KVEngine.GetRecordStore`. -/
def KVEngine.GetRecordStore (e : KVEngine) (ns : String) :
    Option BTreeRecordStore × Option EngineErr :=
  match lookupReg e.recordStores ns with
  | none => (none, some .recordStoreNotFound)
  | some rs => (some rs, none)

/-- Method `KVEngine.CreateRecordStore` (part_004 lines 163-175): note that,
unlike `CreateSession`, it does not consult the running flag. -/
def KVEngine.CreateRecordStore (e : KVEngine) (ns : String) :
    KVEngine × Option BTreeRecordStore × Option EngineErr :=
  match lookupReg e.recordStores ns with
  | some _ => (e, none, some .recordStoreExists)
  | none =>
      let rs := NewRecordStore ns
      ({ e with recordStores := e.recordStores ++ [(ns, rs)] }, some rs, none)

/-- The prefix test `len(key) > len(namespace) && key[:len(namespace)] ==
namespace` used by `DropRecordStore` on registry keys (byte and character
positions coincide for these ASCII names). -/
def nsKeyStartsWithNs (ns key : String) : Bool :=
  decide (key.data.length > ns.data.length) &&
    decide (key.data.take ns.data.length = ns.data)

/-- Method `KVEngine.DropRecordStore` (part_004 lines 178-196): remove the
store, then remove every index whose registry key passes the plain
string-prefix test against the namespace. -/
def KVEngine.DropRecordStore (e : KVEngine) (ns : String) :
    KVEngine × Option EngineErr :=
  match lookupReg e.recordStores ns with
  | none => (e, some .recordStoreNotFound)
  | some _ =>
      ({ e with
          recordStores := e.recordStores.filter (fun p => decide (p.1 ≠ ns))
          indexes := e.indexes.filter (fun p => ! nsKeyStartsWithNs ns p.1) },
        none)

/-- Function `makeIndexKey`. -/
def makeIndexKey (ns indexName : String) : String := ns ++ "." ++ indexName

/-- Method `KVEngine.GetSortedDataInterface`. -/
def KVEngine.GetSortedDataInterface (e : KVEngine) (ns indexName : String) :
    Option BTreeIndex × Option EngineErr :=
  match lookupReg e.indexes (makeIndexKey ns indexName) with
  | none => (none, some .indexNotFound)
  | some idx => (some idx, none)

/-- Method `KVEngine.CreateSortedDataInterface` (part_004 lines 213-226):
also not guarded by the running flag. -/
def KVEngine.CreateSortedDataInterface (e : KVEngine) (ns indexName : String)
    (unique : Bool) : KVEngine × Option BTreeIndex × Option EngineErr :=
  let key := makeIndexKey ns indexName
  match lookupReg e.indexes key with
  | some _ => (e, none, some .indexExists)
  | none =>
      let idx := NewSortedDataInterface indexName unique
      ({ e with indexes := e.indexes ++ [(key, idx)] }, some idx, none)

/-- Method `KVEngine.DropSortedDataInterface`. -/
def KVEngine.DropSortedDataInterface (e : KVEngine) (ns indexName : String) :
    KVEngine × Option EngineErr :=
  let key := makeIndexKey ns indexName
  match lookupReg e.indexes key with
  | none => (e, some .indexNotFound)
  | some _ =>
      ({ e with indexes := e.indexes.filter (fun p => decide (p.1 ≠ key)) },
        none)

/-- The insert sequence of single-byte keys that corrupts the tree: after the
eighth insert a cascading split runs `splitInternal` while a leaf and its
fresh right sibling sit on the two sides of the split point, and the final
`newLeaf.parent = leaf.parent` assignment re-attaches the new leaf to the
wrong internal node. -/
def c1Tree : BTree :=
  ([[2], [7], [8], [3], [1], [5], [4], [6]] : List (List Nat)).foldl
    (fun t k => (t.Insert k [9]).1) (NewBTree 3)

/-- C1 counterexample evaluation: on an order-3 OrderedStore, inserting the
non-empty keys 02, 07, 08, 03, 01, 05, 04, 06 (one byte each) makes
`Range(nil, nil)` return the keys in the order 01, 02, 03, 06, 04, 05, 07, 08
— not strictly ascending, refuting the claimed ordering of full-range scans
after arbitrary insert sequences. -/
theorem BTree_range_unordered_after_inserts :
    (c1Tree.Range [] none).map Prod.fst =
      [[1], [2], [3], [6], [4], [5], [7], [8]] ∧
    strictlyAscendingKeys ((c1Tree.Range [] none).map Prod.fst) = false := by
  decide

/-- A non-unique index holding one entry under application key 0x41 ("A") and
one under 0x42 ("B"). -/
def c2Index : BTreeIndex :=
  let i1 := ((NewSortedDataInterface "name_idx" false).Insert [65]
    (NewRecordIdFromLong 1)).1
  (i1.Insert [66] (NewRecordIdFromLong 2)).1

/-- C2 counterexample evaluation: `Seek` on key "A" returns two entries, and
the second one's application key (as the cursor's `Key()` parses it) is "B":
the scan's exclusive upper bound `makeNextKey("A")` carries the length header
of the extended key "A\xFF", which is lexicographically beyond every
composite key of the same header length, so entries of other keys leak into
the result, refuting exact-match seek semantics. -/
theorem BTreeIndex_seek_returns_foreign_key :
    (c2Index.Seek [65]).2 = none ∧
    ((c2Index.Seek [65]).1.map (fun e => cursorEntryKey e.1)) = [[65], [66]] := by
  decide

/-- A unique index already holding one entry under application key 0x41. -/
def c4Index : BTreeIndex :=
  ((NewSortedDataInterface "uniq_idx" true).Insert [65]
    (NewRecordIdFromLong 1)).1

/-- C4 counterexample: on a unique index that already contains an entry for
key 0x41, `Insert` with the null RecordId fails with the InvalidArgument
error for null RecordIds, not with UniqueConstraintViolation — the null check
precedes the uniqueness check — refuting the claim that the failure is a
UniqueConstraintViolation for every RecordId r. -/
theorem BTreeIndex_unique_insert_null_rid_error_kind :
    c4Index.unique = true ∧
    c4Index.keyExists [65] = true ∧
    (c4Index.Insert [65] NullRecordId).2 = some IndexErr.nullRecordId ∧
    (c4Index.Insert [65] NullRecordId).2 ≠ some IndexErr.uniqueViolation := by
  decide

/-- C4 amended: whenever a unique index's duplicate-check scan `keyExists`
reports an entry for the non-empty key k — which is what the code consults,
and which holds in particular when an entry for k is present in a well-formed
tree — `Insert(k, r)` performs no mutation at all (the returned index is the
argument, so `NumEntries` is unchanged), failing with
UniqueConstraintViolation when r is non-null and with the null-RecordId
InvalidArgument error when r is null. -/
theorem BTreeIndex_unique_insert_rejected_unchanged (idx : BTreeIndex)
    (k : List Nat) (r : RecordId) (hu : idx.unique = true) (hk : k ≠ [])
    (hex : idx.keyExists k = true) :
    (idx.Insert k r).1 = idx ∧
    (idx.Insert k r).2 =
      some (if r.IsNull then IndexErr.nullRecordId
        else IndexErr.uniqueViolation) ∧
    (idx.Insert k r).1.NumEntries = idx.NumEntries := by
  have hk' : ¬ k.length = 0 := by simpa using hk
  by_cases hn : r.IsNull
  · simp [BTreeIndex.Insert, hk', hn]
  · simp [BTreeIndex.Insert, hk', hn, hu, hex]

/-- Witness for the C4 amended theorem: `c4Index` with key 0x41 and the
non-null RecordId 2. -/
theorem BTreeIndex_unique_insert_rejected_unchanged_witness :
    c4Index.unique = true ∧ ([65] : List Nat) ≠ [] ∧
    c4Index.keyExists [65] = true ∧
    ((c4Index.Insert [65] (NewRecordIdFromLong 2)).1 = c4Index ∧
      (c4Index.Insert [65] (NewRecordIdFromLong 2)).2 =
        some (if (NewRecordIdFromLong 2).IsNull then IndexErr.nullRecordId
          else IndexErr.uniqueViolation) ∧
      (c4Index.Insert [65] (NewRecordIdFromLong 2)).1.NumEntries =
        c4Index.NumEntries) :=
  ⟨by decide, by decide, by decide,
    BTreeIndex_unique_insert_rejected_unchanged c4Index [65]
      (NewRecordIdFromLong 2) (by decide) (by decide) (by decide)⟩

/-- A freshly constructed engine: `NewKVEngine` starts with the running flag
false, so this state precedes any `Start` call. -/
def engineNotRunning : KVEngine := NewKVEngine ⟨1024, 10, false⟩

/-- C8 counterexample: on an engine that is not running,
`CreateRecordStore("test.a")` succeeds and registers the store — the
operation never consults the running flag — refuting the claim that every
mutating engine operation fails and leaves the registries unchanged while the
engine is not running. -/
theorem KVEngine_create_store_while_not_running :
    engineNotRunning.running = false ∧
    (engineNotRunning.CreateRecordStore "test.a").2.2 = none ∧
    (engineNotRunning.CreateRecordStore "test.a").1.recordStores ≠
      engineNotRunning.recordStores := by
  decide

/-- C8 amended: the running flag guards only `CreateSession`: on a
non-running engine `CreateSession` fails with the engine-not-running error
and returns the engine unchanged, while `CreateRecordStore`,
`CreateSortedDataInterface`, `DropRecordStore` and `DropSortedDataInterface`
never read the flag and succeed or fail solely on registry presence: each is
fully characterised by whether its registry key is present, succeeding (and
mutating the registry) exactly when a create finds its key free or a drop
finds its key present. -/
theorem KVEngine_running_guards_sessions_only (e : KVEngine) (newId : String)
    (now : Nat) (h : e.running = false) :
    e.CreateSession newId now = (e, none, some .notRunning) ∧
    (∀ ns, ((lookupReg e.recordStores ns).isSome = true →
        e.CreateRecordStore ns = (e, none, some .recordStoreExists)) ∧
      (lookupReg e.recordStores ns = none →
        e.CreateRecordStore ns = ({ e with recordStores := e.recordStores ++ [(ns, NewRecordStore ns)] }, some (NewRecordStore ns), none))) ∧
    (∀ ns nm u, ((lookupReg e.indexes (makeIndexKey ns nm)).isSome = true →
        e.CreateSortedDataInterface ns nm u = (e, none, some .indexExists)) ∧
      (lookupReg e.indexes (makeIndexKey ns nm) = none →
        e.CreateSortedDataInterface ns nm u = ({ e with indexes := e.indexes ++ [(makeIndexKey ns nm, NewSortedDataInterface nm u)] }, some (NewSortedDataInterface nm u), none))) ∧
    (∀ ns, (lookupReg e.recordStores ns = none →
        e.DropRecordStore ns = (e, some .recordStoreNotFound)) ∧
      ((lookupReg e.recordStores ns).isSome = true →
        e.DropRecordStore ns = ({ e with recordStores := e.recordStores.filter (fun p => decide (p.1 ≠ ns)), indexes := e.indexes.filter (fun p => ! nsKeyStartsWithNs ns p.1) }, none))) ∧
    (∀ ns nm, (lookupReg e.indexes (makeIndexKey ns nm) = none →
        e.DropSortedDataInterface ns nm = (e, some .indexNotFound)) ∧
      ((lookupReg e.indexes (makeIndexKey ns nm)).isSome = true →
        e.DropSortedDataInterface ns nm = ({ e with indexes := e.indexes.filter (fun p => decide (p.1 ≠ makeIndexKey ns nm)) }, none))) := by
  refine ⟨by simp [KVEngine.CreateSession, h], ?_, ?_, ?_, ?_⟩
  · intro ns
    cases hl : lookupReg e.recordStores ns with
    | none =>
        refine ⟨fun hs => ?_, fun _ => ?_⟩
        · simp at hs
        · simp [KVEngine.CreateRecordStore, hl]
    | some rs =>
        refine ⟨fun _ => ?_, fun hn => ?_⟩
        · simp [KVEngine.CreateRecordStore, hl]
        · simp at hn
  · intro ns nm u
    cases hl : lookupReg e.indexes (makeIndexKey ns nm) with
    | none =>
        refine ⟨fun hs => ?_, fun _ => ?_⟩
        · simp at hs
        · simp [KVEngine.CreateSortedDataInterface, hl]
    | some idx =>
        refine ⟨fun _ => ?_, fun hn => ?_⟩
        · simp [KVEngine.CreateSortedDataInterface, hl]
        · simp at hn
  · intro ns
    cases hl : lookupReg e.recordStores ns with
    | none =>
        refine ⟨fun _ => ?_, fun hs => ?_⟩
        · simp [KVEngine.DropRecordStore, hl]
        · simp at hs
    | some rs =>
        refine ⟨fun hn => ?_, fun _ => ?_⟩
        · simp at hn
        · simp [KVEngine.DropRecordStore, hl]
  · intro ns nm
    cases hl : lookupReg e.indexes (makeIndexKey ns nm) with
    | none =>
        refine ⟨fun _ => ?_, fun hs => ?_⟩
        · simp [KVEngine.DropSortedDataInterface, hl]
        · simp at hs
    | some idx =>
        refine ⟨fun hn => ?_, fun _ => ?_⟩
        · simp at hn
        · simp [KVEngine.DropSortedDataInterface, hl]

/-- Witness for the C8 amended theorem on the fresh non-running engine. -/
theorem KVEngine_running_guards_sessions_only_witness :
    engineNotRunning.running = false ∧
    (engineNotRunning.CreateSession "s1" 0 =
        (engineNotRunning, none, some .notRunning) ∧
      (∀ ns, ((lookupReg engineNotRunning.recordStores ns).isSome = true →
          engineNotRunning.CreateRecordStore ns =
            (engineNotRunning, none, some .recordStoreExists)) ∧
        (lookupReg engineNotRunning.recordStores ns = none →
          engineNotRunning.CreateRecordStore ns = ({ engineNotRunning with recordStores := engineNotRunning.recordStores ++ [(ns, NewRecordStore ns)] }, some (NewRecordStore ns), none))) ∧
      (∀ ns nm u, ((lookupReg engineNotRunning.indexes
            (makeIndexKey ns nm)).isSome = true →
          engineNotRunning.CreateSortedDataInterface ns nm u =
            (engineNotRunning, none, some .indexExists)) ∧
        (lookupReg engineNotRunning.indexes (makeIndexKey ns nm) = none →
          engineNotRunning.CreateSortedDataInterface ns nm u = ({ engineNotRunning with indexes := engineNotRunning.indexes ++ [(makeIndexKey ns nm, NewSortedDataInterface nm u)] }, some (NewSortedDataInterface nm u), none))) ∧
      (∀ ns, (lookupReg engineNotRunning.recordStores ns = none →
          engineNotRunning.DropRecordStore ns =
            (engineNotRunning, some .recordStoreNotFound)) ∧
        ((lookupReg engineNotRunning.recordStores ns).isSome = true →
          engineNotRunning.DropRecordStore ns = ({ engineNotRunning with recordStores := engineNotRunning.recordStores.filter (fun p => decide (p.1 ≠ ns)), indexes := engineNotRunning.indexes.filter (fun p => ! nsKeyStartsWithNs ns p.1) }, none))) ∧
      (∀ ns nm, (lookupReg engineNotRunning.indexes
            (makeIndexKey ns nm) = none →
          engineNotRunning.DropSortedDataInterface ns nm =
            (engineNotRunning, some .indexNotFound)) ∧
        ((lookupReg engineNotRunning.indexes
            (makeIndexKey ns nm)).isSome = true →
          engineNotRunning.DropSortedDataInterface ns nm = ({ engineNotRunning with indexes := engineNotRunning.indexes.filter (fun p => decide (p.1 ≠ makeIndexKey ns nm)) }, none)))) :=
  ⟨by decide, KVEngine_running_guards_sessions_only engineNotRunning "s1" 0
    (by decide)⟩

/-- An engine with record stores "test.a" and "test.ab" and one index
registered under namespace "test.ab" with name "i" (registry key
"test.ab.i"). -/
def engineWithTwoStores : KVEngine :=
  let e1 := ((NewKVEngine ⟨1024, 10, false⟩).CreateRecordStore "test.a").1
  let e2 := (e1.CreateRecordStore "test.ab").1
  (e2.CreateSortedDataInterface "test.ab" "i" false).1

/-- C9 counterexample: dropping the record store "test.a" also removes the
index registered under the different namespace "test.ab" because the removal
condition is a plain string-prefix test on the registry key "test.ab.i",
refuting the claim that indexes of other namespaces remain registered. -/
theorem KVEngine_drop_removes_other_namespace_index :
    (lookupReg engineWithTwoStores.indexes "test.ab.i").isSome = true ∧
    (engineWithTwoStores.DropRecordStore "test.a").2 = none ∧
    lookupReg (engineWithTwoStores.DropRecordStore "test.a").1.indexes
      "test.ab.i" = none := by
  decide

/-- C9 amended: after a successful `DropRecordStore(ns)` the store registered
under ns is removed and exactly those indexes are removed whose registry key
is strictly longer than ns and starts with ns as a plain string — which can
include indexes of a different namespace extending ns, such as "test.ab.i"
for ns "test.a" — while every index whose registry key fails that prefix test
remains registered; sessions and the running flag are untouched. -/
theorem KVEngine_drop_prefix_filter_semantics (e : KVEngine) (ns : String)
    (h : (lookupReg e.recordStores ns).isSome = true) :
    (e.DropRecordStore ns).2 = none ∧
    (e.DropRecordStore ns).1.running = e.running ∧
    (e.DropRecordStore ns).1.sessions = e.sessions ∧
    (∀ p : String × BTreeRecordStore,
      p ∈ (e.DropRecordStore ns).1.recordStores ↔
        (p ∈ e.recordStores ∧ p.1 ≠ ns)) ∧
    (∀ q : String × BTreeIndex,
      q ∈ (e.DropRecordStore ns).1.indexes ↔
        (q ∈ e.indexes ∧ nsKeyStartsWithNs ns q.1 = false)) := by
  obtain ⟨rs, hrs⟩ := Option.isSome_iff_exists.mp h
  simp [KVEngine.DropRecordStore, hrs, List.mem_filter]

/-- Witness for the C9 amended theorem on `engineWithTwoStores`. -/
theorem KVEngine_drop_prefix_filter_semantics_witness :
    (lookupReg engineWithTwoStores.recordStores "test.a").isSome = true ∧
    ((engineWithTwoStores.DropRecordStore "test.a").2 = none ∧
      (engineWithTwoStores.DropRecordStore "test.a").1.running =
        engineWithTwoStores.running ∧
      (engineWithTwoStores.DropRecordStore "test.a").1.sessions =
        engineWithTwoStores.sessions ∧
      (∀ p : String × BTreeRecordStore,
        p ∈ (engineWithTwoStores.DropRecordStore "test.a").1.recordStores ↔
          (p ∈ engineWithTwoStores.recordStores ∧ p.1 ≠ "test.a")) ∧
      (∀ q : String × BTreeIndex,
        q ∈ (engineWithTwoStores.DropRecordStore "test.a").1.indexes ↔
          (q ∈ engineWithTwoStores.indexes ∧
            nsKeyStartsWithNs "test.a" q.1 = false))) :=
  ⟨by decide, KVEngine_drop_prefix_filter_semantics engineWithTwoStores
    "test.a" (by decide)⟩

/-! Infrastructure for the counter invariant of the record store (C6):
order theory of `bytesCompare`, positional lemmas about the scan loops, and
the structural invariant of trees produced by the btree.go operations. -/

/-- Strict lexicographic order on byte slices, the order underlying
`bytesCompare`. -/
def bytesLt (a b : List Nat) : Prop := bytesCompare a b < 0

theorem bytesCompare_self : ∀ a : List Nat, bytesCompare a a = 0 := by
  intro a
  induction a with
  | nil => rfl
  | cons x xs ih => simp [bytesCompare, ih]

theorem bytesCompare_trichotomy :
    ∀ a b : List Nat, bytesCompare a b = -1 ∨ bytesCompare a b = 0 ∨
      bytesCompare a b = 1 := by
  intro a
  induction a with
  | nil => intro b; cases b <;> simp [bytesCompare]
  | cons x xs ih =>
      intro b
      cases b with
      | nil => simp [bytesCompare]
      | cons y ys =>
          by_cases h1 : x < y
          · simp [bytesCompare, h1]
          · by_cases h2 : y < x
            · simp [bytesCompare, h1, h2]
            · simpa [bytesCompare, h1, h2] using ih ys

theorem bytesCompare_eq_zero_iff :
    ∀ a b : List Nat, bytesCompare a b = 0 ↔ a = b := by
  intro a
  induction a with
  | nil => intro b; cases b <;> simp [bytesCompare]
  | cons x xs ih =>
      intro b
      cases b with
      | nil => simp [bytesCompare]
      | cons y ys =>
          by_cases h1 : x < y
          · simp [bytesCompare, h1]
            omega
          · by_cases h2 : y < x
            · simp [bytesCompare, h1, h2]
              omega
            · have hxy : x = y := by omega
              simp [bytesCompare, h1, h2, hxy, ih]

theorem bytesCompare_swap :
    ∀ a b : List Nat, bytesCompare b a = -bytesCompare a b := by
  intro a
  induction a with
  | nil => intro b; cases b <;> simp [bytesCompare]
  | cons x xs ih =>
      intro b
      cases b with
      | nil => simp [bytesCompare]
      | cons y ys =>
          by_cases h1 : x < y
          · have h2 : ¬ y < x := by omega
            simp [bytesCompare, h1, h2]
          · by_cases h2 : y < x
            · simp [bytesCompare, h1, h2]
            · simp [bytesCompare, h1, h2, ih]

theorem bytesLt_trans {a b c : List Nat} (h1 : bytesLt a b) (h2 : bytesLt b c) :
    bytesLt a c := by
  induction a generalizing b c with
  | nil =>
      cases b with
      | nil => simp [bytesLt, bytesCompare] at h1
      | cons y ys =>
          cases c with
          | nil => simp [bytesLt, bytesCompare] at h2
          | cons z zs => simp [bytesLt, bytesCompare]
  | cons x xs ih =>
      cases b with
      | nil => simp [bytesLt, bytesCompare] at h1
      | cons y ys =>
          cases c with
          | nil => simp [bytesLt, bytesCompare] at h2
          | cons z zs =>
              simp only [bytesLt, bytesCompare] at h1 h2 ⊢
              by_cases hxy : x < y
              · by_cases hyz : y < z
                · simp [show x < z by omega]
                · by_cases hzy : z < y
                  · simp [hyz, hzy] at h2
                  · have hyz' : y = z := by omega
                    subst hyz'
                    simp [hxy]
              · by_cases hyx : y < x
                · simp [hxy, hyx] at h1
                · have hxy' : x = y := by omega
                  subst hxy'
                  by_cases hyz : x < z
                  · simp [hyz]
                  · by_cases hzy : z < x
                    · simp [hyz, hzy] at h2
                    · have h1' : bytesLt xs ys := by
                        simpa [bytesLt, hxy] using h1
                      have h2' : bytesLt ys zs := by
                        simpa [bytesLt, hyz, hzy] using h2
                      simpa [bytesLt, hyz, hzy] using ih h1' h2'

theorem bytesLe_lt_trans {a b c : List Nat} (h1 : bytesCompare a b ≤ 0)
    (h2 : bytesLt b c) : bytesLt a c := by
  rcases bytesCompare_trichotomy a b with h | h | h
  · exact bytesLt_trans (by simp [bytesLt, h]) h2
  · rw [bytesCompare_eq_zero_iff] at h
    exact h ▸ h2
  · omega

theorem bytesCompare_zeroByte_le {k : List Nat} (h : k ≠ []) :
    bytesCompare [0] k ≤ 0 := by
  cases k with
  | nil => exact absurd rfl h
  | cons b rest =>
      by_cases hb : 0 < b
      · have : ¬ b < 0 := by omega
        simp [bytesCompare, hb, this]
      · have hb0 : b = 0 := by omega
        cases rest <;> simp [bytesCompare, hb0]

theorem bytesCompare_ge_zeroByte {k : List Nat} (h : k ≠ []) :
    bytesCompare k [0] ≥ 0 := by
  have := bytesCompare_zeroByte_le h
  have hsw := bytesCompare_swap [0] k
  omega

/-- Strict sortedness of a leaf's key list. -/
def strictSorted (ks : List (List Nat)) : Prop := ks.Pairwise bytesLt

theorem countWhileGT_le_length (k : List Nat) :
    ∀ ks : List (List Nat), countWhileGT k ks ≤ ks.length := by
  intro ks
  induction ks with
  | nil => simp [countWhileGT]
  | cons x xs ih =>
      by_cases h : bytesCompare k x > 0
      · simpa [countWhileGT, h] using ih
      · simp [countWhileGT, h]

theorem listInsertAt_length {α : Type} (a : α) :
    ∀ (n : Nat) (l : List α), (listInsertAt n a l).length = l.length + 1 := by
  intro n
  induction n with
  | zero => intro l; cases l <;> simp [listInsertAt]
  | succ m ih =>
      intro l
      cases l with
      | nil => simp [listInsertAt]
      | cons x xs => simp [listInsertAt, ih]

theorem mem_listInsertAt {α : Type} {a y : α} :
    ∀ {n : Nat} {l : List α}, y ∈ listInsertAt n a l → y = a ∨ y ∈ l := by
  intro n
  induction n with
  | zero =>
      intro l hy
      cases l <;> simpa [listInsertAt] using hy
  | succ m ih =>
      intro l hy
      cases l with
      | nil => simp [listInsertAt] at hy; simp [hy]
      | cons x xs =>
          simp only [listInsertAt, List.mem_cons] at hy
          rcases hy with h | h
          · simp [h]
          · rcases ih h with h' | h' <;> simp [h']

theorem listInsertAt_map_sum {α : Type} (f : α → Nat) (a : α) :
    ∀ (n : Nat) (l : List α),
      ((listInsertAt n a l).map f).sum = f a + (l.map f).sum := by
  intro n
  induction n with
  | zero => intro l; cases l <;> simp [listInsertAt]
  | succ m ih =>
      intro l
      cases l with
      | nil => simp [listInsertAt]
      | cons x xs => simp [listInsertAt, ih]; omega

theorem leafFindIdx_none_iff (k : List Nat) :
    ∀ ks : List (List Nat), leafFindIdx k ks = none ↔ k ∉ ks := by
  intro ks
  induction ks with
  | nil => simp [leafFindIdx]
  | cons x xs ih =>
      by_cases h : x = k
      · simp [leafFindIdx, bytesEqual, h]
      · simp [leafFindIdx, bytesEqual, h, ih, Option.map_eq_none']
        tauto

theorem sorted_head_not_gt {k x : List Nat} {xs : List (List Nat)}
    (hs : strictSorted (x :: xs)) (hmem : k ∈ xs) :
    bytesCompare k x > 0 := by
  have hlt : bytesLt x k := (List.pairwise_cons.mp hs).1 k hmem
  have := bytesCompare_swap x k
  simp only [bytesLt] at hlt
  omega

theorem leafFindIdx_sorted_mem {k : List Nat} :
    ∀ {ks : List (List Nat)}, strictSorted ks → k ∈ ks →
      leafFindIdx k ks = some (countWhileGT k ks) := by
  intro ks
  induction ks with
  | nil => intro _ h; simp at h
  | cons x xs ih =>
      intro hs hmem
      by_cases hx : x = k
      · have : ¬ bytesCompare k x > 0 := by
          rw [hx, bytesCompare_self]; omega
        simp [leafFindIdx, bytesEqual, hx, countWhileGT, bytesCompare_self]
      · have hmem' : k ∈ xs := by
          rcases List.mem_cons.mp hmem with h | h
          · exact absurd h.symm hx
          · exact h
        have hgt : bytesCompare k x > 0 := sorted_head_not_gt hs hmem'
        have := ih (List.Pairwise.of_cons hs) hmem'
        simp [leafFindIdx, bytesEqual, hx, countWhileGT, hgt, this]

theorem getD_countWhileGT_of_mem {k : List Nat} :
    ∀ {ks : List (List Nat)}, strictSorted ks → k ∈ ks →
      countWhileGT k ks < ks.length ∧ ks.getD (countWhileGT k ks) [] = k := by
  intro ks
  induction ks with
  | nil => intro _ h; simp at h
  | cons x xs ih =>
      intro hs hmem
      by_cases hx : x = k
      · have : ¬ bytesCompare k x > 0 := by
          rw [hx, bytesCompare_self]; omega
        simp [countWhileGT, hx, bytesCompare_self]
      · have hmem' : k ∈ xs := by
          rcases List.mem_cons.mp hmem with h | h
          · exact absurd h.symm hx
          · exact h
        have hgt : bytesCompare k x > 0 := sorted_head_not_gt hs hmem'
        have hih := ih (List.Pairwise.of_cons hs) hmem'
        simp only [countWhileGT, hgt, if_pos]
        constructor
        · simpa using hih.1
        · simpa using hih.2

theorem getD_mem_of_lt {α : Type} {l : List α} {i : Nat} {d : α}
    (h : i < l.length) : l.getD i d ∈ l := by
  induction l generalizing i with
  | nil => simp at h
  | cons x xs ih =>
      cases i with
      | zero => simp
      | succ j =>
          simp only [List.getD_cons_succ]
          exact List.mem_cons_of_mem x (ih (by simpa using h))

theorem sorted_listInsertAt {k : List Nat} :
    ∀ {ks : List (List Nat)}, strictSorted ks → k ∉ ks →
      strictSorted (listInsertAt (countWhileGT k ks) k ks) := by
  intro ks
  induction ks with
  | nil =>
      intro _ _
      simp [countWhileGT, listInsertAt, strictSorted]
  | cons x xs ih =>
      intro hs hnm
      have hxk : x ≠ k := fun h => hnm (by simp [h])
      have hsx := List.pairwise_cons.mp hs
      by_cases hgt : bytesCompare k x > 0
      · simp only [countWhileGT, hgt, if_pos, listInsertAt]
        refine List.pairwise_cons.mpr ⟨?_, ih hsx.2 (fun h => hnm (by simp [h]))⟩
        intro y hy
        rcases mem_listInsertAt hy with h | h
        · subst h
          have := bytesCompare_swap x y
          simp only [bytesLt]
          omega
        · exact hsx.1 y h
      · have hle : bytesCompare k x ≤ 0 := by omega
        have hkx : bytesLt k x := by
          rcases bytesCompare_trichotomy k x with h | h | h
          · simpa [bytesLt] using (by omega : bytesCompare k x < 0)
          · exact absurd ((bytesCompare_eq_zero_iff k x).mp h).symm hxk
          · omega
        simp only [countWhileGT, hgt, if_neg, listInsertAt]
        refine List.pairwise_cons.mpr ⟨?_, hs⟩
        intro y hy
        rcases List.mem_cons.mp hy with h | h
        · exact h ▸ hkx
        · exact bytesLt_trans hkx (hsx.1 y h)

theorem setNode_arena_length (t : BTree) (i : Nat) (n : BNode) :
    (t.setNode i n).arena.length = t.arena.length := by
  simp [BTree.setNode]

theorem setNode_root (t : BTree) (i : Nat) (n : BNode) :
    (t.setNode i n).root = t.root := rfl

theorem setNode_order (t : BTree) (i : Nat) (n : BNode) :
    (t.setNode i n).order = t.order := rfl

theorem node_setNode_same {t : BTree} {i : Nat} (n : BNode)
    (h : i < t.arena.length) : (t.setNode i n).node i = n := by
  simp [BTree.setNode, BTree.node, List.getD, List.getElem?_set_eq_of_lt, h]

theorem node_setNode_other {t : BTree} {i j : Nat} (n : BNode)
    (h : j ≠ i) : (t.setNode i n).node j = t.node j := by
  simp [BTree.setNode, BTree.node, List.getD, List.getElem?_set_ne h.symm]

theorem alloc_arena_length (t : BTree) (n : BNode) :
    (t.alloc n).1.arena.length = t.arena.length + 1 := by
  simp [BTree.alloc]

theorem alloc_root (t : BTree) (n : BNode) : (t.alloc n).1.root = t.root := rfl

theorem alloc_order (t : BTree) (n : BNode) : (t.alloc n).1.order = t.order := rfl

theorem alloc_idx (t : BTree) (n : BNode) : (t.alloc n).2 = t.arena.length := rfl

theorem node_alloc_old {t : BTree} {j : Nat} (n : BNode)
    (h : j < t.arena.length) : (t.alloc n).1.node j = t.node j := by
  simp [BTree.alloc, BTree.node, List.getD, List.getElem?_append_left h]

theorem node_alloc_new (t : BTree) (n : BNode) :
    (t.alloc n).1.node t.arena.length = n := by
  simp [BTree.alloc, BTree.node, List.getD]

theorem node_oob {t : BTree} {j : Nat} (h : t.arena.length ≤ j) :
    t.node j = newLeafNode := by
  simp [BTree.node, List.getD, List.getElem?_eq_none h]

theorem reparent_arena_length (p : Nat) :
    ∀ (cs : List Nat) (t : BTree),
      (cs.foldl (fun acc c =>
        acc.setNode c { acc.node c with parent := some p }) t).arena.length =
      t.arena.length := by
  intro cs
  induction cs with
  | nil => intro t; rfl
  | cons c rest ih =>
      intro t
      rw [List.foldl_cons, ih]
      exact setNode_arena_length _ _ _

theorem reparent_root (p : Nat) :
    ∀ (cs : List Nat) (t : BTree),
      (cs.foldl (fun acc c =>
        acc.setNode c { acc.node c with parent := some p }) t).root = t.root := by
  intro cs
  induction cs with
  | nil => intro t; rfl
  | cons c rest ih =>
      intro t
      rw [List.foldl_cons, ih]
      exact setNode_root _ _ _

theorem reparent_order (p : Nat) :
    ∀ (cs : List Nat) (t : BTree),
      (cs.foldl (fun acc c =>
        acc.setNode c { acc.node c with parent := some p }) t).order = t.order := by
  intro cs
  induction cs with
  | nil => intro t; rfl
  | cons c rest ih =>
      intro t
      rw [List.foldl_cons, ih]
      exact setNode_order _ _ _

theorem reparent_node_notmem (p : Nat) :
    ∀ (cs : List Nat) (t : BTree) (j : Nat), j ∉ cs →
      (cs.foldl (fun acc c =>
        acc.setNode c { acc.node c with parent := some p }) t).node j =
      t.node j := by
  intro cs
  induction cs with
  | nil => intro t j _; rfl
  | cons c rest ih =>
      intro t j hj
      have hjc : j ≠ c := fun h => hj (by simp [h])
      have hjrest : j ∉ rest := fun h => hj (by simp [h])
      rw [List.foldl_cons, ih _ j hjrest, node_setNode_other _ hjc]

theorem reparent_node_mem (p : Nat) :
    ∀ (cs : List Nat) (t : BTree) (j : Nat), j ∈ cs → j < t.arena.length →
      (cs.foldl (fun acc c =>
        acc.setNode c { acc.node c with parent := some p }) t).node j =
      { t.node j with parent := some p } := by
  intro cs
  induction cs with
  | nil => intro t j hj _; simp at hj
  | cons c rest ih =>
      intro t j hj hjlt
      by_cases hjrest : j ∈ rest
      · have hlen : j < (t.setNode c { t.node c with parent := some p }).arena.length := by
          simpa [setNode_arena_length] using hjlt
        have := ih (t.setNode c { t.node c with parent := some p }) j hjrest hlen
        by_cases hjc : j = c
        · subst hjc
          rw [List.foldl_cons, this, node_setNode_same _ hjlt]
        · rw [List.foldl_cons, this, node_setNode_other _ hjc]
      · have hjc : j = c := by
          rcases List.mem_cons.mp hj with h | h
          · exact h
          · exact absurd h hjrest
        subst hjc
        rw [List.foldl_cons, reparent_node_notmem p rest _ j hjrest,
          node_setNode_same _ hjlt]

/-- Reachability of the leaf chain: `ChainFrom t h l` says the chain of
`next` links starting at h visits exactly the nodes of l in order and
terminates. -/
inductive ChainFrom (t : BTree) : Nat → List Nat → Prop
  | last (i : Nat) : (t.node i).next = none → ChainFrom t i [i]
  | cons (i j : Nat) (l : List Nat) : (t.node i).next = some j →
      ChainFrom t j l → ChainFrom t i (i :: l)

/-- The leftmost descent path of length d from node i to leaf h: at every
internal node take `children[0]`. -/
inductive LeftSpine (t : BTree) : Nat → Nat → Nat → Prop
  | leaf (i : Nat) : (t.node i).isLeaf = true → LeftSpine t 0 i i
  | step (d i j h : Nat) : (t.node i).isLeaf = false →
      (t.node i).children.getD 0 0 = j → LeftSpine t d j h →
      LeftSpine t (d + 1) i h

/-- The structural part of the tree invariant, parameterised by the list of
freshly allocated nodes whose parent pointer has not been assigned yet
(`exempt`) and by a rank function witnessing that child links descend and
parent links ascend. -/
structure ShapeInv (t : BTree) (exempt : List Nat) (rank : Nat → Nat) : Prop where
  order3 : 3 ≤ t.order
  rootLt : t.root < t.arena.length
  pnr : ∀ i, i < t.arena.length → i ∉ exempt → (t.node i).parent = none →
      i = t.root
  parentInternal : ∀ i j, i < t.arena.length → (t.node i).parent = some j →
      j < t.arena.length ∧ (t.node j).isLeaf = false
  parentRank : ∀ i j, i < t.arena.length → (t.node i).parent = some j →
      rank i < rank j
  childLt : ∀ i, i < t.arena.length → (t.node i).isLeaf = false →
      ∀ c ∈ (t.node i).children, c < t.arena.length
  childCount : ∀ i, i < t.arena.length → (t.node i).isLeaf = false →
      (t.node i).children.length = (t.node i).keys.length + 1
  internalGtZero : ∀ i, i < t.arena.length → (t.node i).isLeaf = false →
      ∀ k ∈ (t.node i).keys, bytesLt [0] k
  rankRoot : rank t.root < t.arena.length
  rankChild : ∀ i, i < t.arena.length → (t.node i).isLeaf = false →
      ∀ c ∈ (t.node i).children, rank c < rank i

/-- The full invariant of trees built by the record store: structure plus the
leaf chain with its bookkeeping properties. -/
structure TreeWF (t : BTree) (chain : List Nat) (rank : Nat → Nat) : Prop where
  shape : ShapeInv t [] rank
  chainSpine : ∃ h d, ChainFrom t h chain ∧ LeftSpine t d t.root h ∧
      d + 1 ≤ t.arena.length
  chainMem : ∀ i ∈ chain, i < t.arena.length ∧ (t.node i).isLeaf = true
  chainNodup : chain.Nodup
  chainLen : chain.length ≤ t.arena.length
  covers : ∀ i, i < t.arena.length → (t.node i).isLeaf = true → i ∈ chain
  leafKV : ∀ i ∈ chain, (t.node i).keys.length = (t.node i).values.length
  leafSorted : ∀ i ∈ chain, strictSorted (t.node i).keys
  leafKeysNe : ∀ i ∈ chain, ∀ k ∈ (t.node i).keys, k ≠ []

theorem chainFrom_congr {t t' : BTree} {h : Nat} {l : List Nat}
    (hc : ChainFrom t h l)
    (hnext : ∀ i ∈ l, (t'.node i).next = (t.node i).next) :
    ChainFrom t' h l := by
  induction hc with
  | last i hi => exact ChainFrom.last i ((hnext i (by simp)).trans hi)
  | cons i j l hij _ ih =>
      exact ChainFrom.cons i j l ((hnext i (by simp)).trans hij)
        (ih (fun x hx => hnext x (by simp [hx])))

theorem leftSpine_congr {t t' : BTree} {d r hL : Nat}
    (hs : LeftSpine t d r hL) (hrlt : r < t.arena.length)
    (hchild : ∀ i, i < t.arena.length → (t.node i).isLeaf = false →
      (t.node i).children.getD 0 0 < t.arena.length)
    (hleaf : ∀ i, i < t.arena.length → (t'.node i).isLeaf = (t.node i).isLeaf)
    (hc0 : ∀ i, i < t.arena.length → (t.node i).isLeaf = false →
      (t'.node i).children.getD 0 0 = (t.node i).children.getD 0 0) :
    LeftSpine t' d r hL := by
  induction hs with
  | leaf i hi => exact LeftSpine.leaf i ((hleaf i hrlt).trans hi)
  | step d i j h hi hj hrec ih =>
      exact LeftSpine.step d i j h ((hleaf i hrlt).trans hi)
        ((hc0 i hrlt hi).trans hj)
        (ih (hj ▸ hchild i hrlt hi))

theorem spineChild_lt {t : BTree} {exempt : List Nat} {rank : Nat → Nat}
    (hs : ShapeInv t exempt rank) :
    ∀ i, i < t.arena.length → (t.node i).isLeaf = false →
      (t.node i).children.getD 0 0 < t.arena.length := by
  intro i hi hleaf
  have hcount := hs.childCount i hi hleaf
  have hne : 0 < (t.node i).children.length := by omega
  exact hs.childLt i hi hleaf _ (getD_mem_of_lt hne)

theorem listInsertAt_getD_zero_succ {α : Type} (n : Nat) (a : α) {l : List α}
    (d : α) (h : l ≠ []) :
    (listInsertAt (n + 1) a l).getD 0 d = l.getD 0 d := by
  cases l with
  | nil => exact absurd rfl h
  | cons x xs => simp [listInsertAt]

theorem take_getD_zero {α : Type} {n : Nat} (l : List α) (d : α)
    (h : 1 ≤ n) : (l.take n).getD 0 d = l.getD 0 d := by
  cases l with
  | nil => simp
  | cons x xs =>
      cases n with
      | zero => omega
      | succ m => simp

/-- Relational summary of one (possibly recursive) pass of the parent
insertion: how the resulting tree is related to the input tree.  The final
`shape` field carries the structural invariant of the result. -/
structure IPRes (t t' : BTree) (rank rank' : Nat → Nat) (exempt : List Nat) :
    Prop where
  shape : ShapeInv t' exempt rank'
  rankAgree : ∀ i, i < t.arena.length → rank' i = rank i
  lenMono : t.arena.length ≤ t'.arena.length
  orderEq : t'.order = t.order
  isLeafPres : ∀ i, i < t.arena.length → (t'.node i).isLeaf = (t.node i).isLeaf
  leafSkel : ∀ i, i < t.arena.length → (t.node i).isLeaf = true →
      (t'.node i).keys = (t.node i).keys ∧
      (t'.node i).values = (t.node i).values ∧
      (t'.node i).next = (t.node i).next
  freshInternal : ∀ i, t.arena.length ≤ i → i < t'.arena.length →
      (t'.node i).isLeaf = false
  parentSome : ∀ i, i < t.arena.length → ((t.node i).parent).isSome = true →
      ((t'.node i).parent).isSome = true
  spine : ∀ d h, LeftSpine t d t.root h →
      ∃ d', LeftSpine t' d' t'.root h ∧
        d' + t.arena.length ≤ d + t'.arena.length

theorem IPRes.trans {t1 t2 t3 : BTree} {r1 r2 r3 : Nat → Nat}
    {e1 e2 : List Nat} (a : IPRes t1 t2 r1 r2 e1) (b : IPRes t2 t3 r2 r3 e2) :
    IPRes t1 t3 r1 r3 e2 where
  shape := b.shape
  rankAgree := fun i hi =>
    (b.rankAgree i (lt_of_lt_of_le hi a.lenMono)).trans (a.rankAgree i hi)
  lenMono := a.lenMono.trans b.lenMono
  orderEq := b.orderEq.trans a.orderEq
  isLeafPres := fun i hi =>
    (b.isLeafPres i (lt_of_lt_of_le hi a.lenMono)).trans (a.isLeafPres i hi)
  leafSkel := fun i hi hl => by
    have hi2 : i < t2.arena.length := lt_of_lt_of_le hi a.lenMono
    have hl2 : (t2.node i).isLeaf = true := (a.isLeafPres i hi).trans hl
    obtain ⟨k1, v1, n1⟩ := a.leafSkel i hi hl
    obtain ⟨k2, v2, n2⟩ := b.leafSkel i hi2 hl2
    exact ⟨k2.trans k1, v2.trans v1, n2.trans n1⟩
  freshInternal := fun i hge hlt => by
    by_cases h2 : i < t2.arena.length
    · exact (b.isLeafPres i h2).trans (a.freshInternal i hge h2)
    · exact b.freshInternal i (by omega) hlt
  parentSome := fun i hi hp =>
    b.parentSome i (lt_of_lt_of_le hi a.lenMono) (a.parentSome i hi hp)
  spine := fun d h hs => by
    obtain ⟨d2, hs2, hd2⟩ := a.spine d h hs
    obtain ⟨d3, hs3, hd3⟩ := b.spine d2 h hs2
    exact ⟨d3, hs3, by omega⟩

theorem IPRes.refl (t : BTree) (rank : Nat → Nat) (exempt : List Nat)
    (hs : ShapeInv t exempt rank) : IPRes t t rank rank exempt where
  shape := hs
  rankAgree := fun _ _ => rfl
  lenMono := le_refl _
  orderEq := rfl
  isLeafPres := fun _ _ => rfl
  leafSkel := fun _ _ _ => ⟨rfl, rfl, rfl⟩
  freshInternal := fun i hge hlt => absurd hlt (by omega)
  parentSome := fun _ _ h => h
  spine := fun d h hs => ⟨d, hs, by omega⟩

theorem ip_stage_insert {t : BTree} {exempt : List Nat} {rank : Nat → Nat}
    {p : Nat} {key : List Nat} {rc : Nat}
    (hs : ShapeInv t exempt rank) (hp : p < t.arena.length)
    (hpi : (t.node p).isLeaf = false) (hrc : rc < t.arena.length)
    (hrcrank : rank rc < rank p) (hkey : bytesLt [0] key) :
    IPRes t
      (t.setNode p { t.node p with
        keys := listInsertAt (countWhileGT key (t.node p).keys) key
          (t.node p).keys
        children := listInsertAt (countWhileGT key (t.node p).keys + 1) rc
          (t.node p).children })
      rank rank exempt := by
  set n1 : BNode := { t.node p with
    keys := listInsertAt (countWhileGT key (t.node p).keys) key (t.node p).keys
    children := listInsertAt (countWhileGT key (t.node p).keys + 1) rc
      (t.node p).children } with hn1
  set t1 := t.setNode p n1 with ht1
  have hlen : t1.arena.length = t.arena.length := setNode_arena_length _ _ _
  have hroot : t1.root = t.root := rfl
  have horder : t1.order = t.order := rfl
  have hnodep : t1.node p = n1 := node_setNode_same _ hp
  have hnode : ∀ j, j ≠ p → t1.node j = t.node j := fun j hj =>
    node_setNode_other _ hj
  have hpar : ∀ j, (t1.node j).parent = (t.node j).parent := by
    intro j
    by_cases hj : j = p
    · subst hj; rw [hnodep, hn1]
    · rw [hnode j hj]
  have hleaf : ∀ j, (t1.node j).isLeaf = (t.node j).isLeaf := by
    intro j
    by_cases hj : j = p
    · subst hj; rw [hnodep, hn1]
    · rw [hnode j hj]
  have hchne : (t.node p).children ≠ [] := by
    have := hs.childCount p hp hpi
    intro h
    rw [h] at this
    simp at this
  have hshape : ShapeInv t1 exempt rank := by
    refine ⟨?_, ?_, ?_, ?_, ?_, ?_, ?_, ?_, ?_, ?_⟩
    · rw [horder]; exact hs.order3
    · rw [hroot, hlen]; exact hs.rootLt
    · intro i hi hex hnone
      rw [hpar] at hnone
      rw [hroot]
      exact hs.pnr i (by omega) hex hnone
    · intro i j hi hj
      rw [hpar] at hj
      rw [hlen, hleaf]
      exact hs.parentInternal i j (by omega) hj
    · intro i j hi hj
      rw [hpar] at hj
      exact hs.parentRank i j (by omega) hj
    · intro i hi hil c hc
      rw [hlen] at hi ⊢
      rw [hleaf] at hil
      by_cases hip : i = p
      · subst hip
        rw [hnodep] at hc
        rcases mem_listInsertAt hc with h | h
        · omega
        · exact hs.childLt i hi hil c h
      · rw [hnode i hip] at hc
        exact hs.childLt i hi hil c hc
    · intro i hi hil
      rw [hlen] at hi
      rw [hleaf] at hil
      by_cases hip : i = p
      · subst hip
        rw [hnodep]
        simp only [hn1, listInsertAt_length]
        exact congrArg (· + 1) (hs.childCount i hi hil)
      · rw [hnode i hip]
        exact hs.childCount i hi hil
    · intro i hi hil k hk
      rw [hlen] at hi
      rw [hleaf] at hil
      by_cases hip : i = p
      · subst hip
        rw [hnodep] at hk
        rcases mem_listInsertAt hk with h | h
        · exact h ▸ hkey
        · exact hs.internalGtZero i hi hil k h
      · rw [hnode i hip] at hk
        exact hs.internalGtZero i hi hil k hk
    · rw [hroot, hlen]; exact hs.rankRoot
    · intro i hi hil c hc
      rw [hlen] at hi
      rw [hleaf] at hil
      by_cases hip : i = p
      · subst hip
        rw [hnodep] at hc
        rcases mem_listInsertAt hc with h | h
        · exact h ▸ hrcrank
        · exact hs.rankChild i hi hil c h
      · rw [hnode i hip] at hc
        exact hs.rankChild i hi hil c hc
  refine ⟨hshape, fun _ _ => rfl, by omega, horder, fun i _ => hleaf i, ?_, ?_, ?_, ?_⟩
  · intro i hi hil
    have hip : i ≠ p := by
      intro h
      rw [h, hpi] at hil
      exact Bool.false_ne_true hil
    rw [hnode i hip]
    exact ⟨rfl, rfl, rfl⟩
  · intro i hge hlt; omega
  · intro i hi hsome
    rw [hpar]; exact hsome
  · intro d h hsp
    refine ⟨d, ?_, by omega⟩
    rw [hroot] at *
    refine leftSpine_congr hsp hs.rootLt (spineChild_lt hs) (fun i _ => hleaf i) ?_
    intro i hi hil
    by_cases hip : i = p
    · subst hip
      rw [hnodep]
      simp only [hn1]
      exact listInsertAt_getD_zero_succ _ _ _ hchne
    · rw [hnode i hip]

theorem ip_stage_alloc {t : BTree} {exempt : List Nat} {rank : Nat → Nat}
    (hs : ShapeInv t exempt rank) (nNew : BNode) (rk : Nat)
    (hleaf : nNew.isLeaf = false) (hparent : nNew.parent = none)
    (hchild : ∀ c ∈ nNew.children, c < t.arena.length ∧ rank c < rk)
    (hcount : nNew.children.length = nNew.keys.length + 1)
    (hkeys : ∀ k ∈ nNew.keys, bytesLt [0] k) :
    IPRes t (t.alloc nNew).1 rank (Function.update rank t.arena.length rk)
      (t.arena.length :: exempt) := by
  set t1 := (t.alloc nNew).1 with ht1
  have hlen : t1.arena.length = t.arena.length + 1 := alloc_arena_length _ _
  have hroot : t1.root = t.root := rfl
  have horder : t1.order = t.order := rfl
  have hold : ∀ j, j < t.arena.length → t1.node j = t.node j := fun j hj =>
    node_alloc_old _ hj
  have hnew : t1.node t.arena.length = nNew := node_alloc_new _ _
  have hrk : ∀ j, j < t.arena.length →
      Function.update rank t.arena.length rk j = rank j := by
    intro j hj
    exact Function.update_noteq (by omega) _ _
  have hshape : ShapeInv t1 (t.arena.length :: exempt)
      (Function.update rank t.arena.length rk) := by
    refine ⟨horder ▸ hs.order3, ?_, ?_, ?_, ?_, ?_, ?_, ?_, ?_, ?_⟩
    · rw [hroot, hlen]; exact Nat.lt_succ_of_lt hs.rootLt
    · intro i hi hex hnone
      have hiN : i ≠ t.arena.length := fun h => hex (by simp [h])
      have hilt : i < t.arena.length := by omega
      rw [hold i hilt] at hnone
      rw [hroot]
      exact hs.pnr i hilt (fun h => hex (by simp [h])) hnone
    · intro i j hi hj
      by_cases hiN : i = t.arena.length
      · rw [hiN, hnew, hparent] at hj; exact absurd hj (by simp)
      · have hilt : i < t.arena.length := by omega
        rw [hold i hilt] at hj
        have := hs.parentInternal i j hilt hj
        rw [hold j this.1]
        exact ⟨by omega, this.2⟩
    · intro i j hi hj
      by_cases hiN : i = t.arena.length
      · rw [hiN, hnew, hparent] at hj; exact absurd hj (by simp)
      · have hilt : i < t.arena.length := by omega
        rw [hold i hilt] at hj
        have hjlt := (hs.parentInternal i j hilt hj).1
        rw [hrk i hilt, hrk j hjlt]
        exact hs.parentRank i j hilt hj
    · intro i hi hil c hc
      by_cases hiN : i = t.arena.length
      · rw [hiN, hnew] at hc
        have := (hchild c hc).1
        omega
      · have hilt : i < t.arena.length := by omega
        rw [hold i hilt] at hil hc
        have := hs.childLt i hilt hil c hc
        omega
    · intro i hi hil
      by_cases hiN : i = t.arena.length
      · rw [hiN, hnew]; exact hcount
      · have hilt : i < t.arena.length := by omega
        rw [hold i hilt] at hil ⊢
        exact hs.childCount i hilt hil
    · intro i hi hil k hk
      by_cases hiN : i = t.arena.length
      · rw [hiN, hnew] at hk; exact hkeys k hk
      · have hilt : i < t.arena.length := by omega
        rw [hold i hilt] at hil hk
        exact hs.internalGtZero i hilt hil k hk
    · rw [hroot, hlen, hrk _ hs.rootLt]
      exact Nat.lt_succ_of_lt hs.rankRoot
    · intro i hi hil c hc
      by_cases hiN : i = t.arena.length
      · rw [hiN, hnew] at hc
        rw [hiN, hrk c (hchild c hc).1, Function.update_same]
        exact (hchild c hc).2
      · have hilt : i < t.arena.length := by omega
        rw [hold i hilt] at hil hc
        have hclt := hs.childLt i hilt hil c hc
        rw [hrk c hclt, hrk i hilt]
        exact hs.rankChild i hilt hil c hc
  refine ⟨hshape, hrk, by omega, horder, ?_, ?_, ?_, ?_, ?_⟩
  · intro i hi; rw [hold i hi]
  · intro i hi hl; rw [hold i hi]; exact ⟨rfl, rfl, rfl⟩
  · intro i hge hlt
    have : i = t.arena.length := by omega
    rw [this, hnew]; exact hleaf
  · intro i hi hp; rw [hold i hi]; exact hp
  · intro d h hsp
    refine ⟨d, ?_, by omega⟩
    rw [hroot] at *
    refine leftSpine_congr hsp hs.rootLt (spineChild_lt hs)
      (fun i hi => by rw [hold i hi]) (fun i hi _ => by rw [hold i hi])

theorem ip_stage_reparent {t : BTree} {exempt : List Nat} {rank : Nat → Nat}
    (hs : ShapeInv t exempt rank) (cs : List Nat) (q : Nat)
    (hcs : ∀ c ∈ cs, c < t.arena.length)
    (hq : q < t.arena.length) (hqi : (t.node q).isLeaf = false)
    (hqrank : ∀ c ∈ cs, rank c < rank q) :
    IPRes t (cs.foldl (fun acc c =>
      acc.setNode c { acc.node c with parent := some q }) t) rank rank
      exempt := by
  set t1 := cs.foldl (fun acc c =>
    acc.setNode c { acc.node c with parent := some q }) t with ht1
  have hlen : t1.arena.length = t.arena.length := reparent_arena_length _ _ _
  have hroot : t1.root = t.root := reparent_root _ _ _
  have horder : t1.order = t.order := reparent_order _ _ _
  have hnode : ∀ j, (t1.node j).isLeaf = (t.node j).isLeaf ∧
      (t1.node j).keys = (t.node j).keys ∧
      (t1.node j).values = (t.node j).values ∧
      (t1.node j).children = (t.node j).children ∧
      (t1.node j).next = (t.node j).next := by
    intro j
    by_cases hj : j ∈ cs
    · rw [ht1, reparent_node_mem q cs t j hj (hcs j hj)]
      exact ⟨rfl, rfl, rfl, rfl, rfl⟩
    · rw [ht1, reparent_node_notmem q cs t j hj]
      exact ⟨rfl, rfl, rfl, rfl, rfl⟩
  have hpar : ∀ j, (t1.node j).parent = (t.node j).parent ∨
      (j ∈ cs ∧ j < t.arena.length ∧ (t1.node j).parent = some q) := by
    intro j
    by_cases hj : j ∈ cs
    · right
      refine ⟨hj, hcs j hj, ?_⟩
      rw [ht1, reparent_node_mem q cs t j hj (hcs j hj)]
    · left
      rw [ht1, reparent_node_notmem q cs t j hj]
  have hshape : ShapeInv t1 exempt rank := by
    refine ⟨horder ▸ hs.order3, ?_, ?_, ?_, ?_, ?_, ?_, ?_, ?_, ?_⟩
    · rw [hroot, hlen]; exact hs.rootLt
    · intro i hi hex hnone
      rcases hpar i with h | h
      · rw [h] at hnone
        rw [hroot]
        exact hs.pnr i (by omega) hex hnone
      · rw [h.2.2] at hnone; exact absurd hnone (by simp)
    · intro i j hi hj
      rcases hpar i with h | h
      · rw [h] at hj
        have := hs.parentInternal i j (by omega) hj
        exact ⟨by omega, ((hnode j).1).trans this.2⟩
      · rw [h.2.2] at hj
        have hjq : j = q := by injection hj with h'; exact h'.symm
        subst hjq
        exact ⟨by omega, ((hnode j).1).trans hqi⟩
    · intro i j hi hj
      rcases hpar i with h | h
      · rw [h] at hj
        exact hs.parentRank i j (by omega) hj
      · rw [h.2.2] at hj
        have hjq : j = q := by injection hj with h'; exact h'.symm
        subst hjq
        exact hqrank i h.1
    · intro i hi hil c hc
      rw [(hnode i).1] at hil
      rw [(hnode i).2.2.2.1] at hc
      rw [hlen] at hi ⊢
      exact hs.childLt i hi hil c hc
    · intro i hi hil
      rw [(hnode i).1] at hil
      rw [(hnode i).2.2.2.1, (hnode i).2.1]
      exact hs.childCount i (by omega) hil
    · intro i hi hil k hk
      rw [(hnode i).1] at hil
      rw [(hnode i).2.1] at hk
      exact hs.internalGtZero i (by omega) hil k hk
    · rw [hroot, hlen]; exact hs.rankRoot
    · intro i hi hil c hc
      rw [(hnode i).1] at hil
      rw [(hnode i).2.2.2.1] at hc
      exact hs.rankChild i (by omega) hil c hc
  refine ⟨hshape, fun _ _ => rfl, by omega, horder, ?_, ?_, ?_, ?_, ?_⟩
  · intro i _; exact (hnode i).1
  · intro i _ _
    exact ⟨(hnode i).2.1, (hnode i).2.2.1, (hnode i).2.2.2.2⟩
  · intro i hge hlt; omega
  · intro i hi hp
    rcases hpar i with h | h
    · rw [h]; exact hp
    · rw [h.2.2]; simp
  · intro d h hsp
    refine ⟨d, ?_, by omega⟩
    rw [hroot] at *
    refine leftSpine_congr hsp hs.rootLt (spineChild_lt hs)
      (fun i _ => (hnode i).1)
      (fun i _ _ => by rw [(hnode i).2.2.2.1])

theorem ip_stage_shrink {t : BTree} {exempt : List Nat} {rank : Nat → Nat}
    {p : Nat} (hs : ShapeInv t exempt rank) (ks : List (List Nat))
    (cs : List Nat) (hp : p < t.arena.length)
    (hpi : (t.node p).isLeaf = false)
    (hks : ∀ k ∈ ks, k ∈ (t.node p).keys)
    (hcs : ∀ c ∈ cs, c ∈ (t.node p).children)
    (hcount : cs.length = ks.length + 1)
    (hc0 : cs.getD 0 0 = (t.node p).children.getD 0 0) :
    IPRes t (t.setNode p { t.node p with keys := ks, children := cs })
      rank rank exempt := by
  set t1 := t.setNode p { t.node p with keys := ks, children := cs } with ht1
  have hlen : t1.arena.length = t.arena.length := setNode_arena_length _ _ _
  have hroot : t1.root = t.root := rfl
  have horder : t1.order = t.order := rfl
  have hnodep : t1.node p = { t.node p with keys := ks, children := cs } :=
    node_setNode_same _ hp
  have hnode : ∀ j, j ≠ p → t1.node j = t.node j := fun j hj =>
    node_setNode_other _ hj
  have hpar : ∀ j, (t1.node j).parent = (t.node j).parent := by
    intro j
    by_cases hj : j = p
    · subst hj; rw [hnodep]
    · rw [hnode j hj]
  have hleaf : ∀ j, (t1.node j).isLeaf = (t.node j).isLeaf := by
    intro j
    by_cases hj : j = p
    · subst hj; rw [hnodep]
    · rw [hnode j hj]
  have hshape : ShapeInv t1 exempt rank := by
    refine ⟨horder ▸ hs.order3, ?_, ?_, ?_, ?_, ?_, ?_, ?_, ?_, ?_⟩
    · rw [hroot, hlen]; exact hs.rootLt
    · intro i hi hex hnone
      rw [hpar] at hnone
      rw [hroot]
      exact hs.pnr i (by omega) hex hnone
    · intro i j hi hj
      rw [hpar] at hj
      have := hs.parentInternal i j (by omega) hj
      exact ⟨by omega, (hleaf j).trans this.2⟩
    · intro i j hi hj
      rw [hpar] at hj
      exact hs.parentRank i j (by omega) hj
    · intro i hi hil c hc
      rw [hleaf] at hil
      rw [hlen] at hi ⊢
      by_cases hip : i = p
      · subst hip
        rw [hnodep] at hc
        exact hs.childLt i hi hil c (hcs c hc)
      · rw [hnode i hip] at hc
        exact hs.childLt i hi hil c hc
    · intro i hi hil
      rw [hleaf] at hil
      by_cases hip : i = p
      · subst hip
        rw [hnodep]
        exact hcount
      · rw [hnode i hip]
        exact hs.childCount i (by omega) hil
    · intro i hi hil k hk
      rw [hleaf] at hil
      by_cases hip : i = p
      · subst hip
        rw [hnodep] at hk
        exact hs.internalGtZero i (by omega) hil k (hks k hk)
      · rw [hnode i hip] at hk
        exact hs.internalGtZero i (by omega) hil k hk
    · rw [hroot, hlen]; exact hs.rankRoot
    · intro i hi hil c hc
      rw [hleaf] at hil
      by_cases hip : i = p
      · subst hip
        rw [hnodep] at hc
        exact hs.rankChild i (by omega) hil c (hcs c hc)
      · rw [hnode i hip] at hc
        exact hs.rankChild i (by omega) hil c hc
  refine ⟨hshape, fun _ _ => rfl, by omega, horder, fun i _ => hleaf i,
    ?_, ?_, ?_, ?_⟩
  · intro i hi hil
    have hip : i ≠ p := by
      intro h
      rw [h, hpi] at hil
      exact Bool.false_ne_true hil
    rw [hnode i hip]
    exact ⟨rfl, rfl, rfl⟩
  · intro i hge hlt; omega
  · intro i hi hsome
    rw [hpar]; exact hsome
  · intro d h hsp
    refine ⟨d, ?_, by omega⟩
    rw [hroot] at *
    refine leftSpine_congr hsp hs.rootLt (spineChild_lt hs)
      (fun i _ => hleaf i) ?_
    intro i hi hil
    by_cases hip : i = p
    · subst hip
      rw [hnodep]
      exact hc0
    · rw [hnode i hip]

theorem ip_stage_setParent {t : BTree} {exempt : List Nat} {rank : Nat → Nat}
    {x q : Nat} (hs : ShapeInv t exempt rank)
    (hx : x < t.arena.length) (hq : q < t.arena.length)
    (hqi : (t.node q).isLeaf = false) (hrk : rank x < rank q) :
    IPRes t (t.setNode x { t.node x with parent := some q }) rank rank
      exempt := by
  set t1 := t.setNode x { t.node x with parent := some q } with ht1
  have hlen : t1.arena.length = t.arena.length := setNode_arena_length _ _ _
  have hroot : t1.root = t.root := rfl
  have horder : t1.order = t.order := rfl
  have hnodex : t1.node x = { t.node x with parent := some q } :=
    node_setNode_same _ hx
  have hnode : ∀ j, j ≠ x → t1.node j = t.node j := fun j hj =>
    node_setNode_other _ hj
  have hskel : ∀ j, (t1.node j).isLeaf = (t.node j).isLeaf ∧
      (t1.node j).keys = (t.node j).keys ∧
      (t1.node j).values = (t.node j).values ∧
      (t1.node j).children = (t.node j).children ∧
      (t1.node j).next = (t.node j).next := by
    intro j
    by_cases hj : j = x
    · subst hj; rw [hnodex]; exact ⟨rfl, rfl, rfl, rfl, rfl⟩
    · rw [hnode j hj]; exact ⟨rfl, rfl, rfl, rfl, rfl⟩
  have hpar : ∀ j, j ≠ x → (t1.node j).parent = (t.node j).parent := by
    intro j hj
    rw [hnode j hj]
  have hshape : ShapeInv t1 exempt rank := by
    refine ⟨horder ▸ hs.order3, ?_, ?_, ?_, ?_, ?_, ?_, ?_, ?_, ?_⟩
    · rw [hroot, hlen]; exact hs.rootLt
    · intro i hi hex hnone
      by_cases hix : i = x
      · subst hix
        rw [hnodex] at hnone
        exact absurd hnone (by simp)
      · rw [hpar i hix] at hnone
        rw [hroot]
        exact hs.pnr i (by omega) hex hnone
    · intro i j hi hj
      by_cases hix : i = x
      · subst hix
        rw [hnodex] at hj
        have hjq : j = q := by
          simp only at hj
          injection hj with h'; exact h'.symm
        subst hjq
        exact ⟨by omega, ((hskel j).1).trans hqi⟩
      · rw [hpar i hix] at hj
        have := hs.parentInternal i j (by omega) hj
        exact ⟨by omega, ((hskel j).1).trans this.2⟩
    · intro i j hi hj
      by_cases hix : i = x
      · subst hix
        rw [hnodex] at hj
        have hjq : j = q := by
          simp only at hj
          injection hj with h'; exact h'.symm
        subst hjq
        exact hrk
      · rw [hpar i hix] at hj
        exact hs.parentRank i j (by omega) hj
    · intro i hi hil c hc
      rw [(hskel i).1] at hil
      rw [(hskel i).2.2.2.1] at hc
      rw [hlen] at hi ⊢
      exact hs.childLt i hi hil c hc
    · intro i hi hil
      rw [(hskel i).1] at hil
      rw [(hskel i).2.2.2.1, (hskel i).2.1]
      exact hs.childCount i (by omega) hil
    · intro i hi hil k hk
      rw [(hskel i).1] at hil
      rw [(hskel i).2.1] at hk
      exact hs.internalGtZero i (by omega) hil k hk
    · rw [hroot, hlen]; exact hs.rankRoot
    · intro i hi hil c hc
      rw [(hskel i).1] at hil
      rw [(hskel i).2.2.2.1] at hc
      exact hs.rankChild i (by omega) hil c hc
  refine ⟨hshape, fun _ _ => rfl, by omega, horder, fun i _ => (hskel i).1,
    ?_, ?_, ?_, ?_⟩
  · intro i _ _
    exact ⟨(hskel i).2.1, (hskel i).2.2.1, (hskel i).2.2.2.2⟩
  · intro i hge hlt; omega
  · intro i hi hsome
    by_cases hix : i = x
    · subst hix; rw [hnodex]; simp
    · rw [hpar i hix]; exact hsome
  · intro d h hsp
    refine ⟨d, ?_, by omega⟩
    rw [hroot] at *
    refine leftSpine_congr hsp hs.rootLt (spineChild_lt hs)
      (fun i _ => (hskel i).1) (fun i _ _ => by rw [(hskel i).2.2.2.1])

theorem ip_stage_newRoot {t : BTree} {exempt : List Nat} {rank : Nat → Nat}
    {x y : Nat} {pk : List Nat}
    (hs : ShapeInv t exempt rank)
    (hx : x = t.root) (hy : y < t.arena.length) (hyx : y ≠ x)
    (hpk : bytesLt [0] pk) (hry : rank y ≤ rank x) :
    IPRes t
      (let t5 := (t.alloc { newInternalNode with
          keys := [pk], children := [x, y] }).1
       let t6 := t5.setNode x { t5.node x with parent := some t.arena.length }
       let t7 := t6.setNode y { t6.node y with parent := some t.arena.length }
       { t7 with root := t.arena.length })
      rank (Function.update rank t.arena.length (rank x + 1)) exempt := by
  have hxlt : x < t.arena.length := hx ▸ hs.rootLt
  set rank' := Function.update rank t.arena.length (rank x + 1) with hrank'
  set nR : BNode := { newInternalNode with keys := [pk], children := [x, y] }
    with hnR
  set t5 := (t.alloc nR).1 with ht5
  set t6 := t5.setNode x { t5.node x with parent := some t.arena.length }
    with ht6
  set t7 := t6.setNode y { t6.node y with parent := some t.arena.length }
    with ht7
  set tF : BTree := { t7 with root := t.arena.length } with htF
  show IPRes t tF rank rank' exempt
  have hlen5 : t5.arena.length = t.arena.length + 1 := alloc_arena_length _ _
  have hlen6 : t6.arena.length = t.arena.length + 1 := by
    rw [ht6, setNode_arena_length, hlen5]
  have hlen7 : t7.arena.length = t.arena.length + 1 := by
    rw [ht7, setNode_arena_length, hlen6]
  have hlenF : tF.arena.length = t.arena.length + 1 := hlen7
  have hrkOld : ∀ j, j < t.arena.length → rank' j = rank j := by
    intro j hj
    exact Function.update_noteq (by omega) _ _
  have hrkNew : rank' t.arena.length = rank x + 1 := Function.update_same _ _ _
  -- node characterisation of the final state
  have hnodeN : tF.node t.arena.length = nR := by
    have h5 : t5.node t.arena.length = nR := node_alloc_new _ _
    have h6 : t6.node t.arena.length = nR := by
      rw [ht6, node_setNode_other _ (by omega : t.arena.length ≠ x), h5]
    have h7 : t7.node t.arena.length = nR := by
      rw [ht7, node_setNode_other _ (by omega : t.arena.length ≠ y), h6]
    exact h7
  have hnodeX : tF.node x = { t.node x with parent := some t.arena.length } := by
    have h5 : t5.node x = t.node x := node_alloc_old _ hxlt
    have h6 : t6.node x = { t.node x with parent := some t.arena.length } := by
      rw [ht6, node_setNode_same _ (by omega : x < t5.arena.length), h5]
    have h7 : t7.node x = { t.node x with parent := some t.arena.length } := by
      rw [ht7, node_setNode_other _ (Ne.symm hyx), h6]
    exact h7
  have hnodeY : tF.node y = { t.node y with parent := some t.arena.length } := by
    have h5 : t5.node y = t.node y := node_alloc_old _ hy
    have h6 : t6.node y = t.node y := by
      rw [ht6, node_setNode_other _ hyx, h5]
    have h7 : t7.node y = { t.node y with parent := some t.arena.length } := by
      rw [ht7, node_setNode_same _ (by omega : y < t6.arena.length), h6]
    exact h7
  have hnodeO : ∀ j, j ≠ x → j ≠ y → j < t.arena.length →
      tF.node j = t.node j := by
    intro j hjx hjy hj
    have h5 : t5.node j = t.node j := node_alloc_old _ hj
    have h6 : t6.node j = t.node j := by
      rw [ht6, node_setNode_other _ hjx, h5]
    have h7 : t7.node j = t.node j := by
      rw [ht7, node_setNode_other _ hjy, h6]
    exact h7
  have hskel : ∀ j, j < t.arena.length →
      (tF.node j).isLeaf = (t.node j).isLeaf ∧
      (tF.node j).keys = (t.node j).keys ∧
      (tF.node j).values = (t.node j).values ∧
      (tF.node j).children = (t.node j).children ∧
      (tF.node j).next = (t.node j).next := by
    intro j hj
    by_cases hjx : j = x
    · subst hjx; rw [hnodeX]; exact ⟨rfl, rfl, rfl, rfl, rfl⟩
    · by_cases hjy : j = y
      · subst hjy; rw [hnodeY]; exact ⟨rfl, rfl, rfl, rfl, rfl⟩
      · rw [hnodeO j hjx hjy hj]; exact ⟨rfl, rfl, rfl, rfl, rfl⟩
  have hparO : ∀ j, j ≠ x → j ≠ y → j < t.arena.length →
      (tF.node j).parent = (t.node j).parent := by
    intro j hjx hjy hj
    rw [hnodeO j hjx hjy hj]
  have hrootF : tF.root = t.arena.length := rfl
  have horderF : tF.order = t.order := rfl
  have hshape : ShapeInv tF exempt rank' := by
    refine ⟨horderF ▸ hs.order3, ?_, ?_, ?_, ?_, ?_, ?_, ?_, ?_, ?_⟩
    · rw [hrootF, hlenF]; omega
    · intro i hi hex hnone
      by_cases hiN : i = t.arena.length
      · rw [hiN, hrootF]
      · have hilt : i < t.arena.length := by omega
        by_cases hix : i = x
        · rw [hix, hnodeX] at hnone; exact absurd hnone (by simp)
        · by_cases hiy : i = y
          · rw [hiy, hnodeY] at hnone; exact absurd hnone (by simp)
          · rw [hparO i hix hiy hilt] at hnone
            have := hs.pnr i hilt hex hnone
            rw [this, ← hx] at hix
            exact absurd rfl hix
    · intro i j hi hj
      by_cases hiN : i = t.arena.length
      · rw [hiN, hnodeN] at hj
        simp [hnR, newInternalNode] at hj
      · have hilt : i < t.arena.length := by omega
        by_cases hix : i = x
        · rw [hix, hnodeX] at hj
          simp only at hj
          have hjN : j = t.arena.length := by injection hj with h'; exact h'.symm
          subst hjN
          rw [hnodeN]
          exact ⟨by omega, by simp [hnR, newInternalNode]⟩
        · by_cases hiy : i = y
          · rw [hiy, hnodeY] at hj
            simp only at hj
            have hjN : j = t.arena.length := by
              injection hj with h'; exact h'.symm
            subst hjN
            rw [hnodeN]
            exact ⟨by omega, by simp [hnR, newInternalNode]⟩
          · rw [hparO i hix hiy hilt] at hj
            have := hs.parentInternal i j hilt hj
            exact ⟨by omega, ((hskel j this.1).1).trans this.2⟩
    · intro i j hi hj
      by_cases hiN : i = t.arena.length
      · rw [hiN, hnodeN] at hj
        simp [hnR, newInternalNode] at hj
      · have hilt : i < t.arena.length := by omega
        by_cases hix : i = x
        · rw [hix, hnodeX] at hj
          simp only at hj
          have hjN : j = t.arena.length := by injection hj with h'; exact h'.symm
          subst hjN
          rw [hix, hrkNew, hrkOld _ hxlt]
          omega
        · by_cases hiy : i = y
          · rw [hiy, hnodeY] at hj
            simp only at hj
            have hjN : j = t.arena.length := by
              injection hj with h'; exact h'.symm
            subst hjN
            rw [hiy, hrkNew, hrkOld _ hy]
            omega
          · rw [hparO i hix hiy hilt] at hj
            have hjlt := (hs.parentInternal i j hilt hj).1
            rw [hrkOld _ hilt, hrkOld _ hjlt]
            exact hs.parentRank i j hilt hj
    · intro i hi hil c hc
      by_cases hiN : i = t.arena.length
      · rw [hiN, hnodeN] at hc
        simp only [hnR, newInternalNode, List.mem_cons, List.mem_singleton,
          List.not_mem_nil, or_false] at hc
        rw [hlenF]
        rcases hc with h | h <;> omega
      · have hilt : i < t.arena.length := by omega
        rw [(hskel i hilt).1] at hil
        rw [(hskel i hilt).2.2.2.1] at hc
        have := hs.childLt i hilt hil c hc
        rw [hlenF]; omega
    · intro i hi hil
      by_cases hiN : i = t.arena.length
      · rw [hiN, hnodeN]; simp [hnR, newInternalNode]
      · have hilt : i < t.arena.length := by omega
        rw [(hskel i hilt).1] at hil
        rw [(hskel i hilt).2.2.2.1, (hskel i hilt).2.1]
        exact hs.childCount i hilt hil
    · intro i hi hil k hk
      by_cases hiN : i = t.arena.length
      · rw [hiN, hnodeN] at hk
        simp only [hnR] at hk
        simp at hk
        exact hk ▸ hpk
      · have hilt : i < t.arena.length := by omega
        rw [(hskel i hilt).1] at hil
        rw [(hskel i hilt).2.1] at hk
        exact hs.internalGtZero i hilt hil k hk
    · rw [hrootF, hrkNew, hlenF]
      have := hs.rankRoot
      rw [← hx] at this
      omega
    · intro i hi hil c hc
      by_cases hiN : i = t.arena.length
      · rw [hiN, hnodeN] at hc
        rw [hiN, hrkNew]
        simp only [hnR, newInternalNode, List.mem_cons, List.mem_singleton,
          List.not_mem_nil, or_false] at hc
        rcases hc with h | h
        · rw [h, hrkOld _ hxlt]; omega
        · rw [h, hrkOld _ hy]; omega
      · have hilt : i < t.arena.length := by omega
        rw [(hskel i hilt).1] at hil
        rw [(hskel i hilt).2.2.2.1] at hc
        have hclt := hs.childLt i hilt hil c hc
        rw [hrkOld _ hclt, hrkOld _ hilt]
        exact hs.rankChild i hilt hil c hc
  refine ⟨hshape, hrkOld, by omega, horderF, fun i hi => (hskel i hi).1,
    ?_, ?_, ?_, ?_⟩
  · intro i hi _
    exact ⟨(hskel i hi).2.1, (hskel i hi).2.2.1, (hskel i hi).2.2.2.2⟩
  · intro i hge hlt
    have hiN : i = t.arena.length := by omega
    rw [hiN, hnodeN]
    simp [hnR, newInternalNode]
  · intro i hi hp
    by_cases hix : i = x
    · rw [hix, hnodeX]; simp
    · by_cases hiy : i = y
      · rw [hiy, hnodeY]; simp
      · rw [hparO i hix hiy hi]; exact hp
  · intro d h hsp
    refine ⟨d + 1, ?_, by omega⟩
    rw [hrootF]
    refine LeftSpine.step d t.arena.length x h ?_ ?_ ?_
    · rw [hnodeN]; simp [hnR, newInternalNode]
    · rw [hnodeN]; simp [hnR]
    · rw [hx] at *
      exact leftSpine_congr hsp hs.rootLt (spineChild_lt hs)
        (fun i hi => (hskel i hi).1)
        (fun i hi _ => by rw [(hskel i hi).2.2.2.1])

theorem shapeInv_shed {t : BTree} {e : Nat} {exempt : List Nat}
    {rank : Nat → Nat} (hs : ShapeInv t (e :: exempt) rank)
    (he : (t.node e).parent ≠ none ∨ e = t.root) :
    ShapeInv t exempt rank := by
  refine ⟨hs.order3, hs.rootLt, ?_, hs.parentInternal, hs.parentRank,
    hs.childLt, hs.childCount, hs.internalGtZero, hs.rankRoot, hs.rankChild⟩
  intro i hi hex hnone
  by_cases hie : i = e
  · subst hie
    rcases he with h | h
    · exact absurd hnone h
    · exact h
  · exact hs.pnr i hi (by simp [hie, hex]) hnone



theorem insertIntoParentGo_spec :
    ∀ (fuel : Nat) (t : BTree) (exempt : List Nat) (rank : Nat → Nat)
      (p : Nat) (key : List Nat) (rc : Nat),
      ShapeInv t exempt rank →
      p < t.arena.length → (t.node p).isLeaf = false →
      (∀ e ∈ exempt, rank e < rank p) →
      (∀ e ∈ exempt, e < t.arena.length) →
      rc ∈ exempt → rank rc < rank p →
      bytesLt [0] key →
      ∃ rank', IPRes t (insertIntoParentGo fuel t p key rc) rank rank'
        exempt := by
  intro fuel
  induction fuel with
  | zero =>
      intro t exempt rank p key rc hs _ _ _ _ _ _ _
      exact ⟨rank, IPRes.refl t rank exempt hs⟩
  | succ fuel ih =>
      intro t exempt rank p key rc hs hp hpi hex hexLt hrcMem hrcRank hkey
      have hrcLt : rc < t.arena.length := hexLt rc hrcMem
      have hpex : p ∉ exempt := fun h => absurd (hex p h) (by omega)
      have hA := ip_stage_insert hs hp hpi hrcLt hrcRank hkey
      have heq : insertIntoParentGo (fuel + 1) t p key rc = (if ((t.setNode p { t.node p with keys := listInsertAt (countWhileGT key (t.node p).keys) key (t.node p).keys, children := listInsertAt (countWhileGT key (t.node p).keys + 1) rc (t.node p).children }).node p).keys.length ≥ (t.setNode p { t.node p with keys := listInsertAt (countWhileGT key (t.node p).keys) key (t.node p).keys, children := listInsertAt (countWhileGT key (t.node p).keys + 1) rc (t.node p).children }).order then (match ((t.setNode p { t.node p with keys := listInsertAt (countWhileGT key (t.node p).keys) key (t.node p).keys, children := listInsertAt (countWhileGT key (t.node p).keys + 1) rc (t.node p).children }).node p).parent with | none => { (((((((((t.setNode p { t.node p with keys := listInsertAt (countWhileGT key (t.node p).keys) key (t.node p).keys, children := listInsertAt (countWhileGT key (t.node p).keys + 1) rc (t.node p).children }).node p).children.drop ((((t.setNode p { t.node p with keys := listInsertAt (countWhileGT key (t.node p).keys) key (t.node p).keys, children := listInsertAt (countWhileGT key (t.node p).keys + 1) rc (t.node p).children }).node p).keys.length / 2) + 1)).foldl (fun acc c => acc.setNode c { acc.node c with parent := some (t.setNode p { t.node p with keys := listInsertAt (countWhileGT key (t.node p).keys) key (t.node p).keys, children := listInsertAt (countWhileGT key (t.node p).keys + 1) rc (t.node p).children }).arena.length }) (((t.setNode p { t.node p with keys := listInsertAt (countWhileGT key (t.node p).keys) key (t.node p).keys, children := listInsertAt (countWhileGT key (t.node p).keys + 1) rc (t.node p).children }).alloc { newInternalNode with keys := ((t.setNode p { t.node p with keys := listInsertAt (countWhileGT key (t.node p).keys) key (t.node p).keys, children := listInsertAt (countWhileGT key (t.node p).keys + 1) rc (t.node p).children }).node p).keys.drop ((((t.setNode p { t.node p with keys := listInsertAt (countWhileGT key (t.node p).keys) key (t.node p).keys, children := listInsertAt (countWhileGT key (t.node p).keys + 1) rc (t.node p).children }).node p).keys.length / 2) + 1), children := ((t.setNode p { t.node p with keys := listInsertAt (countWhileGT key (t.node p).keys) key (t.node p).keys, children := listInsertAt (countWhileGT key (t.node p).keys + 1) rc (t.node p).children }).node p).children.drop ((((t.setNode p { t.node p with keys := listInsertAt (countWhileGT key (t.node p).keys) key (t.node p).keys, children := listInsertAt (countWhileGT key (t.node p).keys + 1) rc (t.node p).children }).node p).keys.length / 2) + 1) }).1)).setNode p { ((((t.setNode p { t.node p with keys := listInsertAt (countWhileGT key (t.node p).keys) key (t.node p).keys, children := listInsertAt (countWhileGT key (t.node p).keys + 1) rc (t.node p).children }).node p).children.drop ((((t.setNode p { t.node p with keys := listInsertAt (countWhileGT key (t.node p).keys) key (t.node p).keys, children := listInsertAt (countWhileGT key (t.node p).keys + 1) rc (t.node p).children }).node p).keys.length / 2) + 1)).foldl (fun acc c => acc.setNode c { acc.node c with parent := some (t.setNode p { t.node p with keys := listInsertAt (countWhileGT key (t.node p).keys) key (t.node p).keys, children := listInsertAt (countWhileGT key (t.node p).keys + 1) rc (t.node p).children }).arena.length }) (((t.setNode p { t.node p with keys := listInsertAt (countWhileGT key (t.node p).keys) key (t.node p).keys, children := listInsertAt (countWhileGT key (t.node p).keys + 1) rc (t.node p).children }).alloc { newInternalNode with keys := ((t.setNode p { t.node p with keys := listInsertAt (countWhileGT key (t.node p).keys) key (t.node p).keys, children := listInsertAt (countWhileGT key (t.node p).keys + 1) rc (t.node p).children }).node p).keys.drop ((((t.setNode p { t.node p with keys := listInsertAt (countWhileGT key (t.node p).keys) key (t.node p).keys, children := listInsertAt (countWhileGT key (t.node p).keys + 1) rc (t.node p).children }).node p).keys.length / 2) + 1), children := ((t.setNode p { t.node p with keys := listInsertAt (countWhileGT key (t.node p).keys) key (t.node p).keys, children := listInsertAt (countWhileGT key (t.node p).keys + 1) rc (t.node p).children }).node p).children.drop ((((t.setNode p { t.node p with keys := listInsertAt (countWhileGT key (t.node p).keys) key (t.node p).keys, children := listInsertAt (countWhileGT key (t.node p).keys + 1) rc (t.node p).children }).node p).keys.length / 2) + 1) }).1)).node p with keys := ((t.setNode p { t.node p with keys := listInsertAt (countWhileGT key (t.node p).keys) key (t.node p).keys, children := listInsertAt (countWhileGT key (t.node p).keys + 1) rc (t.node p).children }).node p).keys.take (((t.setNode p { t.node p with keys := listInsertAt (countWhileGT key (t.node p).keys) key (t.node p).keys, children := listInsertAt (countWhileGT key (t.node p).keys + 1) rc (t.node p).children }).node p).keys.length / 2), children := ((t.setNode p { t.node p with keys := listInsertAt (countWhileGT key (t.node p).keys) key (t.node p).keys, children := listInsertAt (countWhileGT key (t.node p).keys + 1) rc (t.node p).children }).node p).children.take ((((t.setNode p { t.node p with keys := listInsertAt (countWhileGT key (t.node p).keys) key (t.node p).keys, children := listInsertAt (countWhileGT key (t.node p).keys + 1) rc (t.node p).children }).node p).keys.length / 2) + 1) }).alloc { newInternalNode with keys := [(((t.setNode p { t.node p with keys := listInsertAt (countWhileGT key (t.node p).keys) key (t.node p).keys, children := listInsertAt (countWhileGT key (t.node p).keys + 1) rc (t.node p).children }).node p).keys.getD (((t.setNode p { t.node p with keys := listInsertAt (countWhileGT key (t.node p).keys) key (t.node p).keys, children := listInsertAt (countWhileGT key (t.node p).keys + 1) rc (t.node p).children }).node p).keys.length / 2) [])], children := [p, (t.setNode p { t.node p with keys := listInsertAt (countWhileGT key (t.node p).keys) key (t.node p).keys, children := listInsertAt (countWhileGT key (t.node p).keys + 1) rc (t.node p).children }).arena.length] }).1).setNode p { (((((((t.setNode p { t.node p with keys := listInsertAt (countWhileGT key (t.node p).keys) key (t.node p).keys, children := listInsertAt (countWhileGT key (t.node p).keys + 1) rc (t.node p).children }).node p).children.drop ((((t.setNode p { t.node p with keys := listInsertAt (countWhileGT key (t.node p).keys) key (t.node p).keys, children := listInsertAt (countWhileGT key (t.node p).keys + 1) rc (t.node p).children }).node p).keys.length / 2) + 1)).foldl (fun acc c => acc.setNode c { acc.node c with parent := some (t.setNode p { t.node p with keys := listInsertAt (countWhileGT key (t.node p).keys) key (t.node p).keys, children := listInsertAt (countWhileGT key (t.node p).keys + 1) rc (t.node p).children }).arena.length }) (((t.setNode p { t.node p with keys := listInsertAt (countWhileGT key (t.node p).keys) key (t.node p).keys, children := listInsertAt (countWhileGT key (t.node p).keys + 1) rc (t.node p).children }).alloc { newInternalNode with keys := ((t.setNode p { t.node p with keys := listInsertAt (countWhileGT key (t.node p).keys) key (t.node p).keys, children := listInsertAt (countWhileGT key (t.node p).keys + 1) rc (t.node p).children }).node p).keys.drop ((((t.setNode p { t.node p with keys := listInsertAt (countWhileGT key (t.node p).keys) key (t.node p).keys, children := listInsertAt (countWhileGT key (t.node p).keys + 1) rc (t.node p).children }).node p).keys.length / 2) + 1), children := ((t.setNode p { t.node p with keys := listInsertAt (countWhileGT key (t.node p).keys) key (t.node p).keys, children := listInsertAt (countWhileGT key (t.node p).keys + 1) rc (t.node p).children }).node p).children.drop ((((t.setNode p { t.node p with keys := listInsertAt (countWhileGT key (t.node p).keys) key (t.node p).keys, children := listInsertAt (countWhileGT key (t.node p).keys + 1) rc (t.node p).children }).node p).keys.length / 2) + 1) }).1)).setNode p { ((((t.setNode p { t.node p with keys := listInsertAt (countWhileGT key (t.node p).keys) key (t.node p).keys, children := listInsertAt (countWhileGT key (t.node p).keys + 1) rc (t.node p).children }).node p).children.drop ((((t.setNode p { t.node p with keys := listInsertAt (countWhileGT key (t.node p).keys) key (t.node p).keys, children := listInsertAt (countWhileGT key (t.node p).keys + 1) rc (t.node p).children }).node p).keys.length / 2) + 1)).foldl (fun acc c => acc.setNode c { acc.node c with parent := some (t.setNode p { t.node p with keys := listInsertAt (countWhileGT key (t.node p).keys) key (t.node p).keys, children := listInsertAt (countWhileGT key (t.node p).keys + 1) rc (t.node p).children }).arena.length }) (((t.setNode p { t.node p with keys := listInsertAt (countWhileGT key (t.node p).keys) key (t.node p).keys, children := listInsertAt (countWhileGT key (t.node p).keys + 1) rc (t.node p).children }).alloc { newInternalNode with keys := ((t.setNode p { t.node p with keys := listInsertAt (countWhileGT key (t.node p).keys) key (t.node p).keys, children := listInsertAt (countWhileGT key (t.node p).keys + 1) rc (t.node p).children }).node p).keys.drop ((((t.setNode p { t.node p with keys := listInsertAt (countWhileGT key (t.node p).keys) key (t.node p).keys, children := listInsertAt (countWhileGT key (t.node p).keys + 1) rc (t.node p).children }).node p).keys.length / 2) + 1), children := ((t.setNode p { t.node p with keys := listInsertAt (countWhileGT key (t.node p).keys) key (t.node p).keys, children := listInsertAt (countWhileGT key (t.node p).keys + 1) rc (t.node p).children }).node p).children.drop ((((t.setNode p { t.node p with keys := listInsertAt (countWhileGT key (t.node p).keys) key (t.node p).keys, children := listInsertAt (countWhileGT key (t.node p).keys + 1) rc (t.node p).children }).node p).keys.length / 2) + 1) }).1)).node p with keys := ((t.setNode p { t.node p with keys := listInsertAt (countWhileGT key (t.node p).keys) key (t.node p).keys, children := listInsertAt (countWhileGT key (t.node p).keys + 1) rc (t.node p).children }).node p).keys.take (((t.setNode p { t.node p with keys := listInsertAt (countWhileGT key (t.node p).keys) key (t.node p).keys, children := listInsertAt (countWhileGT key (t.node p).keys + 1) rc (t.node p).children }).node p).keys.length / 2), children := ((t.setNode p { t.node p with keys := listInsertAt (countWhileGT key (t.node p).keys) key (t.node p).keys, children := listInsertAt (countWhileGT key (t.node p).keys + 1) rc (t.node p).children }).node p).children.take ((((t.setNode p { t.node p with keys := listInsertAt (countWhileGT key (t.node p).keys) key (t.node p).keys, children := listInsertAt (countWhileGT key (t.node p).keys + 1) rc (t.node p).children }).node p).keys.length / 2) + 1) }).alloc { newInternalNode with keys := [(((t.setNode p { t.node p with keys := listInsertAt (countWhileGT key (t.node p).keys) key (t.node p).keys, children := listInsertAt (countWhileGT key (t.node p).keys + 1) rc (t.node p).children }).node p).keys.getD (((t.setNode p { t.node p with keys := listInsertAt (countWhileGT key (t.node p).keys) key (t.node p).keys, children := listInsertAt (countWhileGT key (t.node p).keys + 1) rc (t.node p).children }).node p).keys.length / 2) [])], children := [p, (t.setNode p { t.node p with keys := listInsertAt (countWhileGT key (t.node p).keys) key (t.node p).keys, children := listInsertAt (countWhileGT key (t.node p).keys + 1) rc (t.node p).children }).arena.length] }).1).node p with parent := some (((((t.setNode p { t.node p with keys := listInsertAt (countWhileGT key (t.node p).keys) key (t.node p).keys, children := listInsertAt (countWhileGT key (t.node p).keys + 1) rc (t.node p).children }).node p).children.drop ((((t.setNode p { t.node p with keys := listInsertAt (countWhileGT key (t.node p).keys) key (t.node p).keys, children := listInsertAt (countWhileGT key (t.node p).keys + 1) rc (t.node p).children }).node p).keys.length / 2) + 1)).foldl (fun acc c => acc.setNode c { acc.node c with parent := some (t.setNode p { t.node p with keys := listInsertAt (countWhileGT key (t.node p).keys) key (t.node p).keys, children := listInsertAt (countWhileGT key (t.node p).keys + 1) rc (t.node p).children }).arena.length }) (((t.setNode p { t.node p with keys := listInsertAt (countWhileGT key (t.node p).keys) key (t.node p).keys, children := listInsertAt (countWhileGT key (t.node p).keys + 1) rc (t.node p).children }).alloc { newInternalNode with keys := ((t.setNode p { t.node p with keys := listInsertAt (countWhileGT key (t.node p).keys) key (t.node p).keys, children := listInsertAt (countWhileGT key (t.node p).keys + 1) rc (t.node p).children }).node p).keys.drop ((((t.setNode p { t.node p with keys := listInsertAt (countWhileGT key (t.node p).keys) key (t.node p).keys, children := listInsertAt (countWhileGT key (t.node p).keys + 1) rc (t.node p).children }).node p).keys.length / 2) + 1), children := ((t.setNode p { t.node p with keys := listInsertAt (countWhileGT key (t.node p).keys) key (t.node p).keys, children := listInsertAt (countWhileGT key (t.node p).keys + 1) rc (t.node p).children }).node p).children.drop ((((t.setNode p { t.node p with keys := listInsertAt (countWhileGT key (t.node p).keys) key (t.node p).keys, children := listInsertAt (countWhileGT key (t.node p).keys + 1) rc (t.node p).children }).node p).keys.length / 2) + 1) }).1)).setNode p { ((((t.setNode p { t.node p with keys := listInsertAt (countWhileGT key (t.node p).keys) key (t.node p).keys, children := listInsertAt (countWhileGT key (t.node p).keys + 1) rc (t.node p).children }).node p).children.drop ((((t.setNode p { t.node p with keys := listInsertAt (countWhileGT key (t.node p).keys) key (t.node p).keys, children := listInsertAt (countWhileGT key (t.node p).keys + 1) rc (t.node p).children }).node p).keys.length / 2) + 1)).foldl (fun acc c => acc.setNode c { acc.node c with parent := some (t.setNode p { t.node p with keys := listInsertAt (countWhileGT key (t.node p).keys) key (t.node p).keys, children := listInsertAt (countWhileGT key (t.node p).keys + 1) rc (t.node p).children }).arena.length }) (((t.setNode p { t.node p with keys := listInsertAt (countWhileGT key (t.node p).keys) key (t.node p).keys, children := listInsertAt (countWhileGT key (t.node p).keys + 1) rc (t.node p).children }).alloc { newInternalNode with keys := ((t.setNode p { t.node p with keys := listInsertAt (countWhileGT key (t.node p).keys) key (t.node p).keys, children := listInsertAt (countWhileGT key (t.node p).keys + 1) rc (t.node p).children }).node p).keys.drop ((((t.setNode p { t.node p with keys := listInsertAt (countWhileGT key (t.node p).keys) key (t.node p).keys, children := listInsertAt (countWhileGT key (t.node p).keys + 1) rc (t.node p).children }).node p).keys.length / 2) + 1), children := ((t.setNode p { t.node p with keys := listInsertAt (countWhileGT key (t.node p).keys) key (t.node p).keys, children := listInsertAt (countWhileGT key (t.node p).keys + 1) rc (t.node p).children }).node p).children.drop ((((t.setNode p { t.node p with keys := listInsertAt (countWhileGT key (t.node p).keys) key (t.node p).keys, children := listInsertAt (countWhileGT key (t.node p).keys + 1) rc (t.node p).children }).node p).keys.length / 2) + 1) }).1)).node p with keys := ((t.setNode p { t.node p with keys := listInsertAt (countWhileGT key (t.node p).keys) key (t.node p).keys, children := listInsertAt (countWhileGT key (t.node p).keys + 1) rc (t.node p).children }).node p).keys.take (((t.setNode p { t.node p with keys := listInsertAt (countWhileGT key (t.node p).keys) key (t.node p).keys, children := listInsertAt (countWhileGT key (t.node p).keys + 1) rc (t.node p).children }).node p).keys.length / 2), children := ((t.setNode p { t.node p with keys := listInsertAt (countWhileGT key (t.node p).keys) key (t.node p).keys, children := listInsertAt (countWhileGT key (t.node p).keys + 1) rc (t.node p).children }).node p).children.take ((((t.setNode p { t.node p with keys := listInsertAt (countWhileGT key (t.node p).keys) key (t.node p).keys, children := listInsertAt (countWhileGT key (t.node p).keys + 1) rc (t.node p).children }).node p).keys.length / 2) + 1) }).arena.length }).setNode (t.setNode p { t.node p with keys := listInsertAt (countWhileGT key (t.node p).keys) key (t.node p).keys, children := listInsertAt (countWhileGT key (t.node p).keys + 1) rc (t.node p).children }).arena.length { ((((((((t.setNode p { t.node p with keys := listInsertAt (countWhileGT key (t.node p).keys) key (t.node p).keys, children := listInsertAt (countWhileGT key (t.node p).keys + 1) rc (t.node p).children }).node p).children.drop ((((t.setNode p { t.node p with keys := listInsertAt (countWhileGT key (t.node p).keys) key (t.node p).keys, children := listInsertAt (countWhileGT key (t.node p).keys + 1) rc (t.node p).children }).node p).keys.length / 2) + 1)).foldl (fun acc c => acc.setNode c { acc.node c with parent := some (t.setNode p { t.node p with keys := listInsertAt (countWhileGT key (t.node p).keys) key (t.node p).keys, children := listInsertAt (countWhileGT key (t.node p).keys + 1) rc (t.node p).children }).arena.length }) (((t.setNode p { t.node p with keys := listInsertAt (countWhileGT key (t.node p).keys) key (t.node p).keys, children := listInsertAt (countWhileGT key (t.node p).keys + 1) rc (t.node p).children }).alloc { newInternalNode with keys := ((t.setNode p { t.node p with keys := listInsertAt (countWhileGT key (t.node p).keys) key (t.node p).keys, children := listInsertAt (countWhileGT key (t.node p).keys + 1) rc (t.node p).children }).node p).keys.drop ((((t.setNode p { t.node p with keys := listInsertAt (countWhileGT key (t.node p).keys) key (t.node p).keys, children := listInsertAt (countWhileGT key (t.node p).keys + 1) rc (t.node p).children }).node p).keys.length / 2) + 1), children := ((t.setNode p { t.node p with keys := listInsertAt (countWhileGT key (t.node p).keys) key (t.node p).keys, children := listInsertAt (countWhileGT key (t.node p).keys + 1) rc (t.node p).children }).node p).children.drop ((((t.setNode p { t.node p with keys := listInsertAt (countWhileGT key (t.node p).keys) key (t.node p).keys, children := listInsertAt (countWhileGT key (t.node p).keys + 1) rc (t.node p).children }).node p).keys.length / 2) + 1) }).1)).setNode p { ((((t.setNode p { t.node p with keys := listInsertAt (countWhileGT key (t.node p).keys) key (t.node p).keys, children := listInsertAt (countWhileGT key (t.node p).keys + 1) rc (t.node p).children }).node p).children.drop ((((t.setNode p { t.node p with keys := listInsertAt (countWhileGT key (t.node p).keys) key (t.node p).keys, children := listInsertAt (countWhileGT key (t.node p).keys + 1) rc (t.node p).children }).node p).keys.length / 2) + 1)).foldl (fun acc c => acc.setNode c { acc.node c with parent := some (t.setNode p { t.node p with keys := listInsertAt (countWhileGT key (t.node p).keys) key (t.node p).keys, children := listInsertAt (countWhileGT key (t.node p).keys + 1) rc (t.node p).children }).arena.length }) (((t.setNode p { t.node p with keys := listInsertAt (countWhileGT key (t.node p).keys) key (t.node p).keys, children := listInsertAt (countWhileGT key (t.node p).keys + 1) rc (t.node p).children }).alloc { newInternalNode with keys := ((t.setNode p { t.node p with keys := listInsertAt (countWhileGT key (t.node p).keys) key (t.node p).keys, children := listInsertAt (countWhileGT key (t.node p).keys + 1) rc (t.node p).children }).node p).keys.drop ((((t.setNode p { t.node p with keys := listInsertAt (countWhileGT key (t.node p).keys) key (t.node p).keys, children := listInsertAt (countWhileGT key (t.node p).keys + 1) rc (t.node p).children }).node p).keys.length / 2) + 1), children := ((t.setNode p { t.node p with keys := listInsertAt (countWhileGT key (t.node p).keys) key (t.node p).keys, children := listInsertAt (countWhileGT key (t.node p).keys + 1) rc (t.node p).children }).node p).children.drop ((((t.setNode p { t.node p with keys := listInsertAt (countWhileGT key (t.node p).keys) key (t.node p).keys, children := listInsertAt (countWhileGT key (t.node p).keys + 1) rc (t.node p).children }).node p).keys.length / 2) + 1) }).1)).node p with keys := ((t.setNode p { t.node p with keys := listInsertAt (countWhileGT key (t.node p).keys) key (t.node p).keys, children := listInsertAt (countWhileGT key (t.node p).keys + 1) rc (t.node p).children }).node p).keys.take (((t.setNode p { t.node p with keys := listInsertAt (countWhileGT key (t.node p).keys) key (t.node p).keys, children := listInsertAt (countWhileGT key (t.node p).keys + 1) rc (t.node p).children }).node p).keys.length / 2), children := ((t.setNode p { t.node p with keys := listInsertAt (countWhileGT key (t.node p).keys) key (t.node p).keys, children := listInsertAt (countWhileGT key (t.node p).keys + 1) rc (t.node p).children }).node p).children.take ((((t.setNode p { t.node p with keys := listInsertAt (countWhileGT key (t.node p).keys) key (t.node p).keys, children := listInsertAt (countWhileGT key (t.node p).keys + 1) rc (t.node p).children }).node p).keys.length / 2) + 1) }).alloc { newInternalNode with keys := [(((t.setNode p { t.node p with keys := listInsertAt (countWhileGT key (t.node p).keys) key (t.node p).keys, children := listInsertAt (countWhileGT key (t.node p).keys + 1) rc (t.node p).children }).node p).keys.getD (((t.setNode p { t.node p with keys := listInsertAt (countWhileGT key (t.node p).keys) key (t.node p).keys, children := listInsertAt (countWhileGT key (t.node p).keys + 1) rc (t.node p).children }).node p).keys.length / 2) [])], children := [p, (t.setNode p { t.node p with keys := listInsertAt (countWhileGT key (t.node p).keys) key (t.node p).keys, children := listInsertAt (countWhileGT key (t.node p).keys + 1) rc (t.node p).children }).arena.length] }).1).setNode p { (((((((t.setNode p { t.node p with keys := listInsertAt (countWhileGT key (t.node p).keys) key (t.node p).keys, children := listInsertAt (countWhileGT key (t.node p).keys + 1) rc (t.node p).children }).node p).children.drop ((((t.setNode p { t.node p with keys := listInsertAt (countWhileGT key (t.node p).keys) key (t.node p).keys, children := listInsertAt (countWhileGT key (t.node p).keys + 1) rc (t.node p).children }).node p).keys.length / 2) + 1)).foldl (fun acc c => acc.setNode c { acc.node c with parent := some (t.setNode p { t.node p with keys := listInsertAt (countWhileGT key (t.node p).keys) key (t.node p).keys, children := listInsertAt (countWhileGT key (t.node p).keys + 1) rc (t.node p).children }).arena.length }) (((t.setNode p { t.node p with keys := listInsertAt (countWhileGT key (t.node p).keys) key (t.node p).keys, children := listInsertAt (countWhileGT key (t.node p).keys + 1) rc (t.node p).children }).alloc { newInternalNode with keys := ((t.setNode p { t.node p with keys := listInsertAt (countWhileGT key (t.node p).keys) key (t.node p).keys, children := listInsertAt (countWhileGT key (t.node p).keys + 1) rc (t.node p).children }).node p).keys.drop ((((t.setNode p { t.node p with keys := listInsertAt (countWhileGT key (t.node p).keys) key (t.node p).keys, children := listInsertAt (countWhileGT key (t.node p).keys + 1) rc (t.node p).children }).node p).keys.length / 2) + 1), children := ((t.setNode p { t.node p with keys := listInsertAt (countWhileGT key (t.node p).keys) key (t.node p).keys, children := listInsertAt (countWhileGT key (t.node p).keys + 1) rc (t.node p).children }).node p).children.drop ((((t.setNode p { t.node p with keys := listInsertAt (countWhileGT key (t.node p).keys) key (t.node p).keys, children := listInsertAt (countWhileGT key (t.node p).keys + 1) rc (t.node p).children }).node p).keys.length / 2) + 1) }).1)).setNode p { ((((t.setNode p { t.node p with keys := listInsertAt (countWhileGT key (t.node p).keys) key (t.node p).keys, children := listInsertAt (countWhileGT key (t.node p).keys + 1) rc (t.node p).children }).node p).children.drop ((((t.setNode p { t.node p with keys := listInsertAt (countWhileGT key (t.node p).keys) key (t.node p).keys, children := listInsertAt (countWhileGT key (t.node p).keys + 1) rc (t.node p).children }).node p).keys.length / 2) + 1)).foldl (fun acc c => acc.setNode c { acc.node c with parent := some (t.setNode p { t.node p with keys := listInsertAt (countWhileGT key (t.node p).keys) key (t.node p).keys, children := listInsertAt (countWhileGT key (t.node p).keys + 1) rc (t.node p).children }).arena.length }) (((t.setNode p { t.node p with keys := listInsertAt (countWhileGT key (t.node p).keys) key (t.node p).keys, children := listInsertAt (countWhileGT key (t.node p).keys + 1) rc (t.node p).children }).alloc { newInternalNode with keys := ((t.setNode p { t.node p with keys := listInsertAt (countWhileGT key (t.node p).keys) key (t.node p).keys, children := listInsertAt (countWhileGT key (t.node p).keys + 1) rc (t.node p).children }).node p).keys.drop ((((t.setNode p { t.node p with keys := listInsertAt (countWhileGT key (t.node p).keys) key (t.node p).keys, children := listInsertAt (countWhileGT key (t.node p).keys + 1) rc (t.node p).children }).node p).keys.length / 2) + 1), children := ((t.setNode p { t.node p with keys := listInsertAt (countWhileGT key (t.node p).keys) key (t.node p).keys, children := listInsertAt (countWhileGT key (t.node p).keys + 1) rc (t.node p).children }).node p).children.drop ((((t.setNode p { t.node p with keys := listInsertAt (countWhileGT key (t.node p).keys) key (t.node p).keys, children := listInsertAt (countWhileGT key (t.node p).keys + 1) rc (t.node p).children }).node p).keys.length / 2) + 1) }).1)).node p with keys := ((t.setNode p { t.node p with keys := listInsertAt (countWhileGT key (t.node p).keys) key (t.node p).keys, children := listInsertAt (countWhileGT key (t.node p).keys + 1) rc (t.node p).children }).node p).keys.take (((t.setNode p { t.node p with keys := listInsertAt (countWhileGT key (t.node p).keys) key (t.node p).keys, children := listInsertAt (countWhileGT key (t.node p).keys + 1) rc (t.node p).children }).node p).keys.length / 2), children := ((t.setNode p { t.node p with keys := listInsertAt (countWhileGT key (t.node p).keys) key (t.node p).keys, children := listInsertAt (countWhileGT key (t.node p).keys + 1) rc (t.node p).children }).node p).children.take ((((t.setNode p { t.node p with keys := listInsertAt (countWhileGT key (t.node p).keys) key (t.node p).keys, children := listInsertAt (countWhileGT key (t.node p).keys + 1) rc (t.node p).children }).node p).keys.length / 2) + 1) }).alloc { newInternalNode with keys := [(((t.setNode p { t.node p with keys := listInsertAt (countWhileGT key (t.node p).keys) key (t.node p).keys, children := listInsertAt (countWhileGT key (t.node p).keys + 1) rc (t.node p).children }).node p).keys.getD (((t.setNode p { t.node p with keys := listInsertAt (countWhileGT key (t.node p).keys) key (t.node p).keys, children := listInsertAt (countWhileGT key (t.node p).keys + 1) rc (t.node p).children }).node p).keys.length / 2) [])], children := [p, (t.setNode p { t.node p with keys := listInsertAt (countWhileGT key (t.node p).keys) key (t.node p).keys, children := listInsertAt (countWhileGT key (t.node p).keys + 1) rc (t.node p).children }).arena.length] }).1).node p with parent := some (((((t.setNode p { t.node p with keys := listInsertAt (countWhileGT key (t.node p).keys) key (t.node p).keys, children := listInsertAt (countWhileGT key (t.node p).keys + 1) rc (t.node p).children }).node p).children.drop ((((t.setNode p { t.node p with keys := listInsertAt (countWhileGT key (t.node p).keys) key (t.node p).keys, children := listInsertAt (countWhileGT key (t.node p).keys + 1) rc (t.node p).children }).node p).keys.length / 2) + 1)).foldl (fun acc c => acc.setNode c { acc.node c with parent := some (t.setNode p { t.node p with keys := listInsertAt (countWhileGT key (t.node p).keys) key (t.node p).keys, children := listInsertAt (countWhileGT key (t.node p).keys + 1) rc (t.node p).children }).arena.length }) (((t.setNode p { t.node p with keys := listInsertAt (countWhileGT key (t.node p).keys) key (t.node p).keys, children := listInsertAt (countWhileGT key (t.node p).keys + 1) rc (t.node p).children }).alloc { newInternalNode with keys := ((t.setNode p { t.node p with keys := listInsertAt (countWhileGT key (t.node p).keys) key (t.node p).keys, children := listInsertAt (countWhileGT key (t.node p).keys + 1) rc (t.node p).children }).node p).keys.drop ((((t.setNode p { t.node p with keys := listInsertAt (countWhileGT key (t.node p).keys) key (t.node p).keys, children := listInsertAt (countWhileGT key (t.node p).keys + 1) rc (t.node p).children }).node p).keys.length / 2) + 1), children := ((t.setNode p { t.node p with keys := listInsertAt (countWhileGT key (t.node p).keys) key (t.node p).keys, children := listInsertAt (countWhileGT key (t.node p).keys + 1) rc (t.node p).children }).node p).children.drop ((((t.setNode p { t.node p with keys := listInsertAt (countWhileGT key (t.node p).keys) key (t.node p).keys, children := listInsertAt (countWhileGT key (t.node p).keys + 1) rc (t.node p).children }).node p).keys.length / 2) + 1) }).1)).setNode p { ((((t.setNode p { t.node p with keys := listInsertAt (countWhileGT key (t.node p).keys) key (t.node p).keys, children := listInsertAt (countWhileGT key (t.node p).keys + 1) rc (t.node p).children }).node p).children.drop ((((t.setNode p { t.node p with keys := listInsertAt (countWhileGT key (t.node p).keys) key (t.node p).keys, children := listInsertAt (countWhileGT key (t.node p).keys + 1) rc (t.node p).children }).node p).keys.length / 2) + 1)).foldl (fun acc c => acc.setNode c { acc.node c with parent := some (t.setNode p { t.node p with keys := listInsertAt (countWhileGT key (t.node p).keys) key (t.node p).keys, children := listInsertAt (countWhileGT key (t.node p).keys + 1) rc (t.node p).children }).arena.length }) (((t.setNode p { t.node p with keys := listInsertAt (countWhileGT key (t.node p).keys) key (t.node p).keys, children := listInsertAt (countWhileGT key (t.node p).keys + 1) rc (t.node p).children }).alloc { newInternalNode with keys := ((t.setNode p { t.node p with keys := listInsertAt (countWhileGT key (t.node p).keys) key (t.node p).keys, children := listInsertAt (countWhileGT key (t.node p).keys + 1) rc (t.node p).children }).node p).keys.drop ((((t.setNode p { t.node p with keys := listInsertAt (countWhileGT key (t.node p).keys) key (t.node p).keys, children := listInsertAt (countWhileGT key (t.node p).keys + 1) rc (t.node p).children }).node p).keys.length / 2) + 1), children := ((t.setNode p { t.node p with keys := listInsertAt (countWhileGT key (t.node p).keys) key (t.node p).keys, children := listInsertAt (countWhileGT key (t.node p).keys + 1) rc (t.node p).children }).node p).children.drop ((((t.setNode p { t.node p with keys := listInsertAt (countWhileGT key (t.node p).keys) key (t.node p).keys, children := listInsertAt (countWhileGT key (t.node p).keys + 1) rc (t.node p).children }).node p).keys.length / 2) + 1) }).1)).node p with keys := ((t.setNode p { t.node p with keys := listInsertAt (countWhileGT key (t.node p).keys) key (t.node p).keys, children := listInsertAt (countWhileGT key (t.node p).keys + 1) rc (t.node p).children }).node p).keys.take (((t.setNode p { t.node p with keys := listInsertAt (countWhileGT key (t.node p).keys) key (t.node p).keys, children := listInsertAt (countWhileGT key (t.node p).keys + 1) rc (t.node p).children }).node p).keys.length / 2), children := ((t.setNode p { t.node p with keys := listInsertAt (countWhileGT key (t.node p).keys) key (t.node p).keys, children := listInsertAt (countWhileGT key (t.node p).keys + 1) rc (t.node p).children }).node p).children.take ((((t.setNode p { t.node p with keys := listInsertAt (countWhileGT key (t.node p).keys) key (t.node p).keys, children := listInsertAt (countWhileGT key (t.node p).keys + 1) rc (t.node p).children }).node p).keys.length / 2) + 1) }).arena.length }).node (t.setNode p { t.node p with keys := listInsertAt (countWhileGT key (t.node p).keys) key (t.node p).keys, children := listInsertAt (countWhileGT key (t.node p).keys + 1) rc (t.node p).children }).arena.length with parent := some (((((t.setNode p { t.node p with keys := listInsertAt (countWhileGT key (t.node p).keys) key (t.node p).keys, children := listInsertAt (countWhileGT key (t.node p).keys + 1) rc (t.node p).children }).node p).children.drop ((((t.setNode p { t.node p with keys := listInsertAt (countWhileGT key (t.node p).keys) key (t.node p).keys, children := listInsertAt (countWhileGT key (t.node p).keys + 1) rc (t.node p).children }).node p).keys.length / 2) + 1)).foldl (fun acc c => acc.setNode c { acc.node c with parent := some (t.setNode p { t.node p with keys := listInsertAt (countWhileGT key (t.node p).keys) key (t.node p).keys, children := listInsertAt (countWhileGT key (t.node p).keys + 1) rc (t.node p).children }).arena.length }) (((t.setNode p { t.node p with keys := listInsertAt (countWhileGT key (t.node p).keys) key (t.node p).keys, children := listInsertAt (countWhileGT key (t.node p).keys + 1) rc (t.node p).children }).alloc { newInternalNode with keys := ((t.setNode p { t.node p with keys := listInsertAt (countWhileGT key (t.node p).keys) key (t.node p).keys, children := listInsertAt (countWhileGT key (t.node p).keys + 1) rc (t.node p).children }).node p).keys.drop ((((t.setNode p { t.node p with keys := listInsertAt (countWhileGT key (t.node p).keys) key (t.node p).keys, children := listInsertAt (countWhileGT key (t.node p).keys + 1) rc (t.node p).children }).node p).keys.length / 2) + 1), children := ((t.setNode p { t.node p with keys := listInsertAt (countWhileGT key (t.node p).keys) key (t.node p).keys, children := listInsertAt (countWhileGT key (t.node p).keys + 1) rc (t.node p).children }).node p).children.drop ((((t.setNode p { t.node p with keys := listInsertAt (countWhileGT key (t.node p).keys) key (t.node p).keys, children := listInsertAt (countWhileGT key (t.node p).keys + 1) rc (t.node p).children }).node p).keys.length / 2) + 1) }).1)).setNode p { ((((t.setNode p { t.node p with keys := listInsertAt (countWhileGT key (t.node p).keys) key (t.node p).keys, children := listInsertAt (countWhileGT key (t.node p).keys + 1) rc (t.node p).children }).node p).children.drop ((((t.setNode p { t.node p with keys := listInsertAt (countWhileGT key (t.node p).keys) key (t.node p).keys, children := listInsertAt (countWhileGT key (t.node p).keys + 1) rc (t.node p).children }).node p).keys.length / 2) + 1)).foldl (fun acc c => acc.setNode c { acc.node c with parent := some (t.setNode p { t.node p with keys := listInsertAt (countWhileGT key (t.node p).keys) key (t.node p).keys, children := listInsertAt (countWhileGT key (t.node p).keys + 1) rc (t.node p).children }).arena.length }) (((t.setNode p { t.node p with keys := listInsertAt (countWhileGT key (t.node p).keys) key (t.node p).keys, children := listInsertAt (countWhileGT key (t.node p).keys + 1) rc (t.node p).children }).alloc { newInternalNode with keys := ((t.setNode p { t.node p with keys := listInsertAt (countWhileGT key (t.node p).keys) key (t.node p).keys, children := listInsertAt (countWhileGT key (t.node p).keys + 1) rc (t.node p).children }).node p).keys.drop ((((t.setNode p { t.node p with keys := listInsertAt (countWhileGT key (t.node p).keys) key (t.node p).keys, children := listInsertAt (countWhileGT key (t.node p).keys + 1) rc (t.node p).children }).node p).keys.length / 2) + 1), children := ((t.setNode p { t.node p with keys := listInsertAt (countWhileGT key (t.node p).keys) key (t.node p).keys, children := listInsertAt (countWhileGT key (t.node p).keys + 1) rc (t.node p).children }).node p).children.drop ((((t.setNode p { t.node p with keys := listInsertAt (countWhileGT key (t.node p).keys) key (t.node p).keys, children := listInsertAt (countWhileGT key (t.node p).keys + 1) rc (t.node p).children }).node p).keys.length / 2) + 1) }).1)).node p with keys := ((t.setNode p { t.node p with keys := listInsertAt (countWhileGT key (t.node p).keys) key (t.node p).keys, children := listInsertAt (countWhileGT key (t.node p).keys + 1) rc (t.node p).children }).node p).keys.take (((t.setNode p { t.node p with keys := listInsertAt (countWhileGT key (t.node p).keys) key (t.node p).keys, children := listInsertAt (countWhileGT key (t.node p).keys + 1) rc (t.node p).children }).node p).keys.length / 2), children := ((t.setNode p { t.node p with keys := listInsertAt (countWhileGT key (t.node p).keys) key (t.node p).keys, children := listInsertAt (countWhileGT key (t.node p).keys + 1) rc (t.node p).children }).node p).children.take ((((t.setNode p { t.node p with keys := listInsertAt (countWhileGT key (t.node p).keys) key (t.node p).keys, children := listInsertAt (countWhileGT key (t.node p).keys + 1) rc (t.node p).children }).node p).keys.length / 2) + 1) }).arena.length }) with root := (((((t.setNode p { t.node p with keys := listInsertAt (countWhileGT key (t.node p).keys) key (t.node p).keys, children := listInsertAt (countWhileGT key (t.node p).keys + 1) rc (t.node p).children }).node p).children.drop ((((t.setNode p { t.node p with keys := listInsertAt (countWhileGT key (t.node p).keys) key (t.node p).keys, children := listInsertAt (countWhileGT key (t.node p).keys + 1) rc (t.node p).children }).node p).keys.length / 2) + 1)).foldl (fun acc c => acc.setNode c { acc.node c with parent := some (t.setNode p { t.node p with keys := listInsertAt (countWhileGT key (t.node p).keys) key (t.node p).keys, children := listInsertAt (countWhileGT key (t.node p).keys + 1) rc (t.node p).children }).arena.length }) (((t.setNode p { t.node p with keys := listInsertAt (countWhileGT key (t.node p).keys) key (t.node p).keys, children := listInsertAt (countWhileGT key (t.node p).keys + 1) rc (t.node p).children }).alloc { newInternalNode with keys := ((t.setNode p { t.node p with keys := listInsertAt (countWhileGT key (t.node p).keys) key (t.node p).keys, children := listInsertAt (countWhileGT key (t.node p).keys + 1) rc (t.node p).children }).node p).keys.drop ((((t.setNode p { t.node p with keys := listInsertAt (countWhileGT key (t.node p).keys) key (t.node p).keys, children := listInsertAt (countWhileGT key (t.node p).keys + 1) rc (t.node p).children }).node p).keys.length / 2) + 1), children := ((t.setNode p { t.node p with keys := listInsertAt (countWhileGT key (t.node p).keys) key (t.node p).keys, children := listInsertAt (countWhileGT key (t.node p).keys + 1) rc (t.node p).children }).node p).children.drop ((((t.setNode p { t.node p with keys := listInsertAt (countWhileGT key (t.node p).keys) key (t.node p).keys, children := listInsertAt (countWhileGT key (t.node p).keys + 1) rc (t.node p).children }).node p).keys.length / 2) + 1) }).1)).setNode p { ((((t.setNode p { t.node p with keys := listInsertAt (countWhileGT key (t.node p).keys) key (t.node p).keys, children := listInsertAt (countWhileGT key (t.node p).keys + 1) rc (t.node p).children }).node p).children.drop ((((t.setNode p { t.node p with keys := listInsertAt (countWhileGT key (t.node p).keys) key (t.node p).keys, children := listInsertAt (countWhileGT key (t.node p).keys + 1) rc (t.node p).children }).node p).keys.length / 2) + 1)).foldl (fun acc c => acc.setNode c { acc.node c with parent := some (t.setNode p { t.node p with keys := listInsertAt (countWhileGT key (t.node p).keys) key (t.node p).keys, children := listInsertAt (countWhileGT key (t.node p).keys + 1) rc (t.node p).children }).arena.length }) (((t.setNode p { t.node p with keys := listInsertAt (countWhileGT key (t.node p).keys) key (t.node p).keys, children := listInsertAt (countWhileGT key (t.node p).keys + 1) rc (t.node p).children }).alloc { newInternalNode with keys := ((t.setNode p { t.node p with keys := listInsertAt (countWhileGT key (t.node p).keys) key (t.node p).keys, children := listInsertAt (countWhileGT key (t.node p).keys + 1) rc (t.node p).children }).node p).keys.drop ((((t.setNode p { t.node p with keys := listInsertAt (countWhileGT key (t.node p).keys) key (t.node p).keys, children := listInsertAt (countWhileGT key (t.node p).keys + 1) rc (t.node p).children }).node p).keys.length / 2) + 1), children := ((t.setNode p { t.node p with keys := listInsertAt (countWhileGT key (t.node p).keys) key (t.node p).keys, children := listInsertAt (countWhileGT key (t.node p).keys + 1) rc (t.node p).children }).node p).children.drop ((((t.setNode p { t.node p with keys := listInsertAt (countWhileGT key (t.node p).keys) key (t.node p).keys, children := listInsertAt (countWhileGT key (t.node p).keys + 1) rc (t.node p).children }).node p).keys.length / 2) + 1) }).1)).node p with keys := ((t.setNode p { t.node p with keys := listInsertAt (countWhileGT key (t.node p).keys) key (t.node p).keys, children := listInsertAt (countWhileGT key (t.node p).keys + 1) rc (t.node p).children }).node p).keys.take (((t.setNode p { t.node p with keys := listInsertAt (countWhileGT key (t.node p).keys) key (t.node p).keys, children := listInsertAt (countWhileGT key (t.node p).keys + 1) rc (t.node p).children }).node p).keys.length / 2), children := ((t.setNode p { t.node p with keys := listInsertAt (countWhileGT key (t.node p).keys) key (t.node p).keys, children := listInsertAt (countWhileGT key (t.node p).keys + 1) rc (t.node p).children }).node p).children.take ((((t.setNode p { t.node p with keys := listInsertAt (countWhileGT key (t.node p).keys) key (t.node p).keys, children := listInsertAt (countWhileGT key (t.node p).keys + 1) rc (t.node p).children }).node p).keys.length / 2) + 1) }).arena.length } | some gp => ((insertIntoParentGo fuel (((((t.setNode p { t.node p with keys := listInsertAt (countWhileGT key (t.node p).keys) key (t.node p).keys, children := listInsertAt (countWhileGT key (t.node p).keys + 1) rc (t.node p).children }).node p).children.drop ((((t.setNode p { t.node p with keys := listInsertAt (countWhileGT key (t.node p).keys) key (t.node p).keys, children := listInsertAt (countWhileGT key (t.node p).keys + 1) rc (t.node p).children }).node p).keys.length / 2) + 1)).foldl (fun acc c => acc.setNode c { acc.node c with parent := some (t.setNode p { t.node p with keys := listInsertAt (countWhileGT key (t.node p).keys) key (t.node p).keys, children := listInsertAt (countWhileGT key (t.node p).keys + 1) rc (t.node p).children }).arena.length }) (((t.setNode p { t.node p with keys := listInsertAt (countWhileGT key (t.node p).keys) key (t.node p).keys, children := listInsertAt (countWhileGT key (t.node p).keys + 1) rc (t.node p).children }).alloc { newInternalNode with keys := ((t.setNode p { t.node p with keys := listInsertAt (countWhileGT key (t.node p).keys) key (t.node p).keys, children := listInsertAt (countWhileGT key (t.node p).keys + 1) rc (t.node p).children }).node p).keys.drop ((((t.setNode p { t.node p with keys := listInsertAt (countWhileGT key (t.node p).keys) key (t.node p).keys, children := listInsertAt (countWhileGT key (t.node p).keys + 1) rc (t.node p).children }).node p).keys.length / 2) + 1), children := ((t.setNode p { t.node p with keys := listInsertAt (countWhileGT key (t.node p).keys) key (t.node p).keys, children := listInsertAt (countWhileGT key (t.node p).keys + 1) rc (t.node p).children }).node p).children.drop ((((t.setNode p { t.node p with keys := listInsertAt (countWhileGT key (t.node p).keys) key (t.node p).keys, children := listInsertAt (countWhileGT key (t.node p).keys + 1) rc (t.node p).children }).node p).keys.length / 2) + 1) }).1)).setNode p { ((((t.setNode p { t.node p with keys := listInsertAt (countWhileGT key (t.node p).keys) key (t.node p).keys, children := listInsertAt (countWhileGT key (t.node p).keys + 1) rc (t.node p).children }).node p).children.drop ((((t.setNode p { t.node p with keys := listInsertAt (countWhileGT key (t.node p).keys) key (t.node p).keys, children := listInsertAt (countWhileGT key (t.node p).keys + 1) rc (t.node p).children }).node p).keys.length / 2) + 1)).foldl (fun acc c => acc.setNode c { acc.node c with parent := some (t.setNode p { t.node p with keys := listInsertAt (countWhileGT key (t.node p).keys) key (t.node p).keys, children := listInsertAt (countWhileGT key (t.node p).keys + 1) rc (t.node p).children }).arena.length }) (((t.setNode p { t.node p with keys := listInsertAt (countWhileGT key (t.node p).keys) key (t.node p).keys, children := listInsertAt (countWhileGT key (t.node p).keys + 1) rc (t.node p).children }).alloc { newInternalNode with keys := ((t.setNode p { t.node p with keys := listInsertAt (countWhileGT key (t.node p).keys) key (t.node p).keys, children := listInsertAt (countWhileGT key (t.node p).keys + 1) rc (t.node p).children }).node p).keys.drop ((((t.setNode p { t.node p with keys := listInsertAt (countWhileGT key (t.node p).keys) key (t.node p).keys, children := listInsertAt (countWhileGT key (t.node p).keys + 1) rc (t.node p).children }).node p).keys.length / 2) + 1), children := ((t.setNode p { t.node p with keys := listInsertAt (countWhileGT key (t.node p).keys) key (t.node p).keys, children := listInsertAt (countWhileGT key (t.node p).keys + 1) rc (t.node p).children }).node p).children.drop ((((t.setNode p { t.node p with keys := listInsertAt (countWhileGT key (t.node p).keys) key (t.node p).keys, children := listInsertAt (countWhileGT key (t.node p).keys + 1) rc (t.node p).children }).node p).keys.length / 2) + 1) }).1)).node p with keys := ((t.setNode p { t.node p with keys := listInsertAt (countWhileGT key (t.node p).keys) key (t.node p).keys, children := listInsertAt (countWhileGT key (t.node p).keys + 1) rc (t.node p).children }).node p).keys.take (((t.setNode p { t.node p with keys := listInsertAt (countWhileGT key (t.node p).keys) key (t.node p).keys, children := listInsertAt (countWhileGT key (t.node p).keys + 1) rc (t.node p).children }).node p).keys.length / 2), children := ((t.setNode p { t.node p with keys := listInsertAt (countWhileGT key (t.node p).keys) key (t.node p).keys, children := listInsertAt (countWhileGT key (t.node p).keys + 1) rc (t.node p).children }).node p).children.take ((((t.setNode p { t.node p with keys := listInsertAt (countWhileGT key (t.node p).keys) key (t.node p).keys, children := listInsertAt (countWhileGT key (t.node p).keys + 1) rc (t.node p).children }).node p).keys.length / 2) + 1) }) gp (((t.setNode p { t.node p with keys := listInsertAt (countWhileGT key (t.node p).keys) key (t.node p).keys, children := listInsertAt (countWhileGT key (t.node p).keys + 1) rc (t.node p).children }).node p).keys.getD (((t.setNode p { t.node p with keys := listInsertAt (countWhileGT key (t.node p).keys) key (t.node p).keys, children := listInsertAt (countWhileGT key (t.node p).keys + 1) rc (t.node p).children }).node p).keys.length / 2) []) (t.setNode p { t.node p with keys := listInsertAt (countWhileGT key (t.node p).keys) key (t.node p).keys, children := listInsertAt (countWhileGT key (t.node p).keys + 1) rc (t.node p).children }).arena.length).setNode (t.setNode p { t.node p with keys := listInsertAt (countWhileGT key (t.node p).keys) key (t.node p).keys, children := listInsertAt (countWhileGT key (t.node p).keys + 1) rc (t.node p).children }).arena.length { (insertIntoParentGo fuel (((((t.setNode p { t.node p with keys := listInsertAt (countWhileGT key (t.node p).keys) key (t.node p).keys, children := listInsertAt (countWhileGT key (t.node p).keys + 1) rc (t.node p).children }).node p).children.drop ((((t.setNode p { t.node p with keys := listInsertAt (countWhileGT key (t.node p).keys) key (t.node p).keys, children := listInsertAt (countWhileGT key (t.node p).keys + 1) rc (t.node p).children }).node p).keys.length / 2) + 1)).foldl (fun acc c => acc.setNode c { acc.node c with parent := some (t.setNode p { t.node p with keys := listInsertAt (countWhileGT key (t.node p).keys) key (t.node p).keys, children := listInsertAt (countWhileGT key (t.node p).keys + 1) rc (t.node p).children }).arena.length }) (((t.setNode p { t.node p with keys := listInsertAt (countWhileGT key (t.node p).keys) key (t.node p).keys, children := listInsertAt (countWhileGT key (t.node p).keys + 1) rc (t.node p).children }).alloc { newInternalNode with keys := ((t.setNode p { t.node p with keys := listInsertAt (countWhileGT key (t.node p).keys) key (t.node p).keys, children := listInsertAt (countWhileGT key (t.node p).keys + 1) rc (t.node p).children }).node p).keys.drop ((((t.setNode p { t.node p with keys := listInsertAt (countWhileGT key (t.node p).keys) key (t.node p).keys, children := listInsertAt (countWhileGT key (t.node p).keys + 1) rc (t.node p).children }).node p).keys.length / 2) + 1), children := ((t.setNode p { t.node p with keys := listInsertAt (countWhileGT key (t.node p).keys) key (t.node p).keys, children := listInsertAt (countWhileGT key (t.node p).keys + 1) rc (t.node p).children }).node p).children.drop ((((t.setNode p { t.node p with keys := listInsertAt (countWhileGT key (t.node p).keys) key (t.node p).keys, children := listInsertAt (countWhileGT key (t.node p).keys + 1) rc (t.node p).children }).node p).keys.length / 2) + 1) }).1)).setNode p { ((((t.setNode p { t.node p with keys := listInsertAt (countWhileGT key (t.node p).keys) key (t.node p).keys, children := listInsertAt (countWhileGT key (t.node p).keys + 1) rc (t.node p).children }).node p).children.drop ((((t.setNode p { t.node p with keys := listInsertAt (countWhileGT key (t.node p).keys) key (t.node p).keys, children := listInsertAt (countWhileGT key (t.node p).keys + 1) rc (t.node p).children }).node p).keys.length / 2) + 1)).foldl (fun acc c => acc.setNode c { acc.node c with parent := some (t.setNode p { t.node p with keys := listInsertAt (countWhileGT key (t.node p).keys) key (t.node p).keys, children := listInsertAt (countWhileGT key (t.node p).keys + 1) rc (t.node p).children }).arena.length }) (((t.setNode p { t.node p with keys := listInsertAt (countWhileGT key (t.node p).keys) key (t.node p).keys, children := listInsertAt (countWhileGT key (t.node p).keys + 1) rc (t.node p).children }).alloc { newInternalNode with keys := ((t.setNode p { t.node p with keys := listInsertAt (countWhileGT key (t.node p).keys) key (t.node p).keys, children := listInsertAt (countWhileGT key (t.node p).keys + 1) rc (t.node p).children }).node p).keys.drop ((((t.setNode p { t.node p with keys := listInsertAt (countWhileGT key (t.node p).keys) key (t.node p).keys, children := listInsertAt (countWhileGT key (t.node p).keys + 1) rc (t.node p).children }).node p).keys.length / 2) + 1), children := ((t.setNode p { t.node p with keys := listInsertAt (countWhileGT key (t.node p).keys) key (t.node p).keys, children := listInsertAt (countWhileGT key (t.node p).keys + 1) rc (t.node p).children }).node p).children.drop ((((t.setNode p { t.node p with keys := listInsertAt (countWhileGT key (t.node p).keys) key (t.node p).keys, children := listInsertAt (countWhileGT key (t.node p).keys + 1) rc (t.node p).children }).node p).keys.length / 2) + 1) }).1)).node p with keys := ((t.setNode p { t.node p with keys := listInsertAt (countWhileGT key (t.node p).keys) key (t.node p).keys, children := listInsertAt (countWhileGT key (t.node p).keys + 1) rc (t.node p).children }).node p).keys.take (((t.setNode p { t.node p with keys := listInsertAt (countWhileGT key (t.node p).keys) key (t.node p).keys, children := listInsertAt (countWhileGT key (t.node p).keys + 1) rc (t.node p).children }).node p).keys.length / 2), children := ((t.setNode p { t.node p with keys := listInsertAt (countWhileGT key (t.node p).keys) key (t.node p).keys, children := listInsertAt (countWhileGT key (t.node p).keys + 1) rc (t.node p).children }).node p).children.take ((((t.setNode p { t.node p with keys := listInsertAt (countWhileGT key (t.node p).keys) key (t.node p).keys, children := listInsertAt (countWhileGT key (t.node p).keys + 1) rc (t.node p).children }).node p).keys.length / 2) + 1) }) gp (((t.setNode p { t.node p with keys := listInsertAt (countWhileGT key (t.node p).keys) key (t.node p).keys, children := listInsertAt (countWhileGT key (t.node p).keys + 1) rc (t.node p).children }).node p).keys.getD (((t.setNode p { t.node p with keys := listInsertAt (countWhileGT key (t.node p).keys) key (t.node p).keys, children := listInsertAt (countWhileGT key (t.node p).keys + 1) rc (t.node p).children }).node p).keys.length / 2) []) (t.setNode p { t.node p with keys := listInsertAt (countWhileGT key (t.node p).keys) key (t.node p).keys, children := listInsertAt (countWhileGT key (t.node p).keys + 1) rc (t.node p).children }).arena.length).node (t.setNode p { t.node p with keys := listInsertAt (countWhileGT key (t.node p).keys) key (t.node p).keys, children := listInsertAt (countWhileGT key (t.node p).keys + 1) rc (t.node p).children }).arena.length with parent := ((insertIntoParentGo fuel (((((t.setNode p { t.node p with keys := listInsertAt (countWhileGT key (t.node p).keys) key (t.node p).keys, children := listInsertAt (countWhileGT key (t.node p).keys + 1) rc (t.node p).children }).node p).children.drop ((((t.setNode p { t.node p with keys := listInsertAt (countWhileGT key (t.node p).keys) key (t.node p).keys, children := listInsertAt (countWhileGT key (t.node p).keys + 1) rc (t.node p).children }).node p).keys.length / 2) + 1)).foldl (fun acc c => acc.setNode c { acc.node c with parent := some (t.setNode p { t.node p with keys := listInsertAt (countWhileGT key (t.node p).keys) key (t.node p).keys, children := listInsertAt (countWhileGT key (t.node p).keys + 1) rc (t.node p).children }).arena.length }) (((t.setNode p { t.node p with keys := listInsertAt (countWhileGT key (t.node p).keys) key (t.node p).keys, children := listInsertAt (countWhileGT key (t.node p).keys + 1) rc (t.node p).children }).alloc { newInternalNode with keys := ((t.setNode p { t.node p with keys := listInsertAt (countWhileGT key (t.node p).keys) key (t.node p).keys, children := listInsertAt (countWhileGT key (t.node p).keys + 1) rc (t.node p).children }).node p).keys.drop ((((t.setNode p { t.node p with keys := listInsertAt (countWhileGT key (t.node p).keys) key (t.node p).keys, children := listInsertAt (countWhileGT key (t.node p).keys + 1) rc (t.node p).children }).node p).keys.length / 2) + 1), children := ((t.setNode p { t.node p with keys := listInsertAt (countWhileGT key (t.node p).keys) key (t.node p).keys, children := listInsertAt (countWhileGT key (t.node p).keys + 1) rc (t.node p).children }).node p).children.drop ((((t.setNode p { t.node p with keys := listInsertAt (countWhileGT key (t.node p).keys) key (t.node p).keys, children := listInsertAt (countWhileGT key (t.node p).keys + 1) rc (t.node p).children }).node p).keys.length / 2) + 1) }).1)).setNode p { ((((t.setNode p { t.node p with keys := listInsertAt (countWhileGT key (t.node p).keys) key (t.node p).keys, children := listInsertAt (countWhileGT key (t.node p).keys + 1) rc (t.node p).children }).node p).children.drop ((((t.setNode p { t.node p with keys := listInsertAt (countWhileGT key (t.node p).keys) key (t.node p).keys, children := listInsertAt (countWhileGT key (t.node p).keys + 1) rc (t.node p).children }).node p).keys.length / 2) + 1)).foldl (fun acc c => acc.setNode c { acc.node c with parent := some (t.setNode p { t.node p with keys := listInsertAt (countWhileGT key (t.node p).keys) key (t.node p).keys, children := listInsertAt (countWhileGT key (t.node p).keys + 1) rc (t.node p).children }).arena.length }) (((t.setNode p { t.node p with keys := listInsertAt (countWhileGT key (t.node p).keys) key (t.node p).keys, children := listInsertAt (countWhileGT key (t.node p).keys + 1) rc (t.node p).children }).alloc { newInternalNode with keys := ((t.setNode p { t.node p with keys := listInsertAt (countWhileGT key (t.node p).keys) key (t.node p).keys, children := listInsertAt (countWhileGT key (t.node p).keys + 1) rc (t.node p).children }).node p).keys.drop ((((t.setNode p { t.node p with keys := listInsertAt (countWhileGT key (t.node p).keys) key (t.node p).keys, children := listInsertAt (countWhileGT key (t.node p).keys + 1) rc (t.node p).children }).node p).keys.length / 2) + 1), children := ((t.setNode p { t.node p with keys := listInsertAt (countWhileGT key (t.node p).keys) key (t.node p).keys, children := listInsertAt (countWhileGT key (t.node p).keys + 1) rc (t.node p).children }).node p).children.drop ((((t.setNode p { t.node p with keys := listInsertAt (countWhileGT key (t.node p).keys) key (t.node p).keys, children := listInsertAt (countWhileGT key (t.node p).keys + 1) rc (t.node p).children }).node p).keys.length / 2) + 1) }).1)).node p with keys := ((t.setNode p { t.node p with keys := listInsertAt (countWhileGT key (t.node p).keys) key (t.node p).keys, children := listInsertAt (countWhileGT key (t.node p).keys + 1) rc (t.node p).children }).node p).keys.take (((t.setNode p { t.node p with keys := listInsertAt (countWhileGT key (t.node p).keys) key (t.node p).keys, children := listInsertAt (countWhileGT key (t.node p).keys + 1) rc (t.node p).children }).node p).keys.length / 2), children := ((t.setNode p { t.node p with keys := listInsertAt (countWhileGT key (t.node p).keys) key (t.node p).keys, children := listInsertAt (countWhileGT key (t.node p).keys + 1) rc (t.node p).children }).node p).children.take ((((t.setNode p { t.node p with keys := listInsertAt (countWhileGT key (t.node p).keys) key (t.node p).keys, children := listInsertAt (countWhileGT key (t.node p).keys + 1) rc (t.node p).children }).node p).keys.length / 2) + 1) }) gp (((t.setNode p { t.node p with keys := listInsertAt (countWhileGT key (t.node p).keys) key (t.node p).keys, children := listInsertAt (countWhileGT key (t.node p).keys + 1) rc (t.node p).children }).node p).keys.getD (((t.setNode p { t.node p with keys := listInsertAt (countWhileGT key (t.node p).keys) key (t.node p).keys, children := listInsertAt (countWhileGT key (t.node p).keys + 1) rc (t.node p).children }).node p).keys.length / 2) []) (t.setNode p { t.node p with keys := listInsertAt (countWhileGT key (t.node p).keys) key (t.node p).keys, children := listInsertAt (countWhileGT key (t.node p).keys + 1) rc (t.node p).children }).arena.length).node p).parent })) else (t.setNode p { t.node p with keys := listInsertAt (countWhileGT key (t.node p).keys) key (t.node p).keys, children := listInsertAt (countWhileGT key (t.node p).keys + 1) rc (t.node p).children })) := rfl
      rw [heq]
      set N := t.arena.length with hN
      set t1 := (t.setNode p { t.node p with keys := listInsertAt (countWhileGT key (t.node p).keys) key (t.node p).keys, children := listInsertAt (countWhileGT key (t.node p).keys + 1) rc (t.node p).children }) with ht1
      have hNt1 : t1.arena.length = N := setNode_arena_length _ _ _
      have hroot1 : t1.root = t.root := rfl
      have hnodep1 : t1.node p = { t.node p with keys := listInsertAt (countWhileGT key (t.node p).keys) key (t.node p).keys, children := listInsertAt (countWhileGT key (t.node p).keys + 1) rc (t.node p).children } := node_setNode_same _ hp
      by_cases hsplit : (t1.node p).keys.length ≥ t1.order
      · rw [if_pos hsplit, hNt1]
        have hs1 : ShapeInv t1 exempt rank := hA.shape
        have hpi1 : (t1.node p).isLeaf = false := by
          rw [hnodep1]; exact hpi
        have hkl1 : (t1.node p).keys.length = (t.node p).keys.length + 1 := by
          rw [hnodep1]; simp [listInsertAt_length]
        have hcl1 : (t1.node p).children.length =
            (t1.node p).keys.length + 1 := by
          have := hs1.childCount p (by omega) hpi1
          exact this
        have hlen3 : 3 ≤ (t1.node p).keys.length := by
          have h1 := hs1.order3
          omega
        set L := (t1.node p).keys.length with hL
        set mid := L / 2 with hmid
        have hmidlt : mid < L := by omega
        have hmid1 : mid + 1 ≤ L := by omega
        set pk := (t1.node p).keys.getD mid [] with hpk
        have hpkmem : pk ∈ (t1.node p).keys := getD_mem_of_lt (by omega)
        have hpkgt : bytesLt [0] pk :=
          hs1.internalGtZero p (by omega) hpi1 pk hpkmem
        have hB1 := ip_stage_alloc hs1
          { newInternalNode with keys := (t1.node p).keys.drop (mid + 1), children := (t1.node p).children.drop (mid + 1) }
          (rank p)
          (by simp [newInternalNode])
          (by simp [newInternalNode])
          (by
            intro c hc
            simp only at hc
            have hmem := List.drop_subset (mid + 1) _ hc
            exact ⟨hs1.childLt p (by omega) hpi1 c hmem,
              hs1.rankChild p (by omega) hpi1 c hmem⟩)
          (by simp; omega)
          (by
            intro k hk
            simp only at hk
            exact hs1.internalGtZero p (by omega) hpi1 k
              (List.drop_subset (mid + 1) _ hk))
        rw [hNt1] at hB1
        set t2 := (t1.alloc { newInternalNode with keys := (t1.node p).keys.drop (mid + 1), children := (t1.node p).children.drop (mid + 1) }).1 with ht2
        have hlen2 : t2.arena.length = N + 1 := by
          rw [ht2, alloc_arena_length, hNt1]
        have hnodeN2 : t2.node N = { newInternalNode with keys := (t1.node p).keys.drop (mid + 1), children := (t1.node p).children.drop (mid + 1) } := by
          rw [ht2, ← hNt1]
          exact node_alloc_new _ _
        have hold2 : ∀ j, j < N → t2.node j = t1.node j := by
          intro j hj
          rw [ht2]
          exact node_alloc_old _ (by omega)
        set rank2 := Function.update rank N (rank p) with hrank2
        have hrk2old : ∀ j, j < N → rank2 j = rank j := fun j hj =>
          Function.update_noteq (by omega) _ _
        have hrk2new : rank2 N = rank p := Function.update_same _ _ _
        have hs2 : ShapeInv t2 (N :: exempt) rank2 := hB1.shape
        have hmoved : ∀ c ∈ (t1.node p).children.drop (mid + 1),
            c < N ∧ rank c < rank p := by
          intro c hc
          have hmem := List.drop_subset (mid + 1) _ hc
          have h1 := hs1.childLt p (by omega) hpi1 c hmem
          exact ⟨by omega, hs1.rankChild p (by omega) hpi1 c hmem⟩
        have hB2 := ip_stage_reparent hs2
          ((t1.node p).children.drop (mid + 1)) N
          (by intro c hc; have := (hmoved c hc).1; omega)
          (by omega)
          (by rw [hnodeN2]; simp [newInternalNode])
          (by
            intro c hc
            rw [hrk2old c (hmoved c hc).1, hrk2new]
            exact (hmoved c hc).2)
        set t3 := ((t1.node p).children.drop (mid + 1)).foldl (fun acc c => acc.setNode c { acc.node c with parent := some N }) t2 with ht3
        have hlen3a : t3.arena.length = N + 1 := by
          rw [ht3, reparent_arena_length, hlen2]
        have hs3 : ShapeInv t3 (N :: exempt) rank2 := hB2.shape
        have hpnm : p ∉ (t1.node p).children.drop (mid + 1) := by
          intro h
          have := (hmoved p h).2
          omega
        have hnodep3 : t3.node p = t1.node p := by
          rw [ht3, reparent_node_notmem _ _ _ _ hpnm, hold2 p (by omega)]
        have hnodeN3 : t3.node N = t2.node N := by
          rw [ht3, reparent_node_notmem]
          intro h
          have := (hmoved N h).1
          omega
        have hpi3 : (t3.node p).isLeaf = false := by rw [hnodep3]; exact hpi1
        have hB3 : IPRes t3 (t3.setNode p { t3.node p with keys := (t1.node p).keys.take mid, children := (t1.node p).children.take (mid + 1) }) rank2 rank2 (N :: exempt) :=
          ip_stage_shrink hs3
            ((t1.node p).keys.take mid)
            ((t1.node p).children.take (mid + 1))
            (by omega) hpi3
            (by
              intro k hk
              rw [hnodep3]
              exact List.take_subset mid _ hk)
            (by
              intro c hc
              rw [hnodep3]
              exact List.take_subset (mid + 1) _ hc)
            (by
              rw [List.length_take, List.length_take]
              omega)
            (by
              rw [hnodep3]
              exact take_getD_zero _ _ (by omega))
        set t4 := t3.setNode p { t3.node p with keys := (t1.node p).keys.take mid, children := (t1.node p).children.take (mid + 1) } with ht4
        have hlen4 : t4.arena.length = N + 1 := by
          rw [ht4, setNode_arena_length, hlen3a]
        have hs4 : ShapeInv t4 (N :: exempt) rank2 := hB3.shape
        have hroot4 : t4.root = t.root := by
          rw [ht4, setNode_root, ht3, reparent_root, ht2, alloc_root, hroot1]
        have hnodep4 : t4.node p = { t3.node p with keys := (t1.node p).keys.take mid, children := (t1.node p).children.take (mid + 1) } := by
          rw [ht4]
          exact node_setNode_same _ (by omega)
        have hnodeN4 : t4.node N = t2.node N := by
          rw [ht4, node_setNode_other _ (by omega : (N : Nat) ≠ p), hnodeN3]
        have hBchain : IPRes t t4 rank rank2 (N :: exempt) :=
          (hA.trans hB1).trans (hB2.trans hB3)
        rcases hparp : ((t1.node p).parent) with _ | gp
        · have hparpt : (t.node p).parent = none := by
            have hsame : (t1.node p).parent = (t.node p).parent := by
              rw [hnodep1]
            rw [← hsame, hparp]
          have hproot : p = t.root := hs.pnr p hp hpex hparpt
          have hrankp2 : rank2 p = rank p := hrk2old p (by omega)
          have hB5 := ip_stage_newRoot (x := p) (y := N) hs4
            (by rw [hroot4]; exact hproot)
            (by omega)
            (by omega)
            hpkgt
            (by rw [hrk2new, hrankp2])
          have hfinal := hBchain.trans hB5
          refine ⟨Function.update rank2 t4.arena.length (rank2 p + 1), ?_⟩
          set t5R := (t4.alloc { newInternalNode with keys := [pk], children := [p, N] }).1 with ht5R
          set t6R := t5R.setNode p { t5R.node p with parent := some t4.arena.length } with ht6R
          set t7R := t6R.setNode N { t6R.node N with parent := some t4.arena.length } with ht7R
          have hlen6R : t6R.arena.length = N + 2 := by
            rw [ht6R, setNode_arena_length, ht5R, alloc_arena_length, hlen4]
          have hnodeN7 : (({ t7R with root := t4.arena.length } : BTree).node N).parent = some t4.arena.length := by
            have h1 : ({ t7R with root := t4.arena.length } : BTree).node N = t7R.node N := rfl
            rw [h1, ht7R, node_setNode_same _ (by omega : N < t6R.arena.length)]
          have hshed := shapeInv_shed hfinal.shape (Or.inl (by
            rw [hnodeN7]
            simp))
          exact ⟨hshed, hfinal.rankAgree, hfinal.lenMono, hfinal.orderEq,
            hfinal.isLeafPres, hfinal.leafSkel, hfinal.freshInternal,
            hfinal.parentSome, hfinal.spine⟩
        · have hparpt : (t.node p).parent = some gp := by
            have hsame : (t1.node p).parent = (t.node p).parent := by
              rw [hnodep1]
            rw [← hsame, hparp]
          have hgp := hs.parentInternal p gp hp hparpt
          have hgpne : gp ≠ p := by
            have := hs.parentRank p gp hp hparpt
            intro h
            rw [h] at this
            omega
          have hgpnm : gp ∉ (t1.node p).children.drop (mid + 1) := by
            intro h
            have h1 := (hmoved gp h).2
            have h2 := hs.parentRank p gp hp hparpt
            omega
          have hnodegp4 : t4.node gp = t.node gp := by
            rw [ht4, node_setNode_other _ hgpne, ht3,
              reparent_node_notmem _ _ _ _ hgpnm, hold2 gp hgp.1,
              ht1, node_setNode_other _ hgpne]
          have hgpi4 : (t4.node gp).isLeaf = false := by
            rw [hnodegp4]; exact hgp.2
          have hrgp : rank p < rank gp := hs.parentRank p gp hp hparpt
          have hIH := ih t4 (N :: exempt) rank2 gp pk N hs4
            (by omega) hgpi4
            (by
              intro e he
              rcases List.mem_cons.mp he with h | h
              · rw [h, hrk2new, hrk2old gp hgp.1]
                exact hrgp
              · rw [hrk2old e (hexLt e h), hrk2old gp hgp.1]
                exact lt_trans (hex e h) hrgp)
            (by
              intro e he
              rcases List.mem_cons.mp he with h | h
              · omega
              · have := hexLt e h; omega)
            (by simp)
            (by
              rw [hrk2new, hrk2old gp hgp.1]
              exact hrgp)
            hpkgt
          obtain ⟨rank5, hIHres⟩ := hIH
          set t5 := insertIntoParentGo fuel t4 gp pk N with ht5
          have hlen5 : N + 1 ≤ t5.arena.length := by
            have := hIHres.lenMono
            omega
          have hsome5 : ((t5.node p).parent).isSome = true := by
            refine hIHres.parentSome p (by omega) ?_
            have hsame4 : (t4.node p).parent = (t1.node p).parent := by
              rw [hnodep4, hnodep3]
            rw [hsame4, hparp]
            rfl
          obtain ⟨q, hq⟩ := Option.isSome_iff_exists.mp hsome5
          have hqvalid := hIHres.shape.parentInternal p q (by omega) hq
          have hrank5p : rank5 p = rank p := by
            rw [hIHres.rankAgree p (by omega), hrk2old p (by omega)]
          have hrank5N : rank5 N = rank p := by
            rw [hIHres.rankAgree N (by omega), hrk2new]
          have hC := ip_stage_setParent (x := N) (q := q) hIHres.shape
            (by omega) hqvalid.1 hqvalid.2
            (by
              rw [hrank5N]
              have hpr := hIHres.shape.parentRank p q (by omega) hq
              rw [hrank5p] at hpr
              exact hpr)
          have hCres : IPRes t5 (t5.setNode N { t5.node N with parent := (t5.node p).parent }) rank5 rank5 (N :: exempt) := by
            rw [hq]
            exact hC
          have hfinal := hBchain.trans (hIHres.trans hCres)
          refine ⟨rank5, ?_⟩
          have hshed : ShapeInv (t5.setNode N { t5.node N with parent := (t5.node p).parent }) exempt rank5 := by
            refine shapeInv_shed hfinal.shape (Or.inl ?_)
            rw [node_setNode_same _ (by omega : N < t5.arena.length)]
            simp [hq]
          exact ⟨hshed, hfinal.rankAgree, hfinal.lenMono, hfinal.orderEq,
            hfinal.isLeafPres, hfinal.leafSkel, hfinal.freshInternal,
            hfinal.parentSome, hfinal.spine⟩
      · rw [if_neg hsplit]
        exact ⟨rank, hA⟩

/-- The key-value pairs stored in one leaf node. -/
def leafEntries (t : BTree) (i : Nat) : List (List Nat × List Nat) :=
  (t.node i).keys.zip (t.node i).values

/-- All entries along a leaf chain, in chain order: what a full scan visits. -/
def chainEntries (t : BTree) (chain : List Nat) :
    List (List Nat × List Nat) :=
  chain.flatMap (leafEntries t)

/-- Total payload size of a list of entries. -/
def entriesSize (l : List (List Nat × List Nat)) : Nat :=
  (l.map (fun kv => kv.2.length)).sum

theorem chainEntries_append (t : BTree) (A B : List Nat) :
    chainEntries t (A ++ B) = chainEntries t A ++ chainEntries t B := by
  simp [chainEntries]

theorem chainEntries_cons (t : BTree) (a : Nat) (B : List Nat) :
    chainEntries t (a :: B) = leafEntries t a ++ chainEntries t B := by
  simp [chainEntries]

theorem chainEntries_congr {t t' : BTree} {chain : List Nat}
    (h : ∀ i ∈ chain, (t'.node i).keys = (t.node i).keys ∧
      (t'.node i).values = (t.node i).values) :
    chainEntries t' chain = chainEntries t chain := by
  induction chain with
  | nil => rfl
  | cons a B ih =>
      rw [chainEntries_cons, chainEntries_cons,
        ih (fun i hi => h i (by simp [hi]))]
      have ha := h a (by simp)
      rw [leafEntries, leafEntries, ha.1, ha.2]

theorem entriesSize_append (l1 l2 : List (List Nat × List Nat)) :
    entriesSize (l1 ++ l2) = entriesSize l1 + entriesSize l2 := by
  simp [entriesSize]

theorem rangeScanLeaf_all {l : List (List Nat × List Nat)}
    (h : ∀ kv ∈ l, bytesCompare kv.1 [0] ≥ 0) :
    rangeScanLeaf [0] none l = (l, false) := by
  induction l with
  | nil => rfl
  | cons kv rest ih =>
      obtain ⟨k, v⟩ := kv
      have hk : bytesCompare k [0] ≥ 0 := h (k, v) (by simp)
      rw [rangeScanLeaf, if_pos hk]
      have hstop : rangeStop none k = false := rfl
      rw [hstop]
      simp only [Bool.false_eq_true, if_false]
      rw [ih (fun x hx => h x (by simp [hx]))]

theorem rangeWalk_none (t : BTree) (s : List Nat) (e : Option (List Nat)) :
    ∀ fuel, rangeWalk t s e none fuel = [] := by
  intro fuel
  cases fuel <;> rfl

theorem rangeWalk_chain {t : BTree} :
    ∀ {hd : Nat} {chain : List Nat}, ChainFrom t hd chain →
      (∀ i ∈ chain, ∀ kv ∈ leafEntries t i, bytesCompare kv.1 [0] ≥ 0) →
      ∀ {fuel : Nat}, chain.length ≤ fuel →
      rangeWalk t [0] none (some hd) fuel = chainEntries t chain := by
  intro hd chain hc
  induction hc with
  | last i hi =>
      intro hall fuel hf
      cases fuel with
      | zero => simp at hf
      | succ f =>
          rw [rangeWalk]
          rw [rangeScanLeaf_all (l := (t.node i).keys.zip (t.node i).values)
            (hall i (by simp))]
          simp [hi, chainEntries, leafEntries, rangeWalk_none]
  | cons i j l hij hcj ih =>
      intro hall fuel hf
      cases fuel with
      | zero => simp at hf
      | succ f =>
          rw [rangeWalk]
          rw [rangeScanLeaf_all (l := (t.node i).keys.zip (t.node i).values)
            (hall i (by simp))]
          simp only [Bool.false_eq_true, if_false, hij]
          rw [ih (fun x hx kv hkv => hall x (by simp [hx]) kv hkv)
            (by simpa using hf)]
          rw [chainEntries_cons]
          rfl

theorem countWhileGE_zeroByte {ks : List (List Nat)}
    (h : ∀ k ∈ ks, bytesLt [0] k) : countWhileGE [0] ks = 0 := by
  cases ks with
  | nil => rfl
  | cons x xs =>
      have hx := h x (by simp)
      simp only [bytesLt] at hx
      have : ¬ bytesCompare [0] x ≥ 0 := by omega
      simp [countWhileGE, this]

theorem countWhileGE_le_length (k : List Nat) :
    ∀ ks : List (List Nat), countWhileGE k ks ≤ ks.length := by
  intro ks
  induction ks with
  | nil => simp [countWhileGE]
  | cons x xs ih =>
      by_cases h : bytesCompare k x ≥ 0
      · simpa [countWhileGE, h] using ih
      · simp [countWhileGE, h]

theorem findLeafGo_spine {t : BTree} {rank : Nat → Nat}
    (hs : ShapeInv t [] rank) :
    ∀ {d i hL : Nat}, LeftSpine t d i hL → i < t.arena.length →
      ∀ {fuel : Nat}, d ≤ fuel → findLeafGo t [0] i fuel = hL := by
  intro d i hL hsp
  induction hsp with
  | leaf i hi =>
      intro hlt fuel _
      cases fuel with
      | zero => rfl
      | succ f =>
          rw [findLeafGo]
          simp [hi]
  | step d i j hL hi hj _ ih =>
      intro hlt fuel hf
      cases fuel with
      | zero => omega
      | succ f =>
          rw [findLeafGo]
          have hz : countWhileGE [0] (t.node i).keys = 0 :=
            countWhileGE_zeroByte (hs.internalGtZero i hlt hi)
          simp only [hi, Bool.false_eq_true, if_false, hz, hj]
          exact ih (hj ▸ spineChild_lt hs i hlt hi) (by omega)

theorem findLeafGo_isLeaf {t : BTree} {rank : Nat → Nat}
    (hs : ShapeInv t [] rank) (key : List Nat) :
    ∀ (fuel i : Nat), i < t.arena.length → rank i < fuel →
      findLeafGo t key i fuel < t.arena.length ∧
      (t.node (findLeafGo t key i fuel)).isLeaf = true := by
  intro fuel
  induction fuel with
  | zero => intro i _ h; omega
  | succ f ih =>
      intro i hi hr
      rw [findLeafGo]
      by_cases hleaf : (t.node i).isLeaf = true
      · rw [if_pos hleaf]
        exact ⟨hi, hleaf⟩
      · have hleaf' : (t.node i).isLeaf = false := by
          simp at hleaf
          exact hleaf
        rw [if_neg (by simp [hleaf'])]
        have hcnt := hs.childCount i hi hleaf'
        have hlt : countWhileGE key (t.node i).keys <
            (t.node i).children.length := by
          have := countWhileGE_le_length key (t.node i).keys
          omega
        have hmem : (t.node i).children.getD
            (countWhileGE key (t.node i).keys) 0 ∈ (t.node i).children :=
          getD_mem_of_lt hlt
        exact ih _ (hs.childLt i hi hleaf' _ hmem)
          (by have := hs.rankChild i hi hleaf' _ hmem; omega)

theorem findLeaf_mem_chain {t : BTree} {chain : List Nat} {rank : Nat → Nat}
    (hwf : TreeWF t chain rank) (key : List Nat) :
    t.findLeaf key ∈ chain ∧ t.findLeaf key < t.arena.length := by
  have h := findLeafGo_isLeaf hwf.shape key t.arena.length t.root
    hwf.shape.rootLt hwf.shape.rankRoot
  rw [BTree.findLeaf]
  exact ⟨hwf.covers _ h.1 h.2, h.1⟩

theorem range_zero_eq_chainEntries {t : BTree} {chain : List Nat}
    {rank : Nat → Nat} (hwf : TreeWF t chain rank) :
    t.Range [0] none = chainEntries t chain := by
  obtain ⟨hd, d, hcf, hsp, hdlen⟩ := hwf.chainSpine
  have hfind : t.findLeaf [0] = hd :=
    findLeafGo_spine hwf.shape hsp hwf.shape.rootLt (by omega)
  rw [BTree.Range, hfind]
  refine rangeWalk_chain hcf ?_ (by have := hwf.chainLen; omega)
  intro i hi kv hkv
  have hk1 : kv.1 ∈ (t.node i).keys := by
    obtain ⟨k, v⟩ := kv
    exact (List.of_mem_zip hkv).1
  exact bytesCompare_ge_zeroByte (hwf.leafKeysNe i hi kv.1 hk1)

theorem zip_listInsertAt {α β : Type} (a : α) (b : β) :
    ∀ (n : Nat) (l1 : List α) (l2 : List β), l1.length = l2.length →
      (listInsertAt n a l1).zip (listInsertAt n b l2) =
        listInsertAt n (a, b) (l1.zip l2) := by
  intro n
  induction n with
  | zero =>
      intro l1 l2 _
      simp only [listInsertAt, List.zip_cons_cons]
  | succ m ih =>
      intro l1 l2 h
      cases l1 with
      | nil =>
          cases l2 with
          | nil => simp [listInsertAt]
          | cons y ys => simp at h
      | cons x xs =>
          cases l2 with
          | nil => simp at h
          | cons y ys =>
              simp only [listInsertAt, List.zip_cons_cons]
              rw [ih xs ys (by simpa using h)]
              rfl

theorem zip_take {α β : Type} :
    ∀ (n : Nat) (l1 : List α) (l2 : List β),
      (l1.take n).zip (l2.take n) = (l1.zip l2).take n := by
  intro n
  induction n with
  | zero => intro l1 l2; simp
  | succ m ih =>
      intro l1 l2
      cases l1 with
      | nil => simp
      | cons x xs =>
          cases l2 with
          | nil => simp
          | cons y ys => simp [ih]

theorem zip_drop {α β : Type} :
    ∀ (n : Nat) (l1 : List α) (l2 : List β),
      (l1.drop n).zip (l2.drop n) = (l1.zip l2).drop n := by
  intro n
  induction n with
  | zero => intro l1 l2; simp
  | succ m ih =>
      intro l1 l2
      cases l1 with
      | nil => simp
      | cons x xs =>
          cases l2 with
          | nil => simp [List.zip_nil_right]
          | cons y ys => simp [ih]

theorem zip_eraseIdx {α β : Type} :
    ∀ (n : Nat) (l1 : List α) (l2 : List β), l1.length = l2.length →
      (l1.eraseIdx n).zip (l2.eraseIdx n) = (l1.zip l2).eraseIdx n := by
  intro n
  induction n with
  | zero =>
      intro l1 l2 h
      cases l1 with
      | nil => simp
      | cons x xs =>
          cases l2 with
          | nil => simp at h
          | cons y ys =>
              simp only [List.eraseIdx, List.zip_cons_cons]
              rfl
  | succ m ih =>
      intro l1 l2 h
      cases l1 with
      | nil => simp
      | cons x xs =>
          cases l2 with
          | nil => simp at h
          | cons y ys =>
              simp only [List.eraseIdx, List.zip_cons_cons]
              rw [ih xs ys (by simpa using h)]
              rfl

theorem length_eraseIdx_add_one {α : Type} :
    ∀ {n : Nat} {l : List α}, n < l.length →
      (l.eraseIdx n).length + 1 = l.length := by
  intro n
  induction n with
  | zero =>
      intro l h
      cases l with
      | nil => simp at h
      | cons x xs => simp [List.eraseIdx]
  | succ m ih =>
      intro l h
      cases l with
      | nil => simp at h
      | cons x xs =>
          simp only [List.eraseIdx, List.length_cons]
          rw [ih (by simpa using h)]

theorem map_sum_eraseIdx {α : Type} (f : α → Nat) :
    ∀ {n : Nat} {l : List α} {d : α}, n < l.length →
      ((l.eraseIdx n).map f).sum + f (l.getD n d) = (l.map f).sum := by
  intro n
  induction n with
  | zero =>
      intro l d h
      cases l with
      | nil => simp at h
      | cons x xs => simp [List.eraseIdx]; omega
  | succ m ih =>
      intro l d h
      cases l with
      | nil => simp at h
      | cons x xs =>
          simp only [List.eraseIdx, List.map_cons, List.sum_cons,
            List.getD_cons_succ]
          rw [Nat.add_assoc, ih (by simpa using h)]

theorem map_sum_set {α : Type} (f : α → Nat) :
    ∀ {n : Nat} {l : List α} {d : α} (x : α), n < l.length →
      ((l.set n x).map f).sum + f (l.getD n d) = (l.map f).sum + f x := by
  intro n
  induction n with
  | zero =>
      intro l d x h
      cases l with
      | nil => simp at h
      | cons y ys => simp [List.set]; omega
  | succ m ih =>
      intro l d x h
      cases l with
      | nil => simp at h
      | cons y ys =>
          simp only [List.set, List.map_cons, List.sum_cons,
            List.getD_cons_succ]
          rw [Nat.add_assoc, ih x (by simpa using h)]
          omega

theorem leafFindIdx_some_lt {k : List Nat} :
    ∀ {ks : List (List Nat)} {i : Nat}, leafFindIdx k ks = some i →
      i < ks.length ∧ ks.getD i [] = k := by
  intro ks
  induction ks with
  | nil => intro i h; simp [leafFindIdx] at h
  | cons x xs ih =>
      intro i h
      by_cases hx : bytesEqual x k
      · simp only [leafFindIdx, hx, if_pos] at h
        obtain rfl : i = 0 := by simpa using h.symm
        refine ⟨by simp, ?_⟩
        simpa [bytesEqual] using hx
      · simp only [leafFindIdx, hx, Bool.false_eq_true, if_false] at h
        cases hi : leafFindIdx k xs with
        | none => rw [hi] at h; simp at h
        | some j =>
            rw [hi] at h
            obtain rfl : i = j + 1 := by simpa using h.symm
            have := ih hi
            exact ⟨by simpa using this.1, by simpa using this.2⟩

theorem strictSorted_getD_lt {ks : List (List Nat)} (hs : strictSorted ks)
    {i j : Nat} (hij : i < j) (hj : j < ks.length) :
    bytesLt (ks.getD i []) (ks.getD j []) := by
  have hi : i < ks.length := by omega
  have := List.pairwise_iff_get.mp hs ⟨i, hi⟩ ⟨j, hj⟩ (by simpa using hij)
  simpa [List.getD_eq_getElem?_getD, List.getElem?_eq_getElem, hi, hj,
    List.get_eq_getElem] using this

theorem nodup_splice {A B : List Nat} {x y : Nat}
    (h : (A ++ x :: B).Nodup) (hy : y ∉ A ++ x :: B) :
    (A ++ x :: y :: B).Nodup := by
  have hperm : (A ++ x :: y :: B).Perm (y :: (A ++ x :: B)) := by
    have h1 : ((A ++ [x]) ++ y :: B).Perm (y :: ((A ++ [x]) ++ B)) :=
      List.perm_middle
    simpa using h1
  rw [hperm.nodup_iff, List.nodup_cons]
  exact ⟨hy, h⟩

theorem mem_splice_iff {A B : List Nat} {x y i : Nat} :
    i ∈ A ++ x :: y :: B ↔ i = y ∨ i ∈ A ++ x :: B := by
  simp only [List.mem_append, List.mem_cons]
  tauto

theorem length_splice {A B : List Nat} {x y : Nat} :
    (A ++ x :: y :: B).length = (A ++ x :: B).length + 1 := by
  simp
  omega

theorem shapeInv_setLeafFields {t : BTree} {exempt : List Nat}
    {rank : Nat → Nat} {i : Nat} (hs : ShapeInv t exempt rank)
    (hi : i < t.arena.length) (n : BNode)
    (hleaf : n.isLeaf = (t.node i).isLeaf)
    (hpar : n.parent = (t.node i).parent)
    (hchild : n.children = (t.node i).children)
    (hkeys : (t.node i).isLeaf = false → n.keys = (t.node i).keys) :
    ShapeInv (t.setNode i n) exempt rank := by
  set t1 := t.setNode i n with ht1
  have hlen : t1.arena.length = t.arena.length := setNode_arena_length _ _ _
  have hroot : t1.root = t.root := rfl
  have horder : t1.order = t.order := rfl
  have hnodei : t1.node i = n := node_setNode_same _ hi
  have hnode : ∀ j, j ≠ i → t1.node j = t.node j := fun j hj =>
    node_setNode_other _ hj
  have hL : ∀ j, (t1.node j).isLeaf = (t.node j).isLeaf := by
    intro j
    by_cases hj : j = i
    · subst hj; rw [hnodei, hleaf]
    · rw [hnode j hj]
  have hP : ∀ j, (t1.node j).parent = (t.node j).parent := by
    intro j
    by_cases hj : j = i
    · subst hj; rw [hnodei, hpar]
    · rw [hnode j hj]
  have hC : ∀ j, (t1.node j).children = (t.node j).children := by
    intro j
    by_cases hj : j = i
    · subst hj; rw [hnodei, hchild]
    · rw [hnode j hj]
  have hK : ∀ j, (t.node j).isLeaf = false →
      (t1.node j).keys = (t.node j).keys := by
    intro j hjl
    by_cases hj : j = i
    · subst hj; rw [hnodei, hkeys hjl]
    · rw [hnode j hj]
  refine ⟨horder ▸ hs.order3, ?_, ?_, ?_, ?_, ?_, ?_, ?_, ?_, ?_⟩
  · rw [hroot, hlen]; exact hs.rootLt
  · intro j hj hex hnone
    rw [hP j] at hnone
    rw [hroot]
    exact hs.pnr j (by omega) hex hnone
  · intro j q hj hq
    rw [hP j] at hq
    have := hs.parentInternal j q (by omega) hq
    exact ⟨by omega, (hL q).trans this.2⟩
  · intro j q hj hq
    rw [hP j] at hq
    exact hs.parentRank j q (by omega) hq
  · intro j hj hjl c hc
    rw [hL j] at hjl
    rw [hC j] at hc
    have := hs.childLt j (by omega) hjl c hc
    omega
  · intro j hj hjl
    rw [hL j] at hjl
    rw [hC j, hK j hjl]
    exact hs.childCount j (by omega) hjl
  · intro j hj hjl k hk
    rw [hL j] at hjl
    rw [hK j hjl] at hk
    exact hs.internalGtZero j (by omega) hjl k hk
  · rw [hroot, hlen]; exact hs.rankRoot
  · intro j hj hjl c hc
    rw [hL j] at hjl
    rw [hC j] at hc
    exact hs.rankChild j (by omega) hjl c hc

theorem treeWF_setLeaf {t : BTree} {chain : List Nat} {rank : Nat → Nat}
    {L : Nat} (hwf : TreeWF t chain rank) (hm : L ∈ chain)
    (ks vs : List (List Nat)) (hlen : ks.length = vs.length)
    (hsort : strictSorted ks) (hne : ∀ k ∈ ks, k ≠ []) :
    TreeWF (t.setNode L { t.node L with keys := ks, values := vs })
      chain rank := by
  obtain ⟨hLlt, hLleaf⟩ := hwf.chainMem L hm
  set n : BNode := { t.node L with keys := ks, values := vs } with hn
  set t1 := t.setNode L n with ht1
  have hlen1 : t1.arena.length = t.arena.length := setNode_arena_length _ _ _
  have hroot : t1.root = t.root := rfl
  have hnodeL : t1.node L = n := node_setNode_same _ hLlt
  have hnode : ∀ j, j ≠ L → t1.node j = t.node j := fun j hj =>
    node_setNode_other _ hj
  have hL : ∀ j, (t1.node j).isLeaf = (t.node j).isLeaf := by
    intro j
    by_cases hj : j = L
    · subst hj; rw [hnodeL]
    · rw [hnode j hj]
  have hN : ∀ j, (t1.node j).next = (t.node j).next := by
    intro j
    by_cases hj : j = L
    · subst hj; rw [hnodeL]
    · rw [hnode j hj]
  have hshape : ShapeInv t1 [] rank :=
    shapeInv_setLeafFields hwf.shape hLlt n rfl rfl rfl
      (fun hfalse => absurd (hfalse ▸ hLleaf) (by simp))
  refine ⟨hshape, ?_, ?_, hwf.chainNodup, ?_, ?_, ?_, ?_, ?_⟩
  · obtain ⟨hd, d, hcf, hsp, hdlen⟩ := hwf.chainSpine
    refine ⟨hd, d, chainFrom_congr hcf (fun j _ => hN j), ?_, by omega⟩
    rw [hroot]
    refine leftSpine_congr hsp hwf.shape.rootLt
      (spineChild_lt hwf.shape) (fun j _ => hL j) ?_
    intro j hj hjl
    by_cases hjL : j = L
    · exact absurd (hjL ▸ hjl) (by simp [hLleaf])
    · rw [hnode j hjL]
  · intro j hj
    have := hwf.chainMem j hj
    exact ⟨by omega, (hL j).trans this.2⟩
  · rw [hlen1]; exact hwf.chainLen
  · intro j hj hjl
    rw [hL j] at hjl
    exact hwf.covers j (by omega) hjl
  · intro j hj
    by_cases hjL : j = L
    · subst hjL; rw [hnodeL, hn]; exact hlen
    · rw [hnode j hjL]; exact hwf.leafKV j hj
  · intro j hj
    by_cases hjL : j = L
    · subst hjL; rw [hnodeL, hn]; exact hsort
    · rw [hnode j hjL]; exact hwf.leafSorted j hj
  · intro j hj
    by_cases hjL : j = L
    · subst hjL; rw [hnodeL, hn]; exact hne
    · rw [hnode j hjL]; exact hwf.leafKeysNe j hj

theorem chainFrom_cons_inv {t : BTree} {hd a : Nat} {rest : List Nat}
    (h : ChainFrom t hd (a :: rest)) (hne : rest ≠ []) :
    hd = a ∧ ∃ j, (t.node a).next = some j ∧ ChainFrom t j rest := by
  cases h with
  | last i hi => exact absurd rfl hne
  | cons i j l hn hr => exact ⟨rfl, j, hn, hr⟩

theorem chainFrom_splice {t t' : BTree} {x y : Nat} :
    ∀ {hd : Nat} {A B : List Nat}, ChainFrom t hd (A ++ x :: B) →
      (∀ i ∈ A, (t'.node i).next = (t.node i).next) →
      (∀ i ∈ B, (t'.node i).next = (t.node i).next) →
      (t'.node x).next = some y →
      (t'.node y).next = (t.node x).next →
      ChainFrom t' hd (A ++ x :: y :: B) := by
  intro hd A
  induction A generalizing hd with
  | nil =>
      intro B hc _ hB hx hy
      simp only [List.nil_append] at hc ⊢
      cases hc with
      | last i hnone =>
          exact ChainFrom.cons x y [y] hx
            (ChainFrom.last y (hy.trans hnone))
      | cons i j l hnext hrest =>
          exact ChainFrom.cons x y _ hx
            (ChainFrom.cons y j _ (hy.trans hnext)
              (chainFrom_congr hrest (fun z hz => hB z hz)))
  | cons a A2 ih =>
      intro B hc hA hB hx hy
      simp only [List.cons_append] at hc ⊢
      obtain ⟨rfl, j, hnext, hrest⟩ := chainFrom_cons_inv hc (by simp)
      exact ChainFrom.cons hd j _ ((hA hd (by simp)).trans hnext)
        (ih hrest (fun z hz => hA z (by simp [hz])) hB hx hy)

theorem shapeInv_allocLeaf {t : BTree} {exempt : List Nat}
    {rank : Nat → Nat} (hs : ShapeInv t exempt rank) (n : BNode)
    (hleaf : n.isLeaf = true) (hparent : n.parent = none) (rk : Nat) :
    ShapeInv (t.alloc n).1 (t.arena.length :: exempt)
      (Function.update rank t.arena.length rk) := by
  set t1 := (t.alloc n).1 with ht1
  have hlen : t1.arena.length = t.arena.length + 1 := alloc_arena_length _ _
  have hroot : t1.root = t.root := rfl
  have horder : t1.order = t.order := rfl
  have hold : ∀ j, j < t.arena.length → t1.node j = t.node j := fun j hj =>
    node_alloc_old _ hj
  have hnew : t1.node t.arena.length = n := node_alloc_new _ _
  have hrkOld : ∀ j, j < t.arena.length →
      Function.update rank t.arena.length rk j = rank j := by
    intro j hj
    exact Function.update_noteq (by omega) _ _
  refine ⟨horder ▸ hs.order3, ?_, ?_, ?_, ?_, ?_, ?_, ?_, ?_, ?_⟩
  · rw [hroot, hlen]; exact Nat.lt_succ_of_lt hs.rootLt
  · intro i hi hex hnone
    rw [hlen] at hi
    have hiN : i ≠ t.arena.length := fun h => hex (h ▸ by simp)
    have hilt : i < t.arena.length := by omega
    rw [hold i hilt] at hnone
    rw [hroot]
    exact hs.pnr i hilt (fun h => hex (by simp [h])) hnone
  · intro i j hi hj
    rw [hlen] at hi
    by_cases hiN : i = t.arena.length
    · rw [hiN, hnew, hparent] at hj
      simp at hj
    · have hilt : i < t.arena.length := by omega
      rw [hold i hilt] at hj
      have := hs.parentInternal i j hilt hj
      refine ⟨by omega, ?_⟩
      rw [hold j this.1]
      exact this.2
  · intro i j hi hj
    rw [hlen] at hi
    by_cases hiN : i = t.arena.length
    · rw [hiN, hnew, hparent] at hj
      simp at hj
    · have hilt : i < t.arena.length := by omega
      rw [hold i hilt] at hj
      have hjlt := (hs.parentInternal i j hilt hj).1
      rw [hrkOld i hilt, hrkOld j hjlt]
      exact hs.parentRank i j hilt hj
  · intro i hi hil c hc
    rw [hlen] at hi
    by_cases hiN : i = t.arena.length
    · rw [hiN, hnew] at hil
      rw [hleaf] at hil
      simp at hil
    · have hilt : i < t.arena.length := by omega
      rw [hold i hilt] at hil hc
      have := hs.childLt i hilt hil c hc
      omega
  · intro i hi hil
    rw [hlen] at hi
    by_cases hiN : i = t.arena.length
    · rw [hiN, hnew] at hil
      rw [hleaf] at hil
      simp at hil
    · have hilt : i < t.arena.length := by omega
      rw [hold i hilt] at hil ⊢
      exact hs.childCount i hilt hil
  · intro i hi hil k hk
    rw [hlen] at hi
    by_cases hiN : i = t.arena.length
    · rw [hiN, hnew] at hil
      rw [hleaf] at hil
      simp at hil
    · have hilt : i < t.arena.length := by omega
      rw [hold i hilt] at hil hk
      exact hs.internalGtZero i hilt hil k hk
  · rw [hroot, hlen, hrkOld _ hs.rootLt]
    exact Nat.lt_succ_of_lt hs.rankRoot
  · intro i hi hil c hc
    rw [hlen] at hi
    by_cases hiN : i = t.arena.length
    · rw [hiN, hnew] at hil
      rw [hleaf] at hil
      simp at hil
    · have hilt : i < t.arena.length := by omega
      rw [hold i hilt] at hil hc
      have hclt := hs.childLt i hilt hil c hc
      rw [hrkOld i hilt, hrkOld c hclt]
      exact hs.rankChild i hilt hil c hc

theorem getD_drop_zero {α : Type} {l : List α} {n : Nat} {d : α}
    (h : n < l.length) : (l.drop n).getD 0 d = l.getD n d := by
  induction l generalizing n with
  | nil => simp at h
  | cons x xs ih =>
      cases n with
      | zero => simp
      | succ m => simpa using ih (by simpa using h)

theorem splitLeaf_wf {t : BTree} {chain : List Nat} {rank : Nat → Nat}
    {L : Nat} (hwf : TreeWF t chain rank) (hm : L ∈ chain)
    (hkl : 2 ≤ (t.node L).keys.length) (fuel : Nat) :
    ∃ chain' rank', TreeWF (t.splitLeaf L fuel) chain' rank' ∧
      chainEntries (t.splitLeaf L fuel) chain' = chainEntries t chain := by
  obtain ⟨hLlt, hLleaf⟩ := hwf.chainMem L hm
  have hkv := hwf.leafKV L hm
  have hsorted := hwf.leafSorted L hm
  have hkne := hwf.leafKeysNe L hm
  have heq : t.splitLeaf L fuel = (match (t.node L).parent with | none => { (((((((t.alloc { newLeafNode with keys := (t.node L).keys.drop ((t.node L).keys.length / 2), values := (t.node L).values.drop ((t.node L).keys.length / 2), next := (t.node L).next }).1).setNode L { t.node L with keys := (t.node L).keys.take ((t.node L).keys.length / 2), values := (t.node L).values.take ((t.node L).keys.length / 2), next := some t.arena.length }).alloc { newInternalNode with keys := [(((t.node L).keys.drop ((t.node L).keys.length / 2)).getD 0 [])], children := [L, t.arena.length] }).1).setNode L { (((((t.alloc { newLeafNode with keys := (t.node L).keys.drop ((t.node L).keys.length / 2), values := (t.node L).values.drop ((t.node L).keys.length / 2), next := (t.node L).next }).1).setNode L { t.node L with keys := (t.node L).keys.take ((t.node L).keys.length / 2), values := (t.node L).values.take ((t.node L).keys.length / 2), next := some t.arena.length }).alloc { newInternalNode with keys := [(((t.node L).keys.drop ((t.node L).keys.length / 2)).getD 0 [])], children := [L, t.arena.length] }).1).node L with parent := some (((t.alloc { newLeafNode with keys := (t.node L).keys.drop ((t.node L).keys.length / 2), values := (t.node L).values.drop ((t.node L).keys.length / 2), next := (t.node L).next }).1).setNode L { t.node L with keys := (t.node L).keys.take ((t.node L).keys.length / 2), values := (t.node L).values.take ((t.node L).keys.length / 2), next := some t.arena.length }).arena.length }).setNode t.arena.length { ((((((t.alloc { newLeafNode with keys := (t.node L).keys.drop ((t.node L).keys.length / 2), values := (t.node L).values.drop ((t.node L).keys.length / 2), next := (t.node L).next }).1).setNode L { t.node L with keys := (t.node L).keys.take ((t.node L).keys.length / 2), values := (t.node L).values.take ((t.node L).keys.length / 2), next := some t.arena.length }).alloc { newInternalNode with keys := [(((t.node L).keys.drop ((t.node L).keys.length / 2)).getD 0 [])], children := [L, t.arena.length] }).1).setNode L { (((((t.alloc { newLeafNode with keys := (t.node L).keys.drop ((t.node L).keys.length / 2), values := (t.node L).values.drop ((t.node L).keys.length / 2), next := (t.node L).next }).1).setNode L { t.node L with keys := (t.node L).keys.take ((t.node L).keys.length / 2), values := (t.node L).values.take ((t.node L).keys.length / 2), next := some t.arena.length }).alloc { newInternalNode with keys := [(((t.node L).keys.drop ((t.node L).keys.length / 2)).getD 0 [])], children := [L, t.arena.length] }).1).node L with parent := some (((t.alloc { newLeafNode with keys := (t.node L).keys.drop ((t.node L).keys.length / 2), values := (t.node L).values.drop ((t.node L).keys.length / 2), next := (t.node L).next }).1).setNode L { t.node L with keys := (t.node L).keys.take ((t.node L).keys.length / 2), values := (t.node L).values.take ((t.node L).keys.length / 2), next := some t.arena.length }).arena.length }).node t.arena.length with parent := some (((t.alloc { newLeafNode with keys := (t.node L).keys.drop ((t.node L).keys.length / 2), values := (t.node L).values.drop ((t.node L).keys.length / 2), next := (t.node L).next }).1).setNode L { t.node L with keys := (t.node L).keys.take ((t.node L).keys.length / 2), values := (t.node L).values.take ((t.node L).keys.length / 2), next := some t.arena.length }).arena.length }) with root := (((t.alloc { newLeafNode with keys := (t.node L).keys.drop ((t.node L).keys.length / 2), values := (t.node L).values.drop ((t.node L).keys.length / 2), next := (t.node L).next }).1).setNode L { t.node L with keys := (t.node L).keys.take ((t.node L).keys.length / 2), values := (t.node L).values.take ((t.node L).keys.length / 2), next := some t.arena.length }).arena.length } | some parentIdx => ((insertIntoParentGo fuel (((t.alloc { newLeafNode with keys := (t.node L).keys.drop ((t.node L).keys.length / 2), values := (t.node L).values.drop ((t.node L).keys.length / 2), next := (t.node L).next }).1).setNode L { t.node L with keys := (t.node L).keys.take ((t.node L).keys.length / 2), values := (t.node L).values.take ((t.node L).keys.length / 2), next := some t.arena.length }) parentIdx (((t.node L).keys.drop ((t.node L).keys.length / 2)).getD 0 []) t.arena.length).setNode t.arena.length { (insertIntoParentGo fuel (((t.alloc { newLeafNode with keys := (t.node L).keys.drop ((t.node L).keys.length / 2), values := (t.node L).values.drop ((t.node L).keys.length / 2), next := (t.node L).next }).1).setNode L { t.node L with keys := (t.node L).keys.take ((t.node L).keys.length / 2), values := (t.node L).values.take ((t.node L).keys.length / 2), next := some t.arena.length }) parentIdx (((t.node L).keys.drop ((t.node L).keys.length / 2)).getD 0 []) t.arena.length).node t.arena.length with parent := ((insertIntoParentGo fuel (((t.alloc { newLeafNode with keys := (t.node L).keys.drop ((t.node L).keys.length / 2), values := (t.node L).values.drop ((t.node L).keys.length / 2), next := (t.node L).next }).1).setNode L { t.node L with keys := (t.node L).keys.take ((t.node L).keys.length / 2), values := (t.node L).values.take ((t.node L).keys.length / 2), next := some t.arena.length }) parentIdx (((t.node L).keys.drop ((t.node L).keys.length / 2)).getD 0 []) t.arena.length).node L).parent })) := rfl
  rw [heq]
  set N0 := t.arena.length with hN0
  set mid := (t.node L).keys.length / 2 with hmid
  have hmid1 : 1 ≤ mid := by omega
  have hmidlt : mid < (t.node L).keys.length := by omega
  set nNew : BNode := { newLeafNode with
    keys := (t.node L).keys.drop mid
    values := (t.node L).values.drop mid
    next := (t.node L).next } with hnNew
  set t1s := (t.alloc nNew).1 with ht1s
  have hlen1 : t1s.arena.length = N0 + 1 := alloc_arena_length _ _
  have hold1 : ∀ j, j < N0 → t1s.node j = t.node j := fun j hj =>
    node_alloc_old _ hj
  have hnew1 : t1s.node N0 = nNew := node_alloc_new _ _
  set nL : BNode := { t.node L with
    keys := (t.node L).keys.take mid
    values := (t.node L).values.take mid
    next := some N0 } with hnL
  set t2s := t1s.setNode L nL with ht2s
  have hlen2 : t2s.arena.length = N0 + 1 := by
    rw [ht2s, setNode_arena_length, hlen1]
  have hroot2 : t2s.root = t.root := rfl
  have hnodeL2 : t2s.node L = nL := node_setNode_same _ (by omega)
  have hnodeN2 : t2s.node N0 = nNew := by
    rw [ht2s, node_setNode_other _ (by omega : (N0 : Nat) ≠ L), hnew1]
  have hold2 : ∀ j, j < N0 → j ≠ L → t2s.node j = t.node j := by
    intro j hj hjL
    rw [ht2s, node_setNode_other _ hjL, hold1 j hj]
  set rank2 := Function.update rank N0 (rank L) with hrank2
  have hrk2old : ∀ j, j < N0 → rank2 j = rank j := fun j hj =>
    Function.update_noteq (by omega) _ _
  have hrk2new : rank2 N0 = rank L := Function.update_same _ _ _
  have hs1 : ShapeInv t1s [N0] rank2 :=
    shapeInv_allocLeaf hwf.shape nNew (by rw [hnNew]; rfl)
      (by rw [hnNew]; rfl) (rank L)
  have hs2 : ShapeInv t2s [N0] rank2 := by
    refine shapeInv_setLeafFields hs1 (by omega) nL ?_ ?_ ?_ ?_
    · rw [hold1 L hLlt, hnL]
    · rw [hold1 L hLlt, hnL]
    · rw [hold1 L hLlt, hnL]
    · intro hfalse
      rw [hold1 L hLlt] at hfalse
      rw [hfalse] at hLleaf
      simp at hLleaf
  set pk := ((t.node L).keys.drop mid).getD 0 [] with hpk
  have hpkD : pk = (t.node L).keys.getD mid [] := by
    rw [hpk, getD_drop_zero hmidlt]
  have hpkmem : pk ∈ (t.node L).keys := by
    rw [hpkD]
    exact getD_mem_of_lt hmidlt
  have hpkgt : bytesLt [0] pk := by
    have h0mem : (t.node L).keys.getD 0 [] ∈ (t.node L).keys :=
      getD_mem_of_lt (by omega)
    have h0ne : (t.node L).keys.getD 0 [] ≠ [] := hkne _ h0mem
    have hle := bytesCompare_zeroByte_le h0ne
    have hlt := strictSorted_getD_lt hsorted hmid1 hmidlt
    rw [hpkD]
    exact bytesLe_lt_trans hle hlt
  have htake_len : ((t.node L).keys.take mid).length = mid :=
    List.length_take_of_le (by omega)
  have htakev_len : ((t.node L).values.take mid).length = mid :=
    List.length_take_of_le (by omega)
  have hEsplit : leafEntries t L =
      ((t.node L).keys.take mid).zip ((t.node L).values.take mid) ++
      ((t.node L).keys.drop mid).zip ((t.node L).values.drop mid) := by
    rw [leafEntries, zip_take, zip_drop, List.take_append_drop]
  rcases hpar : ((t.node L).parent) with _ | P
  · -- the split leaf is the root: a fresh root node is allocated
    have hrootL : L = t.root := hwf.shape.pnr L hLlt (by simp) hpar
    obtain ⟨hd, d, hcf, hsp, hdb⟩ := hwf.chainSpine
    have hhd : hd = L := by
      rw [← hrootL] at hsp
      cases hsp with
      | leaf i hi => rfl
      | step d2 i j h2 hi hj hrec =>
          rw [hi] at hLleaf
          simp at hLleaf
    rw [hhd] at hcf
    obtain ⟨B0, hchainEq, hnextB0⟩ : ∃ B0, chain = L :: B0 ∧
        ((t.node L).next = none ∧ B0 = [] ∨
         ∃ j, (t.node L).next = some j ∧ ChainFrom t j B0) := by
      cases hcf with
      | last i hnone => exact ⟨[], rfl, Or.inl ⟨hnone, rfl⟩⟩
      | cons i j l hnext hrest => exact ⟨l, rfl, Or.inr ⟨j, hnext, hrest⟩⟩
    have hndchain := hwf.chainNodup
    rw [hchainEq] at hndchain
    have hLB0 : L ∉ B0 := (List.nodup_cons.mp hndchain).1
    have hndB0 : B0.Nodup := (List.nodup_cons.mp hndchain).2
    have hB0mem : ∀ b ∈ B0, b < N0 ∧ b ≠ L ∧ (t.node b).isLeaf = true := by
      intro b hb
      have := hwf.chainMem b (by rw [hchainEq]; simp [hb])
      exact ⟨this.1, fun h => hLB0 (h ▸ hb), this.2⟩
    set nR : BNode := { newInternalNode with keys := [pk], children := [L, N0] } with hnR
    set t3s := (t2s.alloc nR).1 with ht3s
    set t4s := t3s.setNode L { t3s.node L with parent := some t2s.arena.length } with ht4s
    set t5s := t4s.setNode N0 { t4s.node N0 with parent := some t2s.arena.length } with ht5s
    have hlen3 : t3s.arena.length = N0 + 2 := by
      rw [ht3s, alloc_arena_length]
      omega
    have hlen4 : t4s.arena.length = N0 + 2 := by
      rw [ht4s, setNode_arena_length, hlen3]
    have hlen5 : t5s.arena.length = N0 + 2 := by
      rw [ht5s, setNode_arena_length, hlen4]
    have hRbound : t2s.arena.length = N0 + 1 := hlen2
    have hold3 : ∀ j, j < N0 + 1 → t3s.node j = t2s.node j := by
      intro j hj
      rw [ht3s]
      exact node_alloc_old _ (by omega)
    have hnodeR3 : t3s.node t2s.arena.length = nR := by
      rw [ht3s]
      exact node_alloc_new _ _
    have hnodeL5 : t5s.node L = { t2s.node L with parent := some t2s.arena.length } := by
      rw [ht5s, node_setNode_other _ (by omega : L ≠ N0), ht4s,
        node_setNode_same _ (by omega), hold3 L (by omega)]
    have hnodeN5 : t5s.node N0 = { nNew with parent := some t2s.arena.length } := by
      rw [ht5s, node_setNode_same _ (by omega), ht4s,
        node_setNode_other _ (by omega : (N0 : Nat) ≠ L), hold3 N0 (by omega),
        hnodeN2]
    have hnodeR5 : t5s.node t2s.arena.length = nR := by
      rw [ht5s, node_setNode_other _ (by omega : t2s.arena.length ≠ N0),
        ht4s, node_setNode_other _ (by omega : t2s.arena.length ≠ L), hnodeR3]
    have hpres : ∀ b, b < N0 → b ≠ L → t5s.node b = t.node b := by
      intro b hb hbL
      rw [ht5s, node_setNode_other _ (by omega : b ≠ N0), ht4s,
        node_setNode_other _ hbL, hold3 b (by omega), hold2 b hb hbL]
    set rank3 := Function.update rank2 t2s.arena.length (rank2 L + 1)
      with hrank3
    have hIP := ip_stage_newRoot (x := L) (y := N0) hs2
      (by rw [hroot2]; exact hrootL) (by omega) (by omega : (N0 : Nat) ≠ L)
      hpkgt (le_of_eq (by rw [hrk2new, hrk2old L hLlt]))
    set F : BTree := { t5s with root := t2s.arena.length } with hFdef
    have hnodeF : ∀ j, F.node j = t5s.node j := fun j => rfl
    have hlenF : F.arena.length = N0 + 2 := hlen5
    show ∃ chain' rank', TreeWF F chain' rank' ∧
      chainEntries F chain' = chainEntries t chain
    have hrootF : F.root = t2s.arena.length := rfl
    have hshapeF : ShapeInv F [N0] rank3 := hIP.shape
    have hshedF : ShapeInv F [] rank3 := by
      refine shapeInv_shed hshapeF (Or.inl ?_)
      rw [hnodeF N0, hnodeN5]
      simp
    refine ⟨L :: N0 :: B0, rank3, ?_, ?_⟩
    · refine ⟨hshedF, ?_, ?_, ?_, ?_, ?_, ?_, ?_, ?_⟩
      · -- chainSpine
        refine ⟨L, 1, ?_, ?_, by omega⟩
        · refine ChainFrom.cons L N0 (N0 :: B0) ?_ ?_
          · rw [hnodeF L, hnodeL5]
            show (t2s.node L).next = some N0
            rw [hnodeL2]
          · rcases hnextB0 with ⟨hnone, rfl⟩ | ⟨j, hnext, hrest⟩
            · refine ChainFrom.last N0 ?_
              rw [hnodeF N0, hnodeN5]
              show nNew.next = none
              rw [hnNew]
              exact hnone
            · refine ChainFrom.cons N0 j B0 ?_ ?_
              · rw [hnodeF N0, hnodeN5]
                show nNew.next = some j
                rw [hnNew]
                exact hnext
              · refine chainFrom_congr hrest ?_
                intro z hz
                obtain ⟨hz1, hz2, _⟩ := hB0mem z hz
                rw [hnodeF z, hpres z hz1 hz2]
        · rw [hrootF]
          refine LeftSpine.step 0 t2s.arena.length L L ?_ ?_ ?_
          · rw [hnodeF _, hnodeR5, hnR]
            rfl
          · rw [hnodeF _, hnodeR5, hnR]
            rfl
          · refine LeftSpine.leaf L ?_
            rw [hnodeF L, hnodeL5]
            show (t2s.node L).isLeaf = true
            rw [hnodeL2]
            exact hLleaf
      · -- chainMem
        intro i hi
        rcases List.mem_cons.mp hi with hEq | hi2
        · rw [hEq]
          refine ⟨by omega, ?_⟩
          rw [hnodeF L, hnodeL5, hnodeL2]
          show (t.node L).isLeaf = true
          exact hLleaf
        rcases List.mem_cons.mp hi2 with hEq | hi3
        · rw [hEq]
          refine ⟨by omega, ?_⟩
          rw [hnodeF N0, hnodeN5]
          show newLeafNode.isLeaf = true
          rfl
        · obtain ⟨h1, h2, h3⟩ := hB0mem i hi3
          refine ⟨by omega, ?_⟩
          rw [hnodeF i, hpres i h1 h2]
          exact h3
      · -- nodup
        refine List.nodup_cons.mpr ⟨?_, List.nodup_cons.mpr ⟨?_, hndB0⟩⟩
        · intro h
          rcases List.mem_cons.mp h with h1 | h1
          · omega
          · exact hLB0 h1
        · intro h
          have := (hB0mem N0 h).1
          omega
      · -- chainLen
        have := hwf.chainLen
        rw [hchainEq] at this
        simp only [List.length_cons] at this ⊢
        omega
      · -- covers
        intro i hi hleaf
        rw [hlenF] at hi
        rcases (by omega : i < N0 ∨ i = N0 ∨ i = N0 + 1) with h1 | h1 | h1
        · by_cases hiL : i = L
          · simp [hiL]
          · rw [hnodeF i, hpres i h1 hiL] at hleaf
            have := hwf.covers i (by omega) hleaf
            rw [hchainEq] at this
            rcases List.mem_cons.mp this with h2 | h2
            · exact absurd h2 hiL
            · simp [h2]
        · simp [h1]
        · rw [hnodeF i, show i = t2s.arena.length by omega, hnodeR5,
            hnR] at hleaf
          simp [newInternalNode] at hleaf
      · -- leafKV
        intro i hi
        rcases List.mem_cons.mp hi with hEq | hi2
        · rw [hEq]
          rw [hnodeF L, hnodeL5, hnodeL2]
          show ((t.node L).keys.take mid).length =
            ((t.node L).values.take mid).length
          rw [List.length_take, List.length_take, ← hkv]
        rcases List.mem_cons.mp hi2 with hEq | hi3
        · rw [hEq]
          rw [hnodeF N0, hnodeN5]
          show ((t.node L).keys.drop mid).length =
            ((t.node L).values.drop mid).length
          rw [List.length_drop, List.length_drop, hkv]
        · obtain ⟨h1, h2, _⟩ := hB0mem i hi3
          rw [hnodeF i, hpres i h1 h2]
          exact hwf.leafKV i (by rw [hchainEq]; simp [hi3])
      · -- leafSorted
        intro i hi
        rcases List.mem_cons.mp hi with hEq | hi2
        · rw [hEq]
          rw [hnodeF L, hnodeL5, hnodeL2]
          show strictSorted ((t.node L).keys.take mid)
          exact hsorted.sublist (List.take_sublist _ _)
        rcases List.mem_cons.mp hi2 with hEq | hi3
        · rw [hEq]
          rw [hnodeF N0, hnodeN5]
          show strictSorted ((t.node L).keys.drop mid)
          exact hsorted.sublist (List.drop_sublist _ _)
        · obtain ⟨h1, h2, _⟩ := hB0mem i hi3
          rw [hnodeF i, hpres i h1 h2]
          exact hwf.leafSorted i (by rw [hchainEq]; simp [hi3])
      · -- leafKeysNe
        intro i hi
        rcases List.mem_cons.mp hi with hEq | hi2
        · rw [hEq]
          rw [hnodeF L, hnodeL5, hnodeL2]
          intro k hk
          exact hkne k (List.take_subset _ _ hk)
        rcases List.mem_cons.mp hi2 with hEq | hi3
        · rw [hEq]
          rw [hnodeF N0, hnodeN5]
          intro k hk
          exact hkne k (List.drop_subset _ _ hk)
        · obtain ⟨h1, h2, _⟩ := hB0mem i hi3
          rw [hnodeF i, hpres i h1 h2]
          exact hwf.leafKeysNe i (by rw [hchainEq]; simp [hi3])
    · -- entries preserved
      rw [hchainEq, chainEntries_cons, chainEntries_cons, chainEntries_cons]
      have hEL : leafEntries F L =
          ((t.node L).keys.take mid).zip ((t.node L).values.take mid) := by
        rw [leafEntries, hnodeF L, hnodeL5, hnodeL2]
      have hEN : leafEntries F N0 =
          ((t.node L).keys.drop mid).zip ((t.node L).values.drop mid) := by
        rw [leafEntries, hnodeF N0, hnodeN5]
      have hEB : chainEntries F B0 = chainEntries t B0 := by
        refine chainEntries_congr ?_
        intro z hz
        obtain ⟨h1, h2, _⟩ := hB0mem z hz
        rw [hnodeF z, hpres z h1 h2]
        exact ⟨rfl, rfl⟩
      rw [hEL, hEN, hEB, ← List.append_assoc, ← hEsplit]
  · -- the split leaf has a parent: recursive parent insertion
    have hPfacts := hwf.shape.parentInternal L P hLlt hpar
    have hPneL : P ≠ L := by
      intro h
      rw [h, hLleaf] at hPfacts
      simp at hPfacts
    have hrkLP := hwf.shape.parentRank L P hLlt hpar
    have hnodeP2 : t2s.node P = t.node P := hold2 P hPfacts.1 hPneL
    set t3r := insertIntoParentGo fuel t2s P pk N0 with ht3r
    obtain ⟨rank3, hIP⟩ := insertIntoParentGo_spec fuel t2s [N0] rank2 P pk
      N0 hs2 (by omega) (by rw [hnodeP2]; exact hPfacts.2)
      (by
        intro e he
        simp only [List.mem_singleton] at he
        subst he
        rw [hrk2new, hrk2old P hPfacts.1]
        exact hrkLP)
      (by
        intro e he
        simp only [List.mem_singleton] at he
        subst he
        omega)
      (by simp)
      (by
        rw [hrk2new, hrk2old P hPfacts.1]
        exact hrkLP)
      hpkgt
    rw [← ht3r] at hIP
    have hlen3r : N0 + 1 ≤ t3r.arena.length := by
      have := hIP.lenMono
      omega
    have hsomeL : ((t3r.node L).parent).isSome = true := by
      refine hIP.parentSome L (by omega) ?_
      rw [hnodeL2]
      show ((t.node L).parent).isSome = true
      rw [hpar]
      rfl
    obtain ⟨q, hq⟩ := Option.isSome_iff_exists.mp hsomeL
    have hqvalid := hIP.shape.parentInternal L q (by omega) hq
    have hC := ip_stage_setParent (x := N0) (q := q) hIP.shape (by omega)
      hqvalid.1 hqvalid.2
      (by
        have h1 : rank3 N0 = rank L := by
          rw [hIP.rankAgree N0 (by omega), hrk2new]
        have h2 : rank3 L = rank L := by
          rw [hIP.rankAgree L (by omega), hrk2old L hLlt]
        have h3 := hIP.shape.parentRank L q (by omega) hq
        omega)
    have hCres : IPRes t3r (t3r.setNode N0 { t3r.node N0 with parent := (t3r.node L).parent }) rank3 rank3 [N0] := by
      rw [hq]
      exact hC
    have hIP2 := hIP.trans hCres
    set F := t3r.setNode N0 { t3r.node N0 with parent := (t3r.node L).parent } with hFdef
    have hlenF : F.arena.length = t3r.arena.length := setNode_arena_length _ _ _
    show ∃ chain' rank', TreeWF F chain' rank' ∧
      chainEntries F chain' = chainEntries t chain
    have hshapeF : ShapeInv F [] rank3 := by
      refine shapeInv_shed hIP2.shape (Or.inl ?_)
      rw [hFdef, node_setNode_same _ (by omega)]
      simp [hq]
    have hpres : ∀ b ∈ chain, b ≠ L →
        (F.node b).keys = (t.node b).keys ∧
        (F.node b).values = (t.node b).values ∧
        (F.node b).next = (t.node b).next ∧
        (F.node b).isLeaf = true := by
      intro b hb hbL
      obtain ⟨hblt, hbleaf⟩ := hwf.chainMem b hb
      have hb2 : t2s.node b = t.node b := hold2 b hblt hbL
      have hbl2 : (t2s.node b).isLeaf = true := by rw [hb2]; exact hbleaf
      have hsk := hIP2.leafSkel b (by omega) hbl2
      refine ⟨hsk.1.trans (by rw [hb2]), hsk.2.1.trans (by rw [hb2]),
        hsk.2.2.trans (by rw [hb2]), ?_⟩
      rw [hIP2.isLeafPres b (by omega)]
      exact hbl2
    have hleafL2 : (t2s.node L).isLeaf = true := by
      rw [hnodeL2]
      show (t.node L).isLeaf = true
      exact hLleaf
    have hskL := hIP2.leafSkel L (by omega) hleafL2
    have hfinL : (F.node L).keys = (t.node L).keys.take mid ∧
        (F.node L).values = (t.node L).values.take mid ∧
        (F.node L).next = some N0 ∧ (F.node L).isLeaf = true := by
      refine ⟨hskL.1.trans (by rw [hnodeL2]), hskL.2.1.trans (by rw [hnodeL2]),
        hskL.2.2.trans (by rw [hnodeL2]), ?_⟩
      rw [hIP2.isLeafPres L (by omega)]
      exact hleafL2
    have hleafN2 : (t2s.node N0).isLeaf = true := by
      rw [hnodeN2]
      rfl
    have hskN := hIP2.leafSkel N0 (by omega) hleafN2
    have hfinN : (F.node N0).keys = (t.node L).keys.drop mid ∧
        (F.node N0).values = (t.node L).values.drop mid ∧
        (F.node N0).next = (t.node L).next ∧ (F.node N0).isLeaf = true := by
      refine ⟨hskN.1.trans (by rw [hnodeN2]), hskN.2.1.trans (by rw [hnodeN2]),
        hskN.2.2.trans (by rw [hnodeN2]), ?_⟩
      rw [hIP2.isLeafPres N0 (by omega)]
      exact hleafN2
    obtain ⟨A, B, hchainEq⟩ := List.append_of_mem hm
    have hnd' : (A ++ L :: B).Nodup := hchainEq ▸ hwf.chainNodup
    have hLA : L ∉ A := by
      intro h
      exact (List.disjoint_of_nodup_append hnd') h (by simp)
    have hLB : L ∉ B := by
      have := hnd'.of_append_right
      exact (List.nodup_cons.mp this).1
    have hN0chain : N0 ∉ A ++ L :: B := by
      intro h
      have := (hwf.chainMem N0 (hchainEq ▸ h)).1
      omega
    have hmemA : ∀ b ∈ A, b ∈ chain ∧ b ≠ L := by
      intro b hb
      refine ⟨by rw [hchainEq]; simp [hb], ?_⟩
      intro h
      exact hLA (h ▸ hb)
    have hmemB : ∀ b ∈ B, b ∈ chain ∧ b ≠ L := by
      intro b hb
      refine ⟨by rw [hchainEq]; simp [hb], ?_⟩
      intro h
      exact hLB (h ▸ hb)
    refine ⟨A ++ L :: N0 :: B, rank3, ?_, ?_⟩
    · refine ⟨hshapeF, ?_, ?_, ?_, ?_, ?_, ?_, ?_, ?_⟩
      · -- chainSpine
        obtain ⟨hd, d, hcf, hsp, hdb⟩ := hwf.chainSpine
        have hsp2 : LeftSpine t2s d t2s.root hd := by
          rw [hroot2]
          refine leftSpine_congr hsp hwf.shape.rootLt
            (spineChild_lt hwf.shape) ?_ ?_
          · intro i hi
            by_cases hiL : i = L
            · subst hiL
              rw [hnodeL2]
            · rw [hold2 i hi hiL]
          · intro i hi hil
            by_cases hiL : i = L
            · subst hiL
              rw [hil] at hLleaf
              simp at hLleaf
            · rw [hold2 i hi hiL]
        obtain ⟨d3, hsp3, hd3⟩ := hIP2.spine d hd hsp2
        refine ⟨hd, d3, ?_, hsp3, by omega⟩
        refine chainFrom_splice (hchainEq ▸ hcf) ?_ ?_ ?_ ?_
        · intro i hi
          exact (hpres i (hmemA i hi).1 (hmemA i hi).2).2.2.1
        · intro i hi
          exact (hpres i (hmemB i hi).1 (hmemB i hi).2).2.2.1
        · exact hfinL.2.2.1
        · rw [hfinN.2.2.1]
      · -- chainMem
        intro i hi
        rcases mem_splice_iff.mp hi with hEq | hi2
        · rw [hEq]
          exact ⟨by omega, hfinN.2.2.2⟩
        · have hic : i ∈ chain := hchainEq ▸ hi2
          have hilt := (hwf.chainMem i hic).1
          by_cases hiL : i = L
          · rw [hiL]
            exact ⟨by omega, hfinL.2.2.2⟩
          · exact ⟨by omega, (hpres i hic hiL).2.2.2⟩
      · -- nodup
        exact nodup_splice hnd' hN0chain
      · -- chainLen
        rw [length_splice]
        have h1 : (A ++ L :: B).length = chain.length := by rw [hchainEq]
        have := hwf.chainLen
        omega
      · -- covers
        intro i hi hleaf
        by_cases hiN : i = N0
        · rw [hiN]
          exact mem_splice_iff.mpr (Or.inl rfl)
        by_cases hi2 : i < N0 + 1
        · have hilt : i < N0 := by omega
          have hleaf2 : (t2s.node i).isLeaf = true := by
            rw [← hIP2.isLeafPres i (by omega)]
            exact hleaf
          by_cases hiL : i = L
          · rw [hiL]
            exact mem_splice_iff.mpr (Or.inr (by simp))
          · rw [hold2 i hilt hiL] at hleaf2
            have := hwf.covers i (by omega) hleaf2
            rw [hchainEq] at this
            exact mem_splice_iff.mpr (Or.inr this)
        · have := hIP2.freshInternal i (by omega) (by omega)
          rw [this] at hleaf
          simp at hleaf
      · -- leafKV
        intro i hi
        rcases mem_splice_iff.mp hi with hEq | hi2
        · rw [hEq, hfinN.1, hfinN.2.1, List.length_drop, List.length_drop,
            hkv]
        · have hic : i ∈ chain := hchainEq ▸ hi2
          by_cases hiL : i = L
          · rw [hiL, hfinL.1, hfinL.2.1, List.length_take, List.length_take,
              ← hkv]
          · rw [(hpres i hic hiL).1, (hpres i hic hiL).2.1]
            exact hwf.leafKV i hic
      · -- leafSorted
        intro i hi
        rcases mem_splice_iff.mp hi with hEq | hi2
        · rw [hEq, hfinN.1]
          exact hsorted.sublist (List.drop_sublist _ _)
        · have hic : i ∈ chain := hchainEq ▸ hi2
          by_cases hiL : i = L
          · rw [hiL, hfinL.1]
            exact hsorted.sublist (List.take_sublist _ _)
          · rw [(hpres i hic hiL).1]
            exact hwf.leafSorted i hic
      · -- leafKeysNe
        intro i hi
        rcases mem_splice_iff.mp hi with hEq | hi2
        · rw [hEq, hfinN.1]
          intro k hk
          exact hkne k (List.drop_subset _ _ hk)
        · have hic : i ∈ chain := hchainEq ▸ hi2
          by_cases hiL : i = L
          · rw [hiL, hfinL.1]
            intro k hk
            exact hkne k (List.take_subset _ _ hk)
          · rw [(hpres i hic hiL).1]
            exact hwf.leafKeysNe i hic
    · -- entries preserved
      rw [hchainEq, chainEntries_append, chainEntries_append,
        chainEntries_cons, chainEntries_cons, chainEntries_cons]
      have hEA : chainEntries F A = chainEntries t A := by
        refine chainEntries_congr ?_
        intro z hz
        exact ⟨(hpres z (hmemA z hz).1 (hmemA z hz).2).1,
          (hpres z (hmemA z hz).1 (hmemA z hz).2).2.1⟩
      have hEB : chainEntries F B = chainEntries t B := by
        refine chainEntries_congr ?_
        intro z hz
        exact ⟨(hpres z (hmemB z hz).1 (hmemB z hz).2).1,
          (hpres z (hmemB z hz).1 (hmemB z hz).2).2.1⟩
      have hEL : leafEntries F L =
          ((t.node L).keys.take mid).zip ((t.node L).values.take mid) := by
        rw [leafEntries, hfinL.1, hfinL.2.1]
      have hEN : leafEntries F N0 =
          ((t.node L).keys.drop mid).zip ((t.node L).values.drop mid) := by
        rw [leafEntries, hfinN.1, hfinN.2.1]
      rw [hEA, hEB, hEL, hEN, hEsplit, List.append_assoc]

theorem get?_eq_some_getD {α : Type} {l : List α} {n : Nat} (d : α)
    (h : n < l.length) : l.get? n = some (l.getD n d) := by
  induction l generalizing n with
  | nil => simp at h
  | cons x xs ih =>
      cases n with
      | zero => simp
      | succ m => simpa using ih (by simpa using h)

theorem chainEntries_update_leaf {t t' : BTree} {chain : List Nat} {L : Nat}
    (hm : L ∈ chain) (hnd : chain.Nodup)
    (hother : ∀ i ∈ chain, i ≠ L → (t'.node i).keys = (t.node i).keys ∧
      (t'.node i).values = (t.node i).values) :
    ∃ X Y, chainEntries t chain = X ++ (leafEntries t L ++ Y) ∧
      chainEntries t' chain = X ++ (leafEntries t' L ++ Y) := by
  obtain ⟨A, B, hchainEq⟩ := List.append_of_mem hm
  have hnd' : (A ++ L :: B).Nodup := hchainEq ▸ hnd
  have hLA : L ∉ A := by
    intro h
    exact (List.disjoint_of_nodup_append hnd') h (by simp)
  have hLB : L ∉ B := by
    have := hnd'.of_append_right
    exact (List.nodup_cons.mp this).1
  have hmemA : ∀ b ∈ A, b ∈ chain ∧ b ≠ L := by
    intro b hb
    exact ⟨by rw [hchainEq]; simp [hb], fun h => hLA (h ▸ hb)⟩
  have hmemB : ∀ b ∈ B, b ∈ chain ∧ b ≠ L := by
    intro b hb
    exact ⟨by rw [hchainEq]; simp [hb], fun h => hLB (h ▸ hb)⟩
  have hEA : chainEntries t' A = chainEntries t A :=
    chainEntries_congr (fun z hz =>
      hother z (hmemA z hz).1 (hmemA z hz).2)
  have hEB : chainEntries t' B = chainEntries t B :=
    chainEntries_congr (fun z hz =>
      hother z (hmemB z hz).1 (hmemB z hz).2)
  refine ⟨chainEntries t A, chainEntries t B, ?_, ?_⟩
  · rw [hchainEq, chainEntries_append, chainEntries_cons]
  · rw [hchainEq, chainEntries_append, chainEntries_cons, hEA, hEB]

theorem insert_wf {t : BTree} {chain : List Nat} {rank : Nat → Nat}
    (hwf : TreeWF t chain rank) (key value : List Nat) (hk : key ≠ []) :
    (t.Insert key value).2 = none ∧
    ∃ chain' rank', TreeWF (t.Insert key value).1 chain' rank' ∧
      (t.Get key = none →
        (chainEntries (t.Insert key value).1 chain').length =
          (chainEntries t chain).length + 1 ∧
        entriesSize (chainEntries (t.Insert key value).1 chain') =
          entriesSize (chainEntries t chain) + value.length) ∧
      (∀ old, t.Get key = some old →
        (chainEntries (t.Insert key value).1 chain').length =
          (chainEntries t chain).length ∧
        entriesSize (chainEntries (t.Insert key value).1 chain') +
          old.length =
          entriesSize (chainEntries t chain) + value.length) := by
  have hklen : ¬ key.length = 0 := by
    intro h
    exact hk (List.length_eq_zero.mp h)
  set L := t.findLeaf key with hLdef
  obtain ⟨hm, hLlt⟩ := findLeaf_mem_chain hwf key
  have hLleaf := (hwf.chainMem L hm).2
  have hkv := hwf.leafKV L hm
  have hsorted := hwf.leafSorted L hm
  have hkne := hwf.leafKeysNe L hm
  have hGet : t.Get key = (leafFindIdx key (t.node L).keys).bind
      (fun i => (t.node L).values.get? i) := by
    rw [BTree.Get, if_neg hklen]
  have hIns : t.Insert key value =
      (if ((t.insertIntoLeaf L key value).node L).keys.length ≥
          (t.insertIntoLeaf L key value).order then
        ((t.insertIntoLeaf L key value).splitLeaf L
          (2 * (t.insertIntoLeaf L key value).arena.length + 4), none)
      else ((t.insertIntoLeaf L key value), none)) := by
    rw [BTree.Insert, if_neg hklen]
  by_cases hmem : key ∈ (t.node L).keys
  · -- overwrite: the key is present in the found leaf
    set i0 := countWhileGT key (t.node L).keys with hi0def
    have hfind : leafFindIdx key (t.node L).keys = some i0 :=
      leafFindIdx_sorted_mem hsorted hmem
    obtain ⟨hi0lt, hi0k⟩ := getD_countWhileGT_of_mem hsorted hmem
    have hGet2 : t.Get key = some ((t.node L).values.getD i0 []) := by
      rw [hGet, hfind]
      exact get?_eq_some_getD [] (by omega)
    have hIIL : t.insertIntoLeaf L key value = t.setNode L
        { t.node L with values := (t.node L).values.set i0 value } := by
      rw [BTree.insertIntoLeaf]
      rw [if_pos]
      refine ⟨hi0lt, ?_⟩
      simp only [bytesEqual, decide_eq_true_eq]
      exact hi0k
    have hwf1 : TreeWF (t.insertIntoLeaf L key value) chain rank := by
      rw [hIIL]
      have := treeWF_setLeaf hwf hm (t.node L).keys
        ((t.node L).values.set i0 value)
        (by rw [List.length_set]; exact hkv) hsorted hkne
      exact this
    have hnodeL1 : ((t.insertIntoLeaf L key value).node L).keys =
        (t.node L).keys := by
      rw [hIIL, node_setNode_same _ hLlt]
    have hE1 : ∃ X Y,
        chainEntries t chain = X ++ (leafEntries t L ++ Y) ∧
        chainEntries (t.insertIntoLeaf L key value) chain =
          X ++ (leafEntries (t.insertIntoLeaf L key value) L ++ Y) := by
      refine chainEntries_update_leaf hm hwf.chainNodup ?_
      intro i hi hiL
      rw [hIIL, node_setNode_other _ hiL]
      exact ⟨rfl, rfl⟩
    obtain ⟨X, Y, hEt, hEt1⟩ := hE1
    have hEL1 : leafEntries (t.insertIntoLeaf L key value) L =
        (t.node L).keys.zip ((t.node L).values.set i0 value) := by
      rw [leafEntries, hIIL, node_setNode_same _ hLlt]
    have hlenE : (leafEntries (t.insertIntoLeaf L key value) L).length =
        (leafEntries t L).length := by
      rw [hEL1, leafEntries, List.length_zip, List.length_zip,
        List.length_set]
    have hsizeE : entriesSize (leafEntries (t.insertIntoLeaf L key value) L) +
        ((t.node L).values.getD i0 []).length =
        entriesSize (leafEntries t L) + value.length := by
      rw [hEL1, leafEntries, entriesSize, entriesSize]
      have hmz : ∀ (vs : List (List Nat)),
          (t.node L).keys.length = vs.length →
          (((t.node L).keys.zip vs).map (fun kv => kv.2.length)).sum =
            (vs.map List.length).sum := by
        intro vs hvs
        have : ((t.node L).keys.zip vs).map (fun kv => kv.2.length) =
            (((t.node L).keys.zip vs).map Prod.snd).map List.length := by
          simp [List.map_map]
        rw [this, List.map_snd_zip _ _ (by omega)]
      rw [hmz _ (by rw [List.length_set]; exact hkv), hmz _ hkv]
      have := map_sum_set List.length (d := ([] : List Nat)) value
        (l := (t.node L).values) (n := i0) (by omega)
      omega
    -- now the optional split
    rw [hIns]
    by_cases hsplit : ((t.insertIntoLeaf L key value).node L).keys.length ≥
        (t.insertIntoLeaf L key value).order
    · rw [if_pos hsplit]
      have horder1 : (t.insertIntoLeaf L key value).order = t.order := by
        rw [hIIL]
        rfl
      have hkl2 : 2 ≤ ((t.insertIntoLeaf L key value).node L).keys.length := by
        have := hwf.shape.order3
        rw [horder1] at hsplit
        omega
      obtain ⟨chain2, rank2, hwf2, hE2⟩ := splitLeaf_wf hwf1 hm hkl2
        (2 * (t.insertIntoLeaf L key value).arena.length + 4)
      refine ⟨rfl, chain2, rank2, hwf2, ?_, ?_⟩
      · intro hnone
        rw [hGet2] at hnone
        simp at hnone
      · intro old hold
        rw [hGet2] at hold
        obtain rfl : (t.node L).values.getD i0 [] = old := by
          simpa using hold
        rw [hE2, hEt1, hEt]
        constructor
        · simp only [List.length_append]
          omega
        · rw [entriesSize_append, entriesSize_append, entriesSize_append,
            entriesSize_append]
          omega
    · rw [if_neg hsplit]
      refine ⟨rfl, chain, rank, hwf1, ?_, ?_⟩
      · intro hnone
        rw [hGet2] at hnone
        simp at hnone
      · intro old hold
        rw [hGet2] at hold
        obtain rfl : (t.node L).values.getD i0 [] = old := by
          simpa using hold
        rw [hEt1, hEt]
        constructor
        · simp only [List.length_append]
          omega
        · rw [entriesSize_append, entriesSize_append, entriesSize_append,
            entriesSize_append]
          omega
  · -- fresh insert: the key is absent from the found leaf
    set i0 := countWhileGT key (t.node L).keys with hi0def
    have hfind : leafFindIdx key (t.node L).keys = none :=
      (leafFindIdx_none_iff _ _).mpr hmem
    have hGet2 : t.Get key = none := by
      rw [hGet, hfind]
      rfl
    have hi0le : i0 ≤ (t.node L).keys.length := countWhileGT_le_length _ _
    have hIIL : t.insertIntoLeaf L key value = t.setNode L { t.node L with keys := listInsertAt i0 key (t.node L).keys, values := listInsertAt i0 value (t.node L).values } := by
      rw [BTree.insertIntoLeaf]
      rw [if_neg]
      intro hcond
      have : (t.node L).keys.getD i0 [] = key := by
        have := hcond.2
        simpa [bytesEqual] using this
      exact hmem (this ▸ getD_mem_of_lt hcond.1)
    have hwf1 : TreeWF (t.insertIntoLeaf L key value) chain rank := by
      rw [hIIL]
      refine treeWF_setLeaf hwf hm _ _ ?_ ?_ ?_
      · rw [listInsertAt_length, listInsertAt_length, hkv]
      · exact sorted_listInsertAt hsorted hmem
      · intro k hkmem
        rcases mem_listInsertAt hkmem with h | h
        · rw [h]; exact hk
        · exact hkne k h
    have hE1 : ∃ X Y,
        chainEntries t chain = X ++ (leafEntries t L ++ Y) ∧
        chainEntries (t.insertIntoLeaf L key value) chain =
          X ++ (leafEntries (t.insertIntoLeaf L key value) L ++ Y) := by
      refine chainEntries_update_leaf hm hwf.chainNodup ?_
      intro i hi hiL
      rw [hIIL, node_setNode_other _ hiL]
      exact ⟨rfl, rfl⟩
    obtain ⟨X, Y, hEt, hEt1⟩ := hE1
    have hEL1 : leafEntries (t.insertIntoLeaf L key value) L =
        listInsertAt i0 (key, value) (leafEntries t L) := by
      rw [leafEntries, hIIL, node_setNode_same _ hLlt]
      show (listInsertAt i0 key (t.node L).keys).zip
        (listInsertAt i0 value (t.node L).values) = _
      rw [zip_listInsertAt _ _ _ _ _ hkv, leafEntries]
    have hlenE : (leafEntries (t.insertIntoLeaf L key value) L).length =
        (leafEntries t L).length + 1 := by
      rw [hEL1, listInsertAt_length]
    have hsizeE : entriesSize (leafEntries (t.insertIntoLeaf L key value) L) =
        entriesSize (leafEntries t L) + value.length := by
      rw [hEL1, entriesSize, entriesSize,
        listInsertAt_map_sum (fun kv => kv.2.length) (key, value)]
      have hv : ((key, value).2).length = value.length := rfl
      omega
    rw [hIns]
    by_cases hsplit : ((t.insertIntoLeaf L key value).node L).keys.length ≥
        (t.insertIntoLeaf L key value).order
    · rw [if_pos hsplit]
      have horder1 : (t.insertIntoLeaf L key value).order = t.order := by
        rw [hIIL]
        rfl
      have hkl2 : 2 ≤ ((t.insertIntoLeaf L key value).node L).keys.length := by
        have := hwf.shape.order3
        rw [horder1] at hsplit
        omega
      obtain ⟨chain2, rank2, hwf2, hE2⟩ := splitLeaf_wf hwf1 hm hkl2
        (2 * (t.insertIntoLeaf L key value).arena.length + 4)
      refine ⟨rfl, chain2, rank2, hwf2, ?_, ?_⟩
      · intro _
        rw [hE2, hEt1, hEt]
        constructor
        · simp only [List.length_append]
          omega
        · rw [entriesSize_append, entriesSize_append, entriesSize_append,
            entriesSize_append]
          omega
      · intro old hold
        rw [hGet2] at hold
        simp at hold
    · rw [if_neg hsplit]
      refine ⟨rfl, chain, rank, hwf1, ?_, ?_⟩
      · intro _
        rw [hEt1, hEt]
        constructor
        · simp only [List.length_append]
          omega
        · rw [entriesSize_append, entriesSize_append, entriesSize_append,
            entriesSize_append]
          omega
      · intro old hold
        rw [hGet2] at hold
        simp at hold

theorem zip_getD {α β : Type} (d1 : α) (d2 : β) :
    ∀ {n : Nat} {l1 : List α} {l2 : List β}, n < l1.length →
      n < l2.length →
      (l1.zip l2).getD n (d1, d2) = (l1.getD n d1, l2.getD n d2) := by
  intro n
  induction n with
  | zero =>
      intro l1 l2 h1 h2
      cases l1 with
      | nil => simp at h1
      | cons x xs =>
          cases l2 with
          | nil => simp at h2
          | cons y ys => simp
  | succ m ih =>
      intro l1 l2 h1 h2
      cases l1 with
      | nil => simp at h1
      | cons x xs =>
          cases l2 with
          | nil => simp at h2
          | cons y ys =>
              simp only [List.zip_cons_cons, List.getD_cons_succ]
              exact ih (by simpa using h1) (by simpa using h2)

theorem delete_wf {t : BTree} {chain : List Nat} {rank : Nat → Nat}
    (hwf : TreeWF t chain rank) (key : List Nat) (hk : key ≠ []) :
    TreeWF (t.Delete key).1 chain rank ∧
    (∀ old, t.Get key = some old →
      (t.Delete key).2 = none ∧
      (chainEntries (t.Delete key).1 chain).length + 1 =
        (chainEntries t chain).length ∧
      entriesSize (chainEntries (t.Delete key).1 chain) + old.length =
        entriesSize (chainEntries t chain)) ∧
    (t.Get key = none → (t.Delete key).1 = t) := by
  have hklen : ¬ key.length = 0 := by
    intro h
    exact hk (List.length_eq_zero.mp h)
  set L := t.findLeaf key with hLdef
  obtain ⟨hm, hLlt⟩ := findLeaf_mem_chain hwf key
  have hkv := hwf.leafKV L hm
  have hsorted := hwf.leafSorted L hm
  have hkne := hwf.leafKeysNe L hm
  have hGet : t.Get key = (leafFindIdx key (t.node L).keys).bind
      (fun i => (t.node L).values.get? i) := by
    rw [BTree.Get, if_neg hklen]
  have hDel : t.Delete key =
      (match leafFindIdx key (t.node L).keys with
       | some i => (t.setNode L { t.node L with
           keys := (t.node L).keys.eraseIdx i,
           values := (t.node L).values.eraseIdx i }, none)
       | none => (t, some .keyNotFound)) := by
    rw [BTree.Delete, if_neg hklen]
  cases hfind : leafFindIdx key (t.node L).keys with
  | none =>
      rw [hDel, hfind]
      refine ⟨hwf, ?_, ?_⟩
      · intro old hold
        rw [hGet, hfind] at hold
        simp at hold
      · intro _
        rfl
  | some i =>
      obtain ⟨hilt, hik⟩ := leafFindIdx_some_lt hfind
      have hGet2 : t.Get key = some ((t.node L).values.getD i []) := by
        rw [hGet, hfind]
        exact get?_eq_some_getD [] (by omega)
      have hDel1 : (t.Delete key).1 = t.setNode L { t.node L with
          keys := (t.node L).keys.eraseIdx i,
          values := (t.node L).values.eraseIdx i } := by
        rw [hDel, hfind]
      have hDel2 : (t.Delete key).2 = none := by
        rw [hDel, hfind]
      rw [hDel1]
      have hwf1 : TreeWF (t.setNode L { t.node L with
          keys := (t.node L).keys.eraseIdx i,
          values := (t.node L).values.eraseIdx i }) chain rank := by
        refine treeWF_setLeaf hwf hm _ _ ?_ ?_ ?_
        · have h1 := length_eraseIdx_add_one (n := i)
            (l := (t.node L).keys) hilt
          have h2 := length_eraseIdx_add_one (n := i)
            (l := (t.node L).values) (by omega)
          omega
        · exact hsorted.sublist (List.eraseIdx_sublist _ _)
        · intro k hkmem
          exact hkne k ((List.eraseIdx_sublist _ _).subset hkmem)
      refine ⟨hwf1, ?_, ?_⟩
      · intro old hold
        rw [hGet2] at hold
        obtain rfl : (t.node L).values.getD i [] = old := by
          simpa using hold
        refine ⟨hDel2, ?_⟩
        obtain ⟨X, Y, hEt, hEt1⟩ :
            ∃ X Y, chainEntries t chain = X ++ (leafEntries t L ++ Y) ∧
              chainEntries (t.setNode L { t.node L with
                keys := (t.node L).keys.eraseIdx i,
                values := (t.node L).values.eraseIdx i }) chain =
              X ++ (leafEntries (t.setNode L { t.node L with
                keys := (t.node L).keys.eraseIdx i,
                values := (t.node L).values.eraseIdx i }) L ++ Y) := by
          refine chainEntries_update_leaf hm hwf.chainNodup ?_
          intro j hj hjL
          rw [node_setNode_other _ hjL]
          exact ⟨rfl, rfl⟩
        have hEL1 : leafEntries (t.setNode L { t.node L with
            keys := (t.node L).keys.eraseIdx i,
            values := (t.node L).values.eraseIdx i }) L =
            (leafEntries t L).eraseIdx i := by
          rw [leafEntries, node_setNode_same _ hLlt]
          show ((t.node L).keys.eraseIdx i).zip
            ((t.node L).values.eraseIdx i) = _
          rw [zip_eraseIdx _ _ _ hkv, leafEntries]
        have hziplen : i < (leafEntries t L).length := by
          rw [leafEntries, List.length_zip]
          omega
        have hlenE : ((leafEntries t L).eraseIdx i).length + 1 =
            (leafEntries t L).length := length_eraseIdx_add_one hziplen
        have hgetzip : (leafEntries t L).getD i ([], []) =
            ((t.node L).keys.getD i [], (t.node L).values.getD i []) := by
          rw [leafEntries]
          exact zip_getD [] [] hilt (by omega)
        have hsizeE : entriesSize ((leafEntries t L).eraseIdx i) +
            ((t.node L).values.getD i []).length =
            entriesSize (leafEntries t L) := by
          have := map_sum_eraseIdx (fun kv => kv.2.length)
            (d := (([] : List Nat), ([] : List Nat))) hziplen
          rw [hgetzip] at this
          rw [entriesSize, entriesSize]
          exact this
        rw [hEt1, hEt, hEL1]
        constructor
        · simp only [List.length_append]
          omega
        · rw [entriesSize_append, entriesSize_append, entriesSize_append,
            entriesSize_append]
          omega
      · intro hnone
        rw [hGet2] at hnone
        simp at hnone

theorem newBTree_node (o : Nat) : ∀ i, (NewBTree o).node i = newLeafNode := by
  intro i
  cases i with
  | zero => rfl
  | succ j => cases j <;> rfl

theorem treeWF_newBTree (o : Nat) :
    TreeWF (NewBTree o) [0] (fun _ => 0) := by
  have hnode := newBTree_node o
  have hlen : (NewBTree o).arena.length = 1 := rfl
  have hleaf : ∀ i, ((NewBTree o).node i).isLeaf = true := by
    intro i
    rw [hnode i]
    rfl
  have hpar : ∀ i, ((NewBTree o).node i).parent = none := by
    intro i
    rw [hnode i]
    rfl
  refine ⟨⟨?_, ?_, ?_, ?_, ?_, ?_, ?_, ?_, ?_, ?_⟩, ?_, ?_, ?_, ?_, ?_,
    ?_, ?_, ?_⟩
  · show 3 ≤ (NewBTree o).order
    show 3 ≤ (if o < 3 then 3 else o)
    by_cases h : o < 3
    · rw [if_pos h]
    · rw [if_neg h]
      omega
  · show (0 : Nat) < 1
    omega
  · intro i hi _ _
    rw [hlen] at hi
    have h0 : i = 0 := by omega
    subst h0
    rfl
  · intro i j _ hj
    rw [hpar i] at hj
    simp at hj
  · intro i j _ hj
    rw [hpar i] at hj
    simp at hj
  · intro i hi hil
    rw [hleaf i] at hil
    simp at hil
  · intro i hi hil
    rw [hleaf i] at hil
    simp at hil
  · intro i hi hil
    rw [hleaf i] at hil
    simp at hil
  · show (0 : Nat) < 1
    omega
  · intro i hi hil
    rw [hleaf i] at hil
    simp at hil
  · refine ⟨0, 0, ChainFrom.last 0 ?_, LeftSpine.leaf 0 (hleaf 0), ?_⟩
    · rw [hnode 0]
      rfl
    · rw [hlen]
  · intro i hi
    simp only [List.mem_singleton] at hi
    subst hi
    exact ⟨by rw [hlen]; omega, hleaf 0⟩
  · simp
  · rw [hlen]
    simp
  · intro i hi _
    rw [hlen] at hi
    simp
    omega
  · intro i _
    rw [hnode i]
    rfl
  · intro i _
    rw [hnode i]
    exact List.Pairwise.nil
  · intro i _
    rw [hnode i]
    intro k hk
    simp [newLeafNode] at hk

theorem chainEntries_newBTree (o : Nat) :
    chainEntries (NewBTree o) [0] = [] := by
  rw [chainEntries_cons, leafEntries, newBTree_node]
  rfl

/-- One record-store operation, as invoked through the public API. -/
inductive RecordStoreOp
  | insert (rid : RecordId) (data : List Nat)
  | update (rid : RecordId) (data : List Nat)
  | delete (rid : RecordId)
  | truncate

/-- Apply one operation, keeping the resulting store state (the per-call
error, if any, is discarded, as a caller ignoring failures would). -/
def applyRecordStoreOp (rs : BTreeRecordStore) :
    RecordStoreOp → BTreeRecordStore
  | .insert r d => (rs.InsertRecord r d).1
  | .update r d => (rs.UpdateRecord r d).1
  | .delete r => (rs.DeleteRecord r).1
  | .truncate => rs.Truncate

/-- The record-store coherence invariant: the tree is well formed and both
counters agree with the totals of the current leaf-chain contents. -/
def storeWF (rs : BTreeRecordStore) : Prop :=
  ∃ chain rank, TreeWF rs.tree chain rank ∧
    rs.numRecords = ((chainEntries rs.tree chain).length : Int) ∧
    rs.dataSize = (entriesSize (chainEntries rs.tree chain) : Int)

theorem storeWF_new (ns : String) : storeWF (NewRecordStore ns) := by
  refine ⟨[0], fun _ => 0, treeWF_newBTree 128, ?_, ?_⟩ <;>
  · have h0 : chainEntries (NewRecordStore ns).tree [0] =
        ([] : List (List Nat × List Nat)) := chainEntries_newBTree 128
    rw [h0]
    rfl

theorem storeWF_truncate (rs : BTreeRecordStore) : storeWF rs.Truncate := by
  refine ⟨[0], fun _ => 0, treeWF_newBTree 128, ?_, ?_⟩ <;>
  · have h0 : chainEntries rs.Truncate.tree [0] =
        ([] : List (List Nat × List Nat)) := chainEntries_newBTree 128
    rw [h0]
    rfl

theorem storeWF_insertRecord {rs : BTreeRecordStore} (h : storeWF rs)
    (r : RecordId) (d : List Nat) : storeWF (rs.InsertRecord r d).1 := by
  obtain ⟨chain, rank, hwf, hnum, hsize⟩ := h
  rw [BTreeRecordStore.InsertRecord]
  by_cases hnull : r.IsNull = true
  · rw [if_pos hnull]
    exact ⟨chain, rank, hwf, hnum, hsize⟩
  · rw [if_neg hnull]
    cases hab : r.AsBytes with
    | none => exact ⟨chain, rank, hwf, hnum, hsize⟩
    | some key =>
        show storeWF (match rs.tree.Get key with | some _ => (rs, some RSErr.alreadyExists) | none => (match (rs.tree.Insert key d).2 with | some e => ({ rs with tree := (rs.tree.Insert key d).1 }, some (RSErr.insertFailed e)) | none => ({ rs with tree := (rs.tree.Insert key d).1, numRecords := rs.numRecords + 1, dataSize := rs.dataSize + ((d.length : Int)) }, none))).1
        cases hget : rs.tree.Get key with
        | some v => exact ⟨chain, rank, hwf, hnum, hsize⟩
        | none =>
            by_cases hkey : key = []
            · have hins : rs.tree.Insert key d = (rs.tree, some .emptyKey) := by
                rw [hkey, BTree.Insert]
                simp
              rw [hins]
              exact ⟨chain, rank, hwf, hnum, hsize⟩
            · obtain ⟨hr2, chain2, rank2, hwf2, hcount, _⟩ :=
                insert_wf hwf key d hkey
              obtain ⟨hlen2, hsize2⟩ := hcount hget
              rw [hr2]
              refine ⟨chain2, rank2, hwf2, ?_, ?_⟩
              · show rs.numRecords + 1 =
                  ((chainEntries (rs.tree.Insert key d).1 chain2).length : Int)
                rw [hlen2, hnum]
                push_cast
                ring
              · show rs.dataSize + ((d.length : Int)) =
                  (entriesSize (chainEntries (rs.tree.Insert key d).1
                    chain2) : Int)
                rw [hsize2, hsize]
                push_cast
                ring

theorem storeWF_updateRecord {rs : BTreeRecordStore} (h : storeWF rs)
    (r : RecordId) (d : List Nat) : storeWF (rs.UpdateRecord r d).1 := by
  obtain ⟨chain, rank, hwf, hnum, hsize⟩ := h
  rw [BTreeRecordStore.UpdateRecord]
  by_cases hnull : r.IsNull = true
  · rw [if_pos hnull]
    exact ⟨chain, rank, hwf, hnum, hsize⟩
  · rw [if_neg hnull]
    cases hab : r.AsBytes with
    | none => exact ⟨chain, rank, hwf, hnum, hsize⟩
    | some key =>
        show storeWF (match rs.tree.Get key with | none => (rs, some RSErr.notFound) | some oldData => (match (rs.tree.Insert key d).2 with | some e => ({ rs with tree := (rs.tree.Insert key d).1 }, some (RSErr.updateFailed e)) | none => ({ rs with tree := (rs.tree.Insert key d).1, dataSize := rs.dataSize + (d.length : Int) - (oldData.length : Int) }, none))).1
        cases hget : rs.tree.Get key with
        | none => exact ⟨chain, rank, hwf, hnum, hsize⟩
        | some oldData =>
            have hkey : key ≠ [] := by
              intro hk
              rw [hk, BTree.Get] at hget
              simp at hget
            obtain ⟨hr2, chain2, rank2, hwf2, _, hcount⟩ :=
              insert_wf hwf key d hkey
            obtain ⟨hlen2, hsize2⟩ := hcount oldData hget
            rw [hr2]
            refine ⟨chain2, rank2, hwf2, ?_, ?_⟩
            · show rs.numRecords =
                ((chainEntries (rs.tree.Insert key d).1 chain2).length : Int)
              rw [hlen2]
              exact hnum
            · show rs.dataSize + (d.length : Int) - (oldData.length : Int) =
                (entriesSize (chainEntries (rs.tree.Insert key d).1
                  chain2) : Int)
              rw [hsize]
              have h2 : (entriesSize (chainEntries (rs.tree.Insert key d).1
                  chain2) : Int) + (oldData.length : Int) =
                  (entriesSize (chainEntries rs.tree chain) : Int) +
                  (d.length : Int) := by
                exact_mod_cast hsize2
              omega

theorem storeWF_deleteRecord {rs : BTreeRecordStore} (h : storeWF rs)
    (r : RecordId) : storeWF (rs.DeleteRecord r).1 := by
  obtain ⟨chain, rank, hwf, hnum, hsize⟩ := h
  rw [BTreeRecordStore.DeleteRecord]
  by_cases hnull : r.IsNull = true
  · rw [if_pos hnull]
    exact ⟨chain, rank, hwf, hnum, hsize⟩
  · rw [if_neg hnull]
    cases hab : r.AsBytes with
    | none => exact ⟨chain, rank, hwf, hnum, hsize⟩
    | some key =>
        show storeWF (match rs.tree.Get key with | none => (rs, some RSErr.notFound) | some data => (match (rs.tree.Delete key).2 with | some e => ({ rs with tree := (rs.tree.Delete key).1 }, some (RSErr.deleteFailed e)) | none => ({ rs with tree := (rs.tree.Delete key).1, numRecords := rs.numRecords - 1, dataSize := rs.dataSize - ((data.length : Int)) }, none))).1
        cases hget : rs.tree.Get key with
        | none => exact ⟨chain, rank, hwf, hnum, hsize⟩
        | some data =>
            have hkey : key ≠ [] := by
              intro hk
              rw [hk, BTree.Get] at hget
              simp at hget
            obtain ⟨hwf1, hcount, _⟩ := delete_wf hwf key hkey
            obtain ⟨hr2, hlen2, hsize2⟩ := hcount data hget
            rw [hr2]
            refine ⟨chain, rank, hwf1, ?_, ?_⟩
            · show rs.numRecords - 1 =
                ((chainEntries (rs.tree.Delete key).1 chain).length : Int)
              rw [hnum]
              omega
            · show rs.dataSize - ((data.length : Int)) =
                (entriesSize (chainEntries (rs.tree.Delete key).1
                  chain) : Int)
              rw [hsize]
              have h2 : (entriesSize (chainEntries (rs.tree.Delete key).1
                  chain) : Int) + (data.length : Int) =
                  (entriesSize (chainEntries rs.tree chain) : Int) := by
                exact_mod_cast hsize2
              omega

theorem storeWF_applyOp {rs : BTreeRecordStore} (h : storeWF rs)
    (op : RecordStoreOp) : storeWF (applyRecordStoreOp rs op) := by
  cases op with
  | insert r d => exact storeWF_insertRecord h r d
  | update r d => exact storeWF_updateRecord h r d
  | delete r => exact storeWF_deleteRecord h r
  | truncate => exact storeWF_truncate rs

theorem storeWF_foldl (ns : String) (ops : List RecordStoreOp) :
    storeWF (ops.foldl applyRecordStoreOp (NewRecordStore ns)) := by
  have hgen : ∀ (l : List RecordStoreOp) (rs : BTreeRecordStore),
      storeWF rs → storeWF (l.foldl applyRecordStoreOp rs) := by
    intro l
    induction l with
    | nil => intro rs h; exact h
    | cons op rest ih =>
        intro rs h
        exact ih _ (storeWF_applyOp h op)
  exact hgen ops _ (storeWF_new ns)

/-- C6: after every sequence of RecordStore operations applied to a fresh
store (InsertRecord, UpdateRecord, DeleteRecord, Truncate, with each call's
error ignored as the claim's "successful operations" allows, since failing
calls leave the store unchanged), `NumRecords()` equals the number of
entries a full `Scan` from the null RecordId returns and `DataSize()`
equals the sum of the byte lengths of the scanned record payloads. -/
theorem RecordStore_counters_match_scan (ns : String)
    (ops : List RecordStoreOp) :
    (ops.foldl applyRecordStoreOp (NewRecordStore ns)).NumRecords =
      ((((ops.foldl applyRecordStoreOp (NewRecordStore ns)).Scan
        NullRecordId).1).length : Int) ∧
    (ops.foldl applyRecordStoreOp (NewRecordStore ns)).DataSize =
      (entriesSize (((ops.foldl applyRecordStoreOp (NewRecordStore ns)).Scan
        NullRecordId).1) : Int) := by
  obtain ⟨chain, rank, hwf, hnum, hsize⟩ := storeWF_foldl ns ops
  set rs := ops.foldl applyRecordStoreOp (NewRecordStore ns) with hrs
  have hscan : (rs.Scan NullRecordId).1 = chainEntries rs.tree chain := by
    rw [BTreeRecordStore.Scan]
    rw [if_neg (by simp [NullRecordId, RecordId.IsNull])]
    exact range_zero_eq_chainEntries hwf
  rw [BTreeRecordStore.NumRecords, BTreeRecordStore.DataSize, hscan]
  exact ⟨hnum, hsize⟩
